import Mathlib

/-!
# ScannerS: annotation store (`DataMap`) and severity-wrapped constraints

A shallow embedding of

* `include/ScannerS/DataMap.hpp`, `src/DataMap.cpp` (the write-once store),
* `include/ScannerS/Constraints/Constraint.hpp` (the CRTP base class `Constraint`),
* the `&&` chains of wrapped checks in the scan programs (`src/ScannerS_R2HDM.cpp`), and
* `include/ScannerS/Constraints/STU.hpp`, `src/Constraints/STU.cpp` (the oblique
  parameters: `Chisq`, the loop functions `F`, `FuncF`, `G`, `G2`, and the class `STU`).

`std::map<std::string, double>` is embedded as a list of entries kept strictly
increasing in the key, which is also the order in which a range-for visits it.
The store only copies mapped values and never computes with them, so the
embedding is parametric in the mapped type `V` (`double` in the source).
A C++ call that may throw while mutating an object through a reference is a
function returning the outcome (`Except`) together with the object as the call
left it, so that the state after a throw stays observable.
-/

namespace ScannerS

/-! ## `std::string` and its ordering -/

/-- Lexicographic "less than" on sequences of character codes. -/
def lexLt : List Nat → List Nat → Bool
  | _, [] => false
  | [], _ :: _ => true
  | a :: as, b :: bs => if a < b then true else if a = b then lexLt as bs else false

/-- The character codes of a `std::string`. -/
def codes (s : String) : List Nat := s.data.map Char.toNat

/-- The comparison `std::less<std::string>` used by `std::map`: lexicographic
on the character codes. -/
def key_compare (a b : String) : Bool := lexLt (codes a) (codes b)

/-! ## Exceptions -/

/-- The text of a `DataMapError`, kept structured.  `what` renders it. -/
inductive Message (V : Type) where
  /-- Thrown by `operator[]`: `"Unknown key " + key`. -/
  | unknownKey (key : String)
  /-- Thrown by `Store`: `"Can't store, key " + key + " already exists."`. -/
  | alreadyExists (key : String)
  /-- Thrown by `Merge`: `"Entry {" + key + ", " + to_string(value) +
  "} can't be merged. Exists with value " + to_string(existing)`. -/
  | cantBeMerged (key : String) (value : V) (existing : V)
  deriving DecidableEq, Repr

/-- The message string of a `DataMapError`, given `std::to_string` on the
mapped type. -/
def Message.what {V : Type} (to_string : V → String) : Message V → String
  | .unknownKey key => "Unknown key " ++ key
  | .alreadyExists key => "Can't store, key " ++ key ++ " already exists."
  | .cantBeMerged key value existing =>
      "Entry \x7b" ++ key ++ ", " ++ to_string value ++
        "\x7d can't be merged. Exists with value " ++ to_string existing

/-- The exceptions thrown by the embedded code. -/
inductive Exception (V : Type) where
  /-- The class `ScannerS::DataMapError`. -/
  | DataMapError (message : Message V)
  /-- The class `std::runtime_error`. -/
  | runtime_error (what : String)
  /-- The class `std::out_of_range` (thrown by `std::map::at`). -/
  | out_of_range (what : String)
  /-- The class `std::invalid_argument`. -/
  | invalid_argument (what : String)
  deriving DecidableEq, Repr

/-! ## `std::map<std::string, double>` -/

/-- Linear search for the mapped value of `key` among the entries. -/
def findEntry {V : Type} (key : String) : List (String × V) → Option V
  | [] => none
  | e :: rest => if e.1 = key then some e.2 else findEntry key rest

/-- Insertion of a new entry at its place in the key order. -/
def insertEntry {V : Type} (key : String) (value : V) :
    List (String × V) → List (String × V)
  | [] => [(key, value)]
  | e :: rest =>
      if key_compare key e.1 then (key, value) :: e :: rest
      else e :: insertEntry key value rest

/-- The entries of `std::map::try_emplace(key, value)`: nothing happens when
the key exists, otherwise the entry is inserted; the flag tells whether the
insertion took place. -/
def try_emplaceEntries {V : Type} (key : String) (value : V)
    (data : List (String × V)) : List (String × V) × Bool :=
  match findEntry key data with
  | some _ => (data, false)
  | none => (insertEntry key value data, true)

/-- The entries of `data.merge(source)`: every element of `source`, in order,
is spliced into `data` unless `data` holds an element with an equivalent key,
in which case it stays in `source`.  Returns the new `data` and the remaining
`source`. -/
def mergeEntries {V : Type} :
    List (String × V) → List (String × V) → List (String × V) × List (String × V)
  | data, [] => (data, [])
  | data, e :: rest =>
      match findEntry e.1 data with
      | some _ => ((mergeEntries data rest).1, e :: (mergeEntries data rest).2)
      | none => mergeEntries (insertEntry e.1 e.2 data) rest

/-- Entries strictly increasing in the key. -/
def Sorted {V : Type} (l : List (String × V)) : Prop :=
  l.Pairwise (fun a b => key_compare a.1 b.1 = true)

theorem lexLt_irrefl (l : List Nat) : lexLt l l = false := by
  induction l with
  | nil => rfl
  | cons a as ih => simp [lexLt, ih]

theorem lexLt_trans : ∀ (a b c : List Nat),
    lexLt a b = true → lexLt b c = true → lexLt a c = true
  | _, [], _, h, _ => by cases ‹List Nat› <;> simp [lexLt] at h
  | _, _ :: _, [], _, h => by simp [lexLt] at h
  | [], _ :: _, _ :: _, _, _ => by simp [lexLt]
  | a :: as, b :: bs, c :: cs, h₁, h₂ => by
      simp only [lexLt] at h₁ h₂ ⊢
      by_cases hab : a < b
      · by_cases hbc : b < c
        · simp [lt_trans hab hbc]
        · by_cases hbc' : b = c
          · subst hbc'; simp [hab]
          · simp [hbc, hbc'] at h₂
      · by_cases hab' : a = b
        · subst hab'
          by_cases hac : a < c
          · simp [hac]
          · by_cases hac' : a = c
            · subst hac'
              simp only [hab, hac, if_false, if_true] at h₁ h₂ ⊢
              exact lexLt_trans as bs cs h₁ h₂
            · simp [hac, hac'] at h₂
        · simp [hab, hab'] at h₁

theorem lexLt_total : ∀ (a b : List Nat),
    lexLt a b = false → a ≠ b → lexLt b a = true
  | [], [], _, h => absurd rfl h
  | [], _ :: _, h, _ => by simp [lexLt] at h
  | _ :: _, [], _, _ => by simp [lexLt]
  | a :: as, b :: bs, h, hne => by
      simp only [lexLt] at h ⊢
      by_cases hab : a < b
      · simp [hab] at h
      · by_cases hab' : a = b
        · subst hab'
          simp only [hab, if_false, if_true] at h ⊢
          exact lexLt_total as bs h (fun e => hne (by rw [e]))
        · have : b < a := lt_of_le_of_ne (not_lt.mp hab) (Ne.symm hab')
          simp [this]

theorem codes_injective {a b : String} (h : codes a = codes b) : a = b := by
  apply String.ext
  unfold codes at h
  refine List.map_injective_iff.mpr ?_ h
  intro x y hxy
  apply Char.ext
  exact UInt32.ext hxy

theorem key_compare_irrefl (a : String) : key_compare a a = false :=
  lexLt_irrefl _

theorem key_compare_trans {a b c : String} (h₁ : key_compare a b = true)
    (h₂ : key_compare b c = true) : key_compare a c = true :=
  lexLt_trans _ _ _ h₁ h₂

theorem key_compare_total {a b : String} (h : key_compare a b = false)
    (hne : a ≠ b) : key_compare b a = true :=
  lexLt_total _ _ h (fun e => hne (codes_injective e))

theorem mem_insertEntry {V : Type} (key : String) (value : V) (b : String × V) :
    ∀ l : List (String × V), b ∈ insertEntry key value l ↔ b = (key, value) ∨ b ∈ l
  | [] => by simp [insertEntry]
  | e :: rest => by
      unfold insertEntry
      split
      · simp
      · simp only [List.mem_cons, mem_insertEntry key value b rest]
        tauto

theorem findEntry_insertEntry_self {V : Type} (key : String) (value : V) :
    ∀ l : List (String × V), findEntry key l = none →
      findEntry key (insertEntry key value l) = some value
  | [], _ => by simp [insertEntry, findEntry]
  | e :: rest, h => by
      unfold findEntry at h
      split at h
      · cases h
      · rename_i hne
        unfold insertEntry
        split
        · simp [findEntry]
        · simp only [findEntry, hne, if_false]
          exact findEntry_insertEntry_self key value rest h

theorem findEntry_insertEntry_ne {V : Type} (key : String) (value : V) (k : String)
    (hk : key ≠ k) :
    ∀ l : List (String × V), findEntry k (insertEntry key value l) = findEntry k l
  | [] => by simp [insertEntry, findEntry, hk]
  | e :: rest => by
      unfold insertEntry
      split
      · simp [findEntry, hk]
      · simp only [findEntry, findEntry_insertEntry_ne key value k hk rest]

theorem findEntry_eq_none_iff {V : Type} (key : String) :
    ∀ l : List (String × V), findEntry key l = none ↔ ∀ e ∈ l, e.1 ≠ key
  | [] => by simp [findEntry]
  | e :: rest => by
      unfold findEntry
      split
      · rename_i h; simp [h]
      · rename_i h; simp [h, findEntry_eq_none_iff key rest]

theorem findEntry_mem {V : Type} (key : String) (value : V) :
    ∀ l : List (String × V), findEntry key l = some value → (key, value) ∈ l
  | [], h => by simp [findEntry] at h
  | e :: rest, h => by
      unfold findEntry at h
      split at h
      · rename_i he
        cases h
        simp [← he]
      · exact List.mem_cons_of_mem _ (findEntry_mem key value rest h)

theorem Sorted.findEntry_of_mem {V : Type} (key : String) (value : V) :
    ∀ l : List (String × V), Sorted l → (key, value) ∈ l → findEntry key l = some value
  | [], _, h => by simp at h
  | e :: rest, hs, h => by
      have hs' := List.pairwise_cons.mp hs
      unfold findEntry
      split
      · rename_i he
        rcases List.mem_cons.mp h with h | h
        · rw [← h]
        · have := hs'.1 _ h
          simp only at this
          rw [he, key_compare_irrefl] at this
          cases this
      · rename_i he
        rcases List.mem_cons.mp h with h | h
        · exact absurd (by rw [← h]) he
        · exact Sorted.findEntry_of_mem key value rest hs'.2 h

theorem Sorted.insertEntry {V : Type} (key : String) (value : V) :
    ∀ l : List (String × V), Sorted l → findEntry key l = none →
      Sorted (insertEntry key value l)
  | [], _, _ => by simp [ScannerS.insertEntry, Sorted]
  | e :: rest, hs, h => by
      have hs' := List.pairwise_cons.mp hs
      have hne : ∀ b ∈ e :: rest, b.1 ≠ key := (findEntry_eq_none_iff key _).mp h
      unfold ScannerS.insertEntry
      split
      · rename_i hlt
        refine List.pairwise_cons.mpr ⟨?_, hs⟩
        intro b hb
        rcases List.mem_cons.mp hb with hb | hb
        · rw [hb]; exact hlt
        · exact key_compare_trans hlt (hs'.1 b hb)
      · rename_i hlt
        refine List.pairwise_cons.mpr ⟨?_, ?_⟩
        · intro b hb
          rcases (mem_insertEntry key value b rest).mp hb with hb | hb
          · rw [hb]
            exact key_compare_total (by simpa using hlt)
              (fun e' => hne e (List.mem_cons_self _ _) e'.symm)
          · exact hs'.1 b hb
        · exact Sorted.insertEntry key value rest hs'.2
            ((findEntry_eq_none_iff key _).mpr
              (fun b hb => hne b (List.mem_cons_of_mem _ hb)))

theorem Sorted.try_emplaceEntries {V : Type} (key : String) (value : V)
    (l : List (String × V)) (hs : Sorted l) :
    Sorted (try_emplaceEntries key value l).1 := by
  unfold ScannerS.try_emplaceEntries
  split
  · exact hs
  · rename_i h
    exact Sorted.insertEntry key value l hs h

theorem Sorted.mergeEntries_fst {V : Type} :
    ∀ (source data : List (String × V)), Sorted data →
      Sorted (mergeEntries data source).1
  | [], data, hs => by simpa [mergeEntries] using hs
  | e :: rest, data, hs => by
      unfold mergeEntries
      split
      · exact Sorted.mergeEntries_fst rest data hs
      · rename_i h
        exact Sorted.mergeEntries_fst rest _ (Sorted.insertEntry e.1 e.2 data hs h)

theorem mergeEntries_snd_sublist {V : Type} :
    ∀ (source data : List (String × V)), List.Sublist (mergeEntries data source).2 source
  | [], data => by simp [mergeEntries]
  | e :: rest, data => by
      unfold mergeEntries
      split
      · exact List.Sublist.cons₂ e (mergeEntries_snd_sublist rest data)
      · exact List.Sublist.cons e (mergeEntries_snd_sublist rest _)

theorem Sorted.mergeEntries_snd {V : Type} (source data : List (String × V))
    (hs : Sorted source) : Sorted (mergeEntries data source).2 :=
  List.Pairwise.sublist (mergeEntries_snd_sublist source data) hs

/-- The type `std::map<std::string, double>` (`DataMap::Map`): entries with
pairwise distinct keys, held in increasing key order. -/
structure Map (V : Type) where
  /-- The entries in iteration order, from `begin()` to `end()`. -/
  entries : List (String × V)
  /-- The keys are strictly increasing. -/
  sorted : Sorted entries

/-- The empty map `Map{}`. -/
def Map.empty {V : Type} : Map V := ⟨[], List.Pairwise.nil⟩

/-- The call `find(key)`: `none` stands for the iterator `end()`, `some v` for an
iterator to the entry whose `second` is `v`. -/
def Map.find {V : Type} (m : Map V) (key : String) : Option V :=
  findEntry key m.entries

/-- The call `at(key)`: throws `std::out_of_range` when the key is absent. -/
def Map.at {V : Type} (m : Map V) (key : String) : Except (Exception V) V :=
  match m.find key with
  | some v => .ok v
  | none => .error (.out_of_range "map::at")

/-- The call `try_emplace(key, value)`: the map afterwards and the flag
`res.second`. -/
def Map.try_emplace {V : Type} (m : Map V) (key : String) (value : V) : Map V × Bool :=
  (⟨(try_emplaceEntries key value m.entries).1,
    Sorted.try_emplaceEntries key value m.entries m.sorted⟩,
   (try_emplaceEntries key value m.entries).2)

/-- The call `m.merge(source)`: `m` afterwards and what is left in `source`. -/
def Map.merge {V : Type} (m source : Map V) : Map V × Map V :=
  (⟨(mergeEntries m.entries source.entries).1,
    Sorted.mergeEntries_fst source.entries m.entries m.sorted⟩,
   ⟨(mergeEntries m.entries source.entries).2,
    Sorted.mergeEntries_snd source.entries m.entries source.sorted⟩)

/-! ## `DataMap` -/

/-- The class `DataMap`:
"An associative container where elemnts cannot be modified after insertion". -/
structure DataMap (V : Type) where
  /-- The private member `Map data_ = Map{}`. -/
  data_ : Map V

/-- A freshly constructed `DataMap()`. -/
def DataMap.new {V : Type} : DataMap V := ⟨Map.empty⟩

/-- The member `operator[](key) const`. -/
def DataMap.operator_subscript {V : Type} (self : DataMap V) (key : String) :
    Except (Exception V) V :=
  match self.data_.find key with
  | none => .error (.DataMapError (.unknownKey key))
  | some second => .ok second

/-- The member `Store(key, value)` (both overloads): the outcome and the store
afterwards. -/
def DataMap.Store {V : Type} (self : DataMap V) (key : String) (value : V) :
    Except (Exception V) Unit × DataMap V :=
  let res := self.data_.try_emplace key value
  if !res.2 then (.error (.DataMapError (.alreadyExists key)), ⟨res.1⟩)
  else (.ok (), ⟨res.1⟩)

/-- The member `Merge(source)`: the outcome, the store afterwards and what is
left of `source`.  The range-for throws at the first entry left in `source`. -/
def DataMap.Merge {V : Type} (self : DataMap V) (source : Map V) :
    Except (Exception V) Unit × DataMap V × Map V :=
  let merged := self.data_.merge source
  match merged.2.entries with
  | [] => (.ok (), ⟨merged.1⟩, merged.2)
  | (key, value) :: _ =>
      match merged.1.at key with
      | .ok existing =>
          (.error (.DataMapError (.cantBeMerged key value existing)), ⟨merged.1⟩, merged.2)
      | .error e => (.error e, ⟨merged.1⟩, merged.2)

/-- The entries visited by a range-for from `begin()` to `end()`. -/
def DataMap.iterate {V : Type} (self : DataMap V) : List (String × V) :=
  self.data_.entries

/-- A mutating call on a `DataMap`. -/
inductive Call (V : Type) where
  /-- A call `Store(key, value)`. -/
  | Store (key : String) (value : V)
  /-- A call `Merge(source)`. -/
  | Merge (source : Map V)

/-- The store after one call, whether the call returned or threw. -/
def DataMap.call {V : Type} (self : DataMap V) : Call V → DataMap V
  | .Store key value => (self.Store key value).2
  | .Merge source => (self.Merge source).2.1

/-- The store after a sequence of calls, each of which may return or throw (the
caller catches and goes on). -/
def DataMap.calls {V : Type} (self : DataMap V) (cs : List (Call V)) : DataMap V :=
  cs.foldl DataMap.call self

/-- The keys a call tries to store. -/
def Call.keys {V : Type} : Call V → List String
  | .Store key _ => [key]
  | .Merge source => source.entries.map Prod.fst

/-! ## `Constraints::Severity` and `Constraints::Constraint` -/

/-- The scoped enumeration `Severity`; its underlying type is `int`, and a
`static_cast` can give it any value of that type. -/
structure Severity where
  /-- The underlying value. -/
  value : Int
  deriving DecidableEq, Repr

/-- The enumerator `apply = 1`: "fully apply the constraint". -/
def Severity.apply : Severity := ⟨1⟩

/-- The enumerator `ignore = 0`. -/
def Severity.ignore : Severity := ⟨0⟩

/-- The enumerator `skip = -1`. -/
def Severity.skip : Severity := ⟨-1⟩

/-- A `Model::ParameterPoint`: the model's parameters and the member `data`. -/
structure ParameterPoint (P V : Type) where
  /-- Everything of the point but `data`. -/
  params : P
  /-- The member `DataMap data`. -/
  data : DataMap V

/-- A `Derived<Model>` object as the base class `Constraint` sees it.  `S` is
the state of the derived object, which `Apply` (a non-const member taking the
point by reference) may change together with the point, also when it throws. -/
structure Constraint (S P V : Type) where
  /-- The private member `severity_`. -/
  severity_ : Severity
  /-- The static member `Derived<Model>::constraintId`. -/
  constraintId : String
  /-- The member `Derived<Model>::Apply(point)`. -/
  Apply : S → ParameterPoint P V → Except (Exception V) Bool × S × ParameterPoint P V

/-- The member `Constraint::operator()(point)`: the outcome, the derived object
and the point afterwards.  The literals `1` and `0` passed to `Store` are those
of the mapped type. -/
def Constraint.operator_call {S P V : Type} [Zero V] [One V] (c : Constraint S P V)
    (self : S) (point : ParameterPoint P V) :
    Except (Exception V) Bool × S × ParameterPoint P V :=
  if c.severity_ = Severity.apply then
    c.Apply self point
  else if c.severity_ = Severity.ignore then
    match c.Apply self point with
    | (.error e, self', point') => (.error e, self', point')
    | (.ok true, self', point') =>
        match point'.data.Store ("valid_" ++ c.constraintId) 1 with
        | (.error e, data') => (.error e, self', ⟨point'.params, data'⟩)
        | (.ok (), data') => (.ok true, self', ⟨point'.params, data'⟩)
    | (.ok false, self', point') =>
        match point'.data.Store ("valid_" ++ c.constraintId) 0 with
        | (.error e, data') => (.error e, self', ⟨point'.params, data'⟩)
        | (.ok (), data') => (.ok true, self', ⟨point'.params, data'⟩)
  else if c.severity_ = Severity.skip then
    (.ok true, self, point)
  else
    (.error (.runtime_error "Unreachable"), self, point)

/-- The same constraint with a call counter added to the derived object:
every invocation of `Apply` increments it, whatever `Apply` then does. -/
def Constraint.counted {S P V : Type} (c : Constraint S P V) : Constraint (S × Nat) P V where
  severity_ := c.severity_
  constraintId := c.constraintId
  Apply := fun self point =>
    ((c.Apply self.1 point).1, ((c.Apply self.1 point).2.1, self.2 + 1),
      (c.Apply self.1 point).2.2)

/-! ## Concrete stores, maps, checks and points -/

/-- The store of `T_DataMap.cpp`, section "Errors": `Store("duplicate", 2)` on a
new `DataMap`. -/
def exampleStore : DataMap Int := (DataMap.new.Store "duplicate" 2).2

/-- The map `{{"entry", 10}, {"duplicate", -1}}` of `T_DataMap.cpp`. -/
def exampleSource : Map Int :=
  ((Map.empty.try_emplace "entry" 10).1.try_emplace "duplicate" (-1)).1

/-- The map `{{"merge1", 10}, {"merge2", 20}}` of `T_DataMap.cpp`. -/
def exampleMerge : Map Int :=
  ((Map.empty.try_emplace "merge1" 10).1.try_emplace "merge2" 20).1

/-- A check that fails every point and writes the key "x" while doing so. -/
def exampleCheck (severity : Severity) : Constraint Unit Unit Int where
  severity_ := severity
  constraintId := "c"
  Apply := fun self point => (.ok false, self, ⟨point.params, (point.data.Store "x" 5).2⟩)

/-- A check that passes every point and writes nothing. -/
def examplePass (severity : Severity) : Constraint Unit Unit Int where
  severity_ := severity
  constraintId := "c"
  Apply := fun self point => (.ok true, self, point)

/-- A point whose store holds the single key "duplicate". -/
def examplePoint : ParameterPoint Unit Int := ⟨(), exampleStore⟩

/-- A point whose store already holds "valid_c", as left by an earlier run of
the check "c" under `Severity::ignore`. -/
def exampleRerun : ParameterPoint Unit Int := ⟨(), (DataMap.new.Store "valid_c" 1).2⟩

/-! ## Supporting lemmas -/

theorem Map.ext_entries {V : Type} : ∀ {m₁ m₂ : Map V}, m₁.entries = m₂.entries → m₁ = m₂
  | ⟨_, _⟩, ⟨_, _⟩, rfl => rfl

theorem findEntry_isSome_iff {V : Type} (key : String) :
    ∀ l : List (String × V), (findEntry key l).isSome = true ↔ key ∈ l.map Prod.fst
  | [] => by simp [findEntry]
  | e :: rest => by
      unfold findEntry
      split
      · rename_i h; simp [h]
      · rename_i h
        rw [findEntry_isSome_iff key rest]
        have h' : ¬ key = e.1 := fun x => h x.symm
        simp [h']

theorem mergeEntries_find_of_present {V : Type} (k : String) (v : V) :
    ∀ (source data : List (String × V)), findEntry k data = some v →
      findEntry k (mergeEntries data source).1 = some v
  | [], data, h => by simpa [mergeEntries] using h
  | e :: rest, data, h => by
      unfold mergeEntries
      split
      · exact mergeEntries_find_of_present k v rest data h
      · rename_i hnone
        have hne : e.1 ≠ k := fun heq => by rw [heq, h] at hnone; cases hnone
        exact mergeEntries_find_of_present k v rest _
          (by rw [findEntry_insertEntry_ne e.1 e.2 k hne data]; exact h)

theorem mergeEntries_find_of_absent {V : Type} (k : String) :
    ∀ (source data : List (String × V)), findEntry k data = none →
      findEntry k (mergeEntries data source).1 = findEntry k source
  | [], data, h => by simpa [mergeEntries, findEntry] using h
  | e :: rest, data, h => by
      unfold mergeEntries
      split
      · rename_i x hsome
        have hne : e.1 ≠ k := fun heq => by rw [heq, h] at hsome; cases hsome
        rw [mergeEntries_find_of_absent k rest data h]
        simp [findEntry, hne]
      · rename_i hnone
        by_cases heq : e.1 = k
        · rw [mergeEntries_find_of_present k e.2 rest _
            (by rw [← heq]; exact findEntry_insertEntry_self e.1 e.2 data hnone)]
          simp [findEntry, heq]
        · rw [mergeEntries_find_of_absent k rest _
            (by rw [findEntry_insertEntry_ne e.1 e.2 k heq data]; exact h)]
          simp [findEntry, heq]

theorem mergeEntries_snd_eq_filter {V : Type} :
    ∀ (source data : List (String × V)), Sorted source →
      (mergeEntries data source).2 = source.filter (fun e => (findEntry e.1 data).isSome)
  | [], data, _ => by simp [mergeEntries]
  | e :: rest, data, hs => by
      have hs' := List.pairwise_cons.mp hs
      unfold mergeEntries
      split
      · rename_i x hsome
        simp [hsome, mergeEntries_snd_eq_filter rest data hs'.2]
      · rename_i hnone
        rw [mergeEntries_snd_eq_filter rest _ hs'.2]
        simp only [List.filter_cons, hnone, Option.isSome_none, Bool.false_eq_true, if_false]
        apply List.filter_congr
        intro x hx
        have hne : e.1 ≠ x.1 := fun heq => by
          have := hs'.1 x hx
          simp only at this
          rw [heq, key_compare_irrefl] at this
          cases this
        rw [findEntry_insertEntry_ne e.1 e.2 x.1 hne data]

theorem DataMap.Store_of_absent {V : Type} (d : DataMap V) (k : String) (v : V)
    (h : d.data_.find k = none) :
    (d.Store k v).1 = .ok () ∧ (d.Store k v).2.data_.entries = insertEntry k v d.data_.entries := by
  unfold Map.find at h
  simp [DataMap.Store, Map.try_emplace, try_emplaceEntries, h]

theorem DataMap.Store_of_present {V : Type} (d : DataMap V) (k : String) (v x : V)
    (h : d.data_.find k = some x) :
    d.Store k v = (.error (.DataMapError (.alreadyExists k)), d) := by
  unfold Map.find at h
  simp [DataMap.Store, Map.try_emplace, try_emplaceEntries, h]

theorem DataMap.subscript_eq_ok_iff {V : Type} (d : DataMap V) (k : String) (v : V) :
    d.operator_subscript k = .ok v ↔ d.data_.find k = some v := by
  unfold DataMap.operator_subscript
  split <;> simp [*]

theorem DataMap.subscript_eq_error_iff {V : Type} (d : DataMap V) (k : String) :
    d.operator_subscript k = .error (.DataMapError (.unknownKey k)) ↔ d.data_.find k = none := by
  unfold DataMap.operator_subscript
  split <;> simp [*]

theorem DataMap.Store_absent_lookup {V : Type} (d : DataMap V) (k : String) (v : V)
    (h : d.data_.find k = none) :
    (d.Store k v).2.operator_subscript k = .ok v ∧
      ∀ k', k' ≠ k → (d.Store k v).2.operator_subscript k' = d.operator_subscript k' := by
  obtain ⟨_, hent⟩ := DataMap.Store_of_absent d k v h
  constructor
  · rw [DataMap.subscript_eq_ok_iff]
    unfold Map.find at h ⊢
    rw [hent]
    exact findEntry_insertEntry_self k v _ h
  · intro k' hne
    unfold DataMap.operator_subscript Map.find
    rw [hent, findEntry_insertEntry_ne k v k' (Ne.symm hne)]

theorem DataMap.Merge_entries {V : Type} (d : DataMap V) (s : Map V) :
    (d.Merge s).2.1.data_.entries = (mergeEntries d.data_.entries s.entries).1 := by
  unfold DataMap.Merge
  simp only [Map.merge]
  split
  · rfl
  · split <;> rfl

theorem DataMap.Merge_find_of_present {V : Type} (d : DataMap V) (s : Map V) (k : String)
    (v : V) (h : d.data_.find k = some v) : (d.Merge s).2.1.data_.find k = some v := by
  unfold Map.find at h ⊢
  rw [DataMap.Merge_entries]
  exact mergeEntries_find_of_present k v _ _ h

theorem DataMap.Merge_find_of_absent {V : Type} (d : DataMap V) (s : Map V) (k : String)
    (h : d.data_.find k = none) : (d.Merge s).2.1.data_.find k = s.find k := by
  unfold Map.find at h ⊢
  rw [DataMap.Merge_entries]
  exact mergeEntries_find_of_absent k _ _ h

/-- What `Merge` returns, by the entries of `source` whose key the store holds. -/
theorem DataMap.Merge_outcome {V : Type} (d : DataMap V) (s : Map V) :
    (s.entries.filter (fun e => (d.data_.find e.1).isSome) = [] ∧ (d.Merge s).1 = .ok ()) ∨
    (∃ key value existing rest,
      s.entries.filter (fun e => (d.data_.find e.1).isSome) = (key, value) :: rest ∧
      (d.Merge s).1 = .error (.DataMapError (.cantBeMerged key value existing)) ∧
      d.data_.find key = some existing) := by
  have hf := mergeEntries_snd_eq_filter s.entries d.data_.entries s.sorted
  unfold DataMap.Merge
  simp only [Map.merge]
  split
  · rename_i hnil
    left
    refine ⟨?_, rfl⟩
    rw [← hnil]; exact hf.symm
  · rename_i key value rest hcons
    right
    have hmem : (key, value) ∈ s.entries.filter (fun e => (findEntry e.1 d.data_.entries).isSome) := by
      rw [← hf, hcons]; exact List.mem_cons_self _ _
    have hsome := (List.mem_filter.mp hmem).2
    obtain ⟨existing, hex⟩ := Option.isSome_iff_exists.mp hsome
    have hex' := mergeEntries_find_of_present key existing s.entries d.data_.entries hex
    refine ⟨key, value, existing, rest, ?_, ?_, hex⟩
    · rw [← hcons]; exact hf.symm
    · simp [Map.at, Map.find, hex']

theorem DataMap.call_preserves {V : Type} (d : DataMap V) (c : Call V) (k : String) (v : V)
    (h : d.data_.find k = some v) : (d.call c).data_.find k = some v := by
  cases c with
  | Store key value =>
      simp only [DataMap.call]
      cases hfind : d.data_.find key with
      | some x => rw [DataMap.Store_of_present d key value x hfind]; exact h
      | none =>
          have hne : key ≠ k := fun heq => by rw [heq, h] at hfind; cases hfind
          unfold Map.find at h ⊢
          rw [(DataMap.Store_of_absent d key value hfind).2,
            findEntry_insertEntry_ne key value k hne]
          exact h
  | Merge source => exact DataMap.Merge_find_of_present d source k v h

theorem DataMap.calls_preserves {V : Type} (cs : List (Call V)) :
    ∀ (d : DataMap V) (k : String) (v : V), d.data_.find k = some v →
      (d.calls cs).data_.find k = some v := by
  induction cs with
  | nil => intro d k v h; exact h
  | cons c cs ih =>
      intro d k v h
      exact ih (d.call c) k v (DataMap.call_preserves d c k v h)

theorem DataMap.call_find_isSome {V : Type} (d : DataMap V) (c : Call V) (k : String) :
    ((d.call c).data_.find k).isSome = true ↔
      (d.data_.find k).isSome = true ∨ k ∈ c.keys := by
  cases hk : d.data_.find k with
  | some v => simp [DataMap.call_preserves d c k v hk]
  | none =>
      cases c with
      | Store key value =>
          simp only [DataMap.call, Call.keys, List.mem_singleton, Option.isSome_none,
            Bool.false_eq_true, false_or]
          by_cases heq : key = k
          · subst heq
            unfold Map.find at hk ⊢
            rw [(DataMap.Store_of_absent d key value hk).2,
              findEntry_insertEntry_self key value _ hk]
            simp
          · cases hfind : d.data_.find key with
            | some x =>
                rw [DataMap.Store_of_present d key value x hfind, hk]
                simp [Ne.symm heq]
            | none =>
                unfold Map.find at hk ⊢
                rw [(DataMap.Store_of_absent d key value hfind).2,
                  findEntry_insertEntry_ne key value k heq, hk]
                simp [Ne.symm heq]
      | Merge source =>
          simp only [DataMap.call, Call.keys, Option.isSome_none, Bool.false_eq_true, false_or]
          rw [DataMap.Merge_find_of_absent d source k hk]
          exact findEntry_isSome_iff k source.entries

theorem DataMap.calls_find_isSome {V : Type} (cs : List (Call V)) :
    ∀ (d : DataMap V) (k : String), ((d.calls cs).data_.find k).isSome = true ↔
      (d.data_.find k).isSome = true ∨ ∃ c ∈ cs, k ∈ c.keys := by
  induction cs with
  | nil => intro d k; simp [DataMap.calls]
  | cons c cs ih =>
      intro d k
      have := ih (d.call c) k
      simp only [DataMap.calls, List.foldl_cons] at this ⊢
      rw [this, DataMap.call_find_isSome]
      simp only [List.mem_cons, exists_eq_or_imp]
      tauto

/-! ## The claims on `DataMap` -/

/-- C1 (write-once invariant): whatever sequence of `Store` and `Merge` calls is
made on a store, returning or throwing, once a lookup of `k` gives `v` every
lookup of `k` after any further calls gives `v` again: no call removes a key or
changes the value under an existing key. -/
theorem DataMap.write_once {V : Type} (d : DataMap V) (before later : List (Call V))
    (k : String) (v : V) (h : (d.calls before).operator_subscript k = .ok v) :
    (d.calls (before ++ later)).operator_subscript k = .ok v := by
  rw [DataMap.subscript_eq_ok_iff] at h ⊢
  have : d.calls (before ++ later) = (d.calls before).calls later := by
    simp [DataMap.calls, List.foldl_append]
  rw [this]
  exact DataMap.calls_preserves later _ k v h

/-- Witness of C1: after `Store("duplicate", 2)`, a second `Store` of the key and
a `Merge` holding the key both throw, and the lookup still gives 2. -/
theorem DataMap.write_once_witness :
    (DataMap.new.calls [Call.Store "duplicate" (2 : Int)]).operator_subscript "duplicate"
        = .ok 2 ∧
      (DataMap.new.calls ([Call.Store "duplicate" (2 : Int)] ++
          [Call.Store "duplicate" 3, Call.Merge exampleSource])).operator_subscript
        "duplicate" = .ok 2 :=
  ⟨by rfl, DataMap.write_once DataMap.new _ _ "duplicate" 2 (by rfl)⟩

/-- C2: `Store(k, v2)` throws the `DataMapError` "Can't store, key k already
exists." if and only if `k` is present in the store; it throws nothing else;
and when it throws the store is unchanged, `k` keeping its earlier value. -/
theorem DataMap.Store_throws_iff {V : Type} (d : DataMap V) (k : String) (v2 : V) :
    ((d.Store k v2).1 = .error (.DataMapError (.alreadyExists k)) ↔
        ∃ v1, d.operator_subscript k = .ok v1) ∧
      ((d.Store k v2).1 ≠ .ok () ↔ ∃ v1, d.operator_subscript k = .ok v1) ∧
      ((d.Store k v2).1 ≠ .ok () → (d.Store k v2).2 = d) ∧
      (∀ v1, d.operator_subscript k = .ok v1 →
        (d.Store k v2).2.operator_subscript k = .ok v1) := by
  cases hfind : d.data_.find k with
  | some x =>
      have hx : d.operator_subscript k = .ok x := (DataMap.subscript_eq_ok_iff d k x).mpr hfind
      rw [DataMap.Store_of_present d k v2 x hfind]
      exact ⟨⟨fun _ => ⟨x, hx⟩, fun _ => rfl⟩, ⟨fun _ => ⟨x, hx⟩, fun _ => by simp⟩,
        fun _ => rfl, fun _ h => h⟩
  | none =>
      have hno : ¬ ∃ v1, d.operator_subscript k = .ok v1 := by
        rintro ⟨v1, h1⟩
        rw [DataMap.subscript_eq_ok_iff, hfind] at h1
        cases h1
      have hok := (DataMap.Store_of_absent d k v2 hfind).1
      rw [hok]
      refine ⟨⟨fun h => (by cases h), fun h => absurd h hno⟩,
        ⟨fun h => absurd rfl h, fun h => absurd h hno⟩, fun h => absurd rfl h, ?_⟩
      intro v1 h1
      exact absurd ⟨v1, h1⟩ hno

/-- C3: on a store that does not hold `k`, `Store(k, v)` returns normally,
afterwards the lookup of `k` gives `v`, and the lookup of every other key gives
what it gave before the call (a value or the "Unknown key" error). -/
theorem DataMap.Store_then_lookup {V : Type} (d : DataMap V) (k : String) (v : V)
    (h : d.data_.find k = none) :
    (d.Store k v).1 = .ok () ∧
      (d.Store k v).2.operator_subscript k = .ok v ∧
      ∀ k', k' ≠ k → (d.Store k v).2.operator_subscript k' = d.operator_subscript k' := by
  exact ⟨(DataMap.Store_of_absent d k v h).1, DataMap.Store_absent_lookup d k v h⟩

/-- Witness of C3: `Store("test1", 7)` on the store holding only "duplicate". -/
theorem DataMap.Store_then_lookup_witness :
    exampleStore.data_.find "test1" = none ∧
      ((exampleStore.Store "test1" 7).1 = .ok () ∧
        (exampleStore.Store "test1" 7).2.operator_subscript "test1" = .ok 7 ∧
        ∀ k', k' ≠ "test1" →
          (exampleStore.Store "test1" 7).2.operator_subscript k'
            = exampleStore.operator_subscript k') :=
  ⟨by rfl, DataMap.Store_then_lookup exampleStore "test1" 7 (by rfl)⟩

/-- C4: the lookup `operator[](k)` throws the `DataMapError` "Unknown key k"
if and only if the store holds no entry under `k`, and returns a value
otherwise; for a store built from a new `DataMap` by any sequence of `Store` and
`Merge` calls this is the case if and only if no call of the sequence stored
`k` (no `Store` had the key `k` and no merged source held `k`); in particular
every lookup on a new `DataMap` throws. -/
theorem DataMap.lookup_throws_iff {V : Type} (d : DataMap V) (cs : List (Call V))
    (k : String) :
    (d.operator_subscript k = .error (.DataMapError (.unknownKey k)) ↔
        ∀ v, (k, v) ∉ d.iterate) ∧
      (d.operator_subscript k ≠ .error (.DataMapError (.unknownKey k)) →
        ∃ v, d.operator_subscript k = .ok v) ∧
      ((DataMap.new.calls cs : DataMap V).operator_subscript k
          = .error (.DataMapError (.unknownKey k)) ↔ ∀ c ∈ cs, k ∉ c.keys) ∧
      (DataMap.new : DataMap V).operator_subscript k
        = .error (.DataMapError (.unknownKey k)) := by
  refine ⟨?_, ?_, ?_, ?_⟩
  · rw [DataMap.subscript_eq_error_iff]
    unfold Map.find DataMap.iterate
    constructor
    · intro h v hv
      rw [Sorted.findEntry_of_mem k v _ d.data_.sorted hv] at h
      cases h
    · intro h
      cases hf : findEntry k d.data_.entries with
      | none => rfl
      | some v => exact absurd (findEntry_mem k v _ hf) (h v)
  · intro h
    cases hf : d.data_.find k with
    | none => exact absurd ((DataMap.subscript_eq_error_iff d k).mpr hf) h
    | some v => exact ⟨v, (DataMap.subscript_eq_ok_iff d k v).mpr hf⟩
  · rw [DataMap.subscript_eq_error_iff, ← Option.not_isSome_iff_eq_none,
      DataMap.calls_find_isSome]
    simp [DataMap.new, Map.empty, Map.find, findEntry]
  · rfl

theorem Map.mem_entries_iff {V : Type} (m : Map V) (k : String) (v : V) :
    (k, v) ∈ m.entries ↔ m.find k = some v :=
  ⟨Sorted.findEntry_of_mem k v m.entries m.sorted, findEntry_mem k v m.entries⟩

theorem DataMap.Merge_not_ok_iff {V : Type} (d : DataMap V) (s : Map V) :
    (d.Merge s).1 ≠ .ok () ↔ ∃ k, (s.find k).isSome = true ∧ (d.data_.find k).isSome = true := by
  rcases DataMap.Merge_outcome d s with ⟨hnil, hok⟩ | ⟨key, value, existing, rest, hcons, herr, hex⟩
  · rw [hok]
    refine ⟨fun h => absurd rfl h, ?_⟩
    rintro ⟨k, hs, hd⟩
    obtain ⟨v, hv⟩ := Option.isSome_iff_exists.mp hs
    have hmem : (k, v) ∈ s.entries.filter (fun e => (d.data_.find e.1).isSome) :=
      List.mem_filter.mpr ⟨(Map.mem_entries_iff s k v).mpr hv, hd⟩
    rw [hnil] at hmem
    cases hmem
  · rw [herr]
    refine ⟨fun _ => ⟨key, ?_, ?_⟩, fun _ h => by cases h⟩
    · have hmem : (key, value) ∈ s.entries.filter (fun e => (d.data_.find e.1).isSome) := by
        rw [hcons]; exact List.mem_cons_self _ _
      rw [(Map.mem_entries_iff s key value).mp (List.mem_filter.mp hmem).1]
      rfl
    · rw [hex]; rfl

/-- C5: when no key of `source` is in the store, `Merge(source)` returns
normally, and afterwards the entries of the store are exactly the entries it
had together with the entries of `source`: each of them is retrieved by the
lookup with its value, and there is no other entry. -/
theorem DataMap.Merge_disjoint {V : Type} (d : DataMap V) (source : Map V)
    (h : ∀ e ∈ source.entries, d.data_.find e.1 = none) :
    (d.Merge source).1 = .ok () ∧
      (∀ k v, (k, v) ∈ (d.Merge source).2.1.iterate ↔
        (k, v) ∈ d.iterate ∨ (k, v) ∈ source.entries) ∧
      (∀ k v, (k, v) ∈ d.iterate ∨ (k, v) ∈ source.entries →
        (d.Merge source).2.1.operator_subscript k = .ok v) := by
  have hmem : ∀ k v, (k, v) ∈ (d.Merge source).2.1.iterate ↔
      (k, v) ∈ d.iterate ∨ (k, v) ∈ source.entries := by
    intro k v
    unfold DataMap.iterate
    rw [Map.mem_entries_iff, Map.mem_entries_iff, Map.mem_entries_iff]
    cases hk : d.data_.find k with
    | some x =>
        rw [DataMap.Merge_find_of_present d source k x hk]
        refine ⟨Or.inl, fun hor => hor.elim id (fun hs => ?_)⟩
        have := h (k, v) ((Map.mem_entries_iff source k v).mpr hs)
        rw [hk] at this
        cases this
    | none =>
        rw [DataMap.Merge_find_of_absent d source k hk]
        exact ⟨Or.inr, fun hor => hor.elim (fun hd => by cases hd) id⟩
  refine ⟨?_, hmem, ?_⟩
  · by_contra hne
    obtain ⟨k, hs, hd⟩ := (DataMap.Merge_not_ok_iff d source).mp hne
    obtain ⟨v, hv⟩ := Option.isSome_iff_exists.mp hs
    rw [h (k, v) ((Map.mem_entries_iff source k v).mpr hv)] at hd
    cases hd
  · intro k v hor
    rw [DataMap.subscript_eq_ok_iff, ← Map.mem_entries_iff]
    exact (hmem k v).mpr hor

/-- Witness of C5: the merge of `T_DataMap.cpp`, section "Merge", into the store
holding "duplicate". -/
theorem DataMap.Merge_disjoint_witness :
    (∀ e ∈ exampleMerge.entries, exampleStore.data_.find e.1 = none) ∧
      (exampleStore.Merge exampleMerge).1 = .ok () ∧
      (∀ k v, (k, v) ∈ (exampleStore.Merge exampleMerge).2.1.iterate ↔
        (k, v) ∈ exampleStore.iterate ∨ (k, v) ∈ exampleMerge.entries) ∧
      (∀ k v, (k, v) ∈ exampleStore.iterate ∨ (k, v) ∈ exampleMerge.entries →
        (exampleStore.Merge exampleMerge).2.1.operator_subscript k = .ok v) :=
  ⟨by decide, DataMap.Merge_disjoint exampleStore exampleMerge (by decide)⟩

/-- C6: `Merge(source)` throws if and only if some key of `source` is already in
the store, and what it throws is the `DataMapError` "Entry {key, value} can't be
merged. Exists with value existing" of a colliding entry: `key` is in `source`
with the rejected value `value`, and `existing` is the value the store held, and
still holds, under `key`. -/
theorem DataMap.Merge_throws_iff {V : Type} (d : DataMap V) (source : Map V) :
    ((d.Merge source).1 ≠ .ok () ↔
        ∃ k, (source.find k).isSome = true ∧ (d.data_.find k).isSome = true) ∧
      ∀ e, (d.Merge source).1 = .error e →
        ∃ key value existing, e = .DataMapError (.cantBeMerged key value existing) ∧
          source.find key = some value ∧
          d.operator_subscript key = .ok existing ∧
          (d.Merge source).2.1.operator_subscript key = .ok existing := by
  refine ⟨DataMap.Merge_not_ok_iff d source, ?_⟩
  intro e he
  rcases DataMap.Merge_outcome d source with
    ⟨_, hok⟩ | ⟨key, value, existing, rest, hcons, herr, hex⟩
  · rw [hok] at he; cases he
  · rw [herr] at he
    refine ⟨key, value, existing, ?_, ?_, ?_, ?_⟩
    · injection he with he; exact he.symm
    · have hmem : (key, value) ∈
          source.entries.filter (fun e => (d.data_.find e.1).isSome) := by
        rw [hcons]; exact List.mem_cons_self _ _
      exact (Map.mem_entries_iff source key value).mp (List.mem_filter.mp hmem).1
    · exact (DataMap.subscript_eq_ok_iff d key existing).mpr hex
    · exact (DataMap.subscript_eq_ok_iff _ key existing).mpr
        (DataMap.Merge_find_of_present d source key existing hex)

/-- C7 (partial merge): when some key of `source` is already in the store,
`Merge(source)` throws, and afterwards every entry of `source` whose key was not
in the store is in the store with the value of `source`, while every key that
was in the store still has its previous value. -/
theorem DataMap.Merge_partial {V : Type} (d : DataMap V) (source : Map V)
    (h : ∃ k, (source.find k).isSome = true ∧ (d.data_.find k).isSome = true) :
    (d.Merge source).1 ≠ .ok () ∧
      (∀ k v, (k, v) ∈ source.entries → d.data_.find k = none →
        (d.Merge source).2.1.operator_subscript k = .ok v) ∧
      (∀ k v, d.operator_subscript k = .ok v →
        (d.Merge source).2.1.operator_subscript k = .ok v) := by
  refine ⟨(DataMap.Merge_not_ok_iff d source).mpr h, ?_, ?_⟩
  · intro k v hs hd
    rw [DataMap.subscript_eq_ok_iff, DataMap.Merge_find_of_absent d source k hd]
    exact (Map.mem_entries_iff source k v).mp hs
  · intro k v hd
    rw [DataMap.subscript_eq_ok_iff] at hd ⊢
    exact DataMap.Merge_find_of_present d source k v hd

/-- Witness of C7: the failing merge of `T_DataMap.cpp`, section "Errors"; the
key "duplicate" collides and "entry" is stored all the same. -/
theorem DataMap.Merge_partial_witness :
    (∃ k, (exampleSource.find k).isSome = true ∧ (exampleStore.data_.find k).isSome = true) ∧
      (exampleStore.Merge exampleSource).1 ≠ .ok () ∧
      (∀ k v, (k, v) ∈ exampleSource.entries → exampleStore.data_.find k = none →
        (exampleStore.Merge exampleSource).2.1.operator_subscript k = .ok v) ∧
      (∀ k v, exampleStore.operator_subscript k = .ok v →
        (exampleStore.Merge exampleSource).2.1.operator_subscript k = .ok v) :=
  ⟨⟨"duplicate", by rfl, by rfl⟩,
    DataMap.Merge_partial exampleStore exampleSource ⟨"duplicate", by rfl, by rfl⟩⟩

/-! ## The claims on `Constraint::operator()` -/

theorem Severity.ignore_ne_apply : Severity.ignore ≠ Severity.apply := by decide

theorem Severity.skip_ne_apply : Severity.skip ≠ Severity.apply := by decide

theorem Severity.skip_ne_ignore : Severity.skip ≠ Severity.ignore := by decide

theorem Constraint.operator_call_ignore {S P V : Type} [Zero V] [One V]
    (c : Constraint S P V) (h : c.severity_ = Severity.ignore) (self self' : S)
    (point point' : ParameterPoint P V) (b : Bool)
    (hA : c.Apply self point = (.ok b, self', point')) :
    c.operator_call self point =
      (((point'.data.Store ("valid_" ++ c.constraintId) (if b then 1 else 0)).1.map
          (fun _ => true)), self',
        ⟨point'.params,
          (point'.data.Store ("valid_" ++ c.constraintId) (if b then 1 else 0)).2⟩) := by
  unfold Constraint.operator_call
  rw [if_neg (by rw [h]; exact Severity.ignore_ne_apply), if_pos h, hA]
  cases b
  · simp only [Bool.false_eq_true, if_false]
    generalize point'.data.Store ("valid_" ++ c.constraintId) 0 = r
    rcases r with ⟨_ | _, data'⟩ <;> rfl
  · simp only [if_true]
    generalize point'.data.Store ("valid_" ++ c.constraintId) 1 = r
    rcases r with ⟨_ | _, data'⟩ <;> rfl

/-- C8 (`Severity::skip`): for every check, whatever its `Apply` does, and every
point, `operator()` returns `true`, the call counter of the check is unchanged
(`Apply` is not invoked), and the point, its store included, and the check are
exactly as before. -/
theorem Constraint.skip_returns_true {S P V : Type} [Zero V] [One V]
    (c : Constraint S P V) (self : S) (n : Nat) (point : ParameterPoint P V)
    (h : c.severity_ = Severity.skip) :
    c.counted.operator_call (self, n) point = (.ok true, (self, n), point) ∧
      c.operator_call self point = (.ok true, self, point) := by
  constructor
  · unfold Constraint.operator_call
    have h' : c.counted.severity_ = Severity.skip := h
    rw [if_neg (by rw [h']; exact Severity.skip_ne_apply),
      if_neg (by rw [h']; exact Severity.skip_ne_ignore), if_pos h']
  · unfold Constraint.operator_call
    rw [if_neg (by rw [h]; exact Severity.skip_ne_apply),
      if_neg (by rw [h]; exact Severity.skip_ne_ignore), if_pos h]

/-- Witness of C8: a check whose `Apply` would fail the point and write "x". -/
theorem Constraint.skip_returns_true_witness :
    (exampleCheck Severity.skip).severity_ = Severity.skip ∧
      ((exampleCheck Severity.skip).counted.operator_call ((), 0) examplePoint
          = (.ok true, ((), 0), examplePoint) ∧
        (exampleCheck Severity.skip).operator_call () examplePoint
          = (.ok true, (), examplePoint)) :=
  ⟨rfl, Constraint.skip_returns_true (exampleCheck Severity.skip) () 0 examplePoint rfl⟩

/-- C9 (`Severity::apply`): when `Apply` returns normally on the point,
`operator()` invokes it exactly once (the call counter goes up by one), returns
the boolean `Apply` returned, and leaves the check and the point, its store
included, exactly as `Apply` left them. -/
theorem Constraint.apply_returns_Apply {S P V : Type} [Zero V] [One V]
    (c : Constraint S P V) (self self' : S) (n : Nat) (point point' : ParameterPoint P V)
    (b : Bool) (h : c.severity_ = Severity.apply)
    (hA : c.Apply self point = (.ok b, self', point')) :
    c.counted.operator_call (self, n) point = (.ok b, (self', n + 1), point') ∧
      c.operator_call self point = (.ok b, self', point') := by
  constructor
  · unfold Constraint.operator_call
    have h' : c.counted.severity_ = Severity.apply := h
    rw [if_pos h']
    simp only [Constraint.counted, hA]
  · unfold Constraint.operator_call
    rw [if_pos h, hA]

/-- Witness of C9: the failing check, applied. -/
theorem Constraint.apply_returns_Apply_witness :
    (exampleCheck Severity.apply).severity_ = Severity.apply ∧
      (exampleCheck Severity.apply).Apply () examplePoint
        = (.ok false, (), ⟨(), (exampleStore.Store "x" 5).2⟩) ∧
      ((exampleCheck Severity.apply).counted.operator_call ((), 0) examplePoint
          = (.ok false, ((), 0 + 1), ⟨(), (exampleStore.Store "x" 5).2⟩) ∧
        (exampleCheck Severity.apply).operator_call () examplePoint
          = (.ok false, (), ⟨(), (exampleStore.Store "x" 5).2⟩)) :=
  ⟨rfl, rfl, Constraint.apply_returns_Apply (exampleCheck Severity.apply) () () 0
    examplePoint _ false rfl rfl⟩

/-- C10 as stated fails: the check "c" under `Severity::ignore`, whose `Apply`
returns `true` and leaves the point untouched, run on a point whose store
already holds "valid_c", does not return `true`; `operator()` throws the
`DataMapError` of `Store`. -/
theorem Constraint.ignore_fails_on_stored_key :
    ¬ ∀ (c : Constraint Unit Unit Int) (point point' : ParameterPoint Unit Int) (b : Bool),
        c.severity_ = Severity.ignore →
        c.Apply () point = (.ok b, (), point') →
        point'.data.data_.find ("valid_" ++ c.constraintId)
          = point.data.data_.find ("valid_" ++ c.constraintId) →
        (c.operator_call () point).1 = .ok true := by
  intro hall
  have h := hall (examplePass Severity.ignore) exampleRerun exampleRerun true rfl rfl rfl
  have hthrow : ((examplePass Severity.ignore).operator_call () exampleRerun).1
      = .error (.DataMapError (.alreadyExists "valid_c")) := by rfl
  rw [hthrow] at h
  cases h

/-- C10 amended (`Severity::ignore`): when `Apply` returns normally on the point
and the store it leaves does not hold the key "valid_" + id, `operator()`
invokes `Apply` exactly once, returns `true` whatever `Apply` returned, and the
final store is the store `Apply` left plus the single entry "valid_" + id, with
value 1 if `Apply` returned `true` and 0 if it returned `false`. -/
theorem Constraint.ignore_stores_verdict {S P V : Type} [Zero V] [One V]
    (c : Constraint S P V) (self self' : S) (n : Nat) (point point' : ParameterPoint P V)
    (b : Bool) (h : c.severity_ = Severity.ignore)
    (hA : c.Apply self point = (.ok b, self', point'))
    (hk : point'.data.data_.find ("valid_" ++ c.constraintId) = none) :
    ∃ final : DataMap V,
      c.counted.operator_call (self, n) point
        = (.ok true, (self', n + 1), ⟨point'.params, final⟩) ∧
      c.operator_call self point = (.ok true, self', ⟨point'.params, final⟩) ∧
      (∀ k v, (k, v) ∈ final.iterate ↔
        (k, v) = ("valid_" ++ c.constraintId, if b then 1 else 0) ∨
          (k, v) ∈ point'.data.iterate) ∧
      final.operator_subscript ("valid_" ++ c.constraintId) = .ok (if b then 1 else 0) ∧
      ∀ k, k ≠ "valid_" ++ c.constraintId →
        final.operator_subscript k = point'.data.operator_subscript k := by
  obtain ⟨hok, hent⟩ := DataMap.Store_of_absent point'.data ("valid_" ++ c.constraintId)
    (if b then 1 else 0) hk
  obtain ⟨hget, hframe⟩ := DataMap.Store_absent_lookup point'.data
    ("valid_" ++ c.constraintId) (if b then 1 else 0) hk
  refine ⟨(point'.data.Store ("valid_" ++ c.constraintId) (if b then 1 else 0)).2,
    ?_, ?_, ?_, hget, hframe⟩
  · have hA' : c.counted.Apply (self, n) point = (.ok b, (self', n + 1), point') := by
      simp only [Constraint.counted, hA]
    rw [Constraint.operator_call_ignore c.counted h (self, n) (self', n + 1) point point' b hA']
    have hid : c.counted.constraintId = c.constraintId := rfl
    rw [hid, hok]
    rfl
  · rw [Constraint.operator_call_ignore c h self self' point point' b hA, hok]
    rfl
  · intro k v
    unfold DataMap.iterate
    rw [hent]
    exact mem_insertEntry _ _ (k, v) _

/-- Witness of C10 amended: the failing check under `Severity::ignore` on the
point holding "duplicate"; the final store holds "duplicate", "x" and
"valid_c" = 0. -/
theorem Constraint.ignore_stores_verdict_witness :
    (exampleCheck Severity.ignore).severity_ = Severity.ignore ∧
      (exampleCheck Severity.ignore).Apply () examplePoint
        = (.ok false, (), ⟨(), (exampleStore.Store "x" 5).2⟩) ∧
      (exampleStore.Store "x" 5).2.data_.find ("valid_" ++ "c") = none ∧
      ∃ final : DataMap Int,
        (exampleCheck Severity.ignore).counted.operator_call ((), 0) examplePoint
          = (.ok true, ((), 0 + 1), ⟨(), final⟩) ∧
        (exampleCheck Severity.ignore).operator_call () examplePoint
          = (.ok true, (), ⟨(), final⟩) ∧
        (∀ k v, (k, v) ∈ final.iterate ↔
          (k, v) = ("valid_" ++ "c", if false = true then 1 else 0) ∨
            (k, v) ∈ (exampleStore.Store "x" 5).2.iterate) ∧
        final.operator_subscript ("valid_" ++ "c") = .ok (if false = true then 1 else 0) ∧
        ∀ k, k ≠ "valid_" ++ "c" →
          final.operator_subscript k = (exampleStore.Store "x" 5).2.operator_subscript k :=
  ⟨rfl, rfl, by rfl, Constraint.ignore_stores_verdict (exampleCheck Severity.ignore) () () 0
    examplePoint ⟨(), (exampleStore.Store "x" 5).2⟩ false rfl rfl (by rfl)⟩

/-! ## The scan loop: checks combined with `&&` -/

/-- The condition `c₁(p) && c₂(p) && ... && cₖ(p)` of the scan loops (as
`uni(p) && bfb(p) && stab(p) && bphys(p) && stu(p)` in `ScannerS_R2HDM.cpp`):
the wrapped checks are called from left to right, each on the point as the one
before left it; the first `false` ends the evaluation, and so does a throw.
Every check comes with the state of its object; the outcome is returned with
the states of all the objects and the point afterwards.  The checks of one list
share the type `S` of their states (a sum of the types of the derived classes
will do). -/
def pipeline {S P V : Type} [Zero V] [One V] :
    List (Constraint S P V × S) → ParameterPoint P V →
      Except (Exception V) Bool × List S × ParameterPoint P V
  | [], point => (.ok true, [], point)
  | (c, self) :: rest, point =>
      match c.operator_call self point with
      | (.ok true, self', point') =>
          ((pipeline rest point').1, self' :: (pipeline rest point').2.1,
            (pipeline rest point').2.2)
      | (.ok false, self', point') => (.ok false, self' :: rest.map Prod.snd, point')
      | (.error e, self', point') => (.error e, self' :: rest.map Prod.snd, point')

/-- The point after the calls `c₁(p)`, `c₂(p)`, ..., `cₖ(p)` made one after the
other, all of them, whatever they return: `operator()` takes the point by
reference, so each call works on the point as the call before left it. -/
def pointAfter {S P V : Type} [Zero V] [One V] :
    List (Constraint S P V × S) → ParameterPoint P V → ParameterPoint P V
  | [], point => point
  | (c, self) :: rest, point => pointAfter rest (c.operator_call self point).2.2

/-- The objects of the checks after the calls `c₁(p)`, `c₂(p)`, ..., `cₖ(p)` made
one after the other, all of them. -/
def statesAfter {S P V : Type} [Zero V] [One V] :
    List (Constraint S P V × S) → ParameterPoint P V → List S
  | [], _ => []
  | (c, self) :: rest, point =>
      (c.operator_call self point).2.1 :: statesAfter rest (c.operator_call self point).2.2

/-- A check whose `Apply` reads the key "missing" of the store, as a check does
that relies on another one having run before. -/
def exampleReader (severity : Severity) : Constraint Unit Unit Int where
  severity_ := severity
  constraintId := "reader"
  Apply := fun self point =>
    match point.data.operator_subscript "missing" with
    | .error e => (.error e, self, point)
    | .ok v => (.ok (decide (0 < v)), self, point)

theorem pipeline_cons_true {S P V : Type} [Zero V] [One V] (c : Constraint S P V) (self : S)
    (rest : List (Constraint S P V × S)) (point : ParameterPoint P V)
    (h : (c.operator_call self point).1 = .ok true) :
    pipeline ((c, self) :: rest) point =
      ((pipeline rest (c.operator_call self point).2.2).1,
        (c.operator_call self point).2.1 :: (pipeline rest (c.operator_call self point).2.2).2.1,
        (pipeline rest (c.operator_call self point).2.2).2.2) := by
  rcases hc : c.operator_call self point with ⟨_ | b, self', point'⟩
  · rw [hc] at h; cases h
  · rw [hc] at h
    cases b
    · cases h
    · simp only [pipeline, hc]

theorem pipeline_cons_false {S P V : Type} [Zero V] [One V] (c : Constraint S P V) (self : S)
    (rest : List (Constraint S P V × S)) (point : ParameterPoint P V)
    (h : (c.operator_call self point).1 ≠ .ok true) :
    pipeline ((c, self) :: rest) point =
      ((c.operator_call self point).1,
        (c.operator_call self point).2.1 :: rest.map Prod.snd,
        (c.operator_call self point).2.2) := by
  rcases hc : c.operator_call self point with ⟨_ | b, self', point'⟩
  · simp only [pipeline, hc]
  · rw [hc] at h
    cases b
    · simp only [pipeline, hc]
    · exact absurd rfl h

theorem pipeline_true_iff {S P V : Type} [Zero V] [One V] :
    ∀ (cs : List (Constraint S P V × S)) (point : ParameterPoint P V),
      (pipeline cs point).1 = .ok true ↔
        ∀ pre c self post, cs = pre ++ (c, self) :: post →
          (c.operator_call self (pipeline pre point).2.2).1 = .ok true
  | [], point => by
      constructor
      · intro _ pre c self post h
        cases pre <;> cases h
      · intro _; rfl
  | (c₀, self₀) :: rest, point => by
      by_cases h₀ : (c₀.operator_call self₀ point).1 = .ok true
      · rw [pipeline_cons_true c₀ self₀ rest point h₀]
        simp only
        rw [pipeline_true_iff rest]
        constructor
        · intro h pre c self post hcs
          cases pre with
          | nil =>
              simp only [List.nil_append, List.cons.injEq, Prod.mk.injEq] at hcs
              obtain ⟨⟨rfl, rfl⟩, _⟩ := hcs
              exact h₀
          | cons x pre' =>
              simp only [List.cons_append, List.cons.injEq] at hcs
              obtain ⟨rfl, hrest⟩ := hcs
              rw [pipeline_cons_true c₀ self₀ pre' point h₀]
              exact h pre' c self post hrest
        · intro h pre c self post hcs
          have := h ((c₀, self₀) :: pre) c self post (by rw [hcs]; rfl)
          rw [pipeline_cons_true c₀ self₀ pre point h₀] at this
          exact this
      · rw [pipeline_cons_false c₀ self₀ rest point h₀]
        simp only
        constructor
        · intro h; exact absurd h h₀
        · intro h
          exact absurd (h [] c₀ self₀ rest rfl) h₀

theorem pipeline_first_false {S P V : Type} [Zero V] [One V] :
    ∀ (pre : List (Constraint S P V × S)) (c : Constraint S P V) (self : S)
      (post : List (Constraint S P V × S)) (point : ParameterPoint P V),
      (pipeline pre point).1 = .ok true →
      (c.operator_call self (pipeline pre point).2.2).1 ≠ .ok true →
      pipeline (pre ++ (c, self) :: post) point =
        ((c.operator_call self (pipeline pre point).2.2).1,
          (pipeline pre point).2.1 ++
            (c.operator_call self (pipeline pre point).2.2).2.1 :: post.map Prod.snd,
          (c.operator_call self (pipeline pre point).2.2).2.2)
  | [], c, self, post, point, _, hc => by
      simpa [pipeline] using pipeline_cons_false c self post point hc
  | (c₀, self₀) :: pre, c, self, post, point, hpre, hc => by
      by_cases h₀ : (c₀.operator_call self₀ point).1 = .ok true
      · rw [pipeline_cons_true c₀ self₀ pre point h₀] at hpre hc
        simp only at hpre hc
        rw [List.cons_append, pipeline_cons_true c₀ self₀ _ point h₀,
          pipeline_cons_true c₀ self₀ pre point h₀,
          pipeline_first_false pre c self post _ hpre hc]
        rfl
      · rw [pipeline_cons_false c₀ self₀ pre point h₀] at hpre
        exact absurd hpre h₀

theorem pipeline_of_all_true {S P V : Type} [Zero V] [One V] :
    ∀ (cs : List (Constraint S P V × S)) (point : ParameterPoint P V),
      (∀ pre c self post, cs = pre ++ (c, self) :: post →
        (c.operator_call self (pointAfter pre point)).1 = .ok true) →
      pipeline cs point = (.ok true, statesAfter cs point, pointAfter cs point)
  | [], _, _ => rfl
  | (c₀, self₀) :: rest, point, h => by
      have h₀ : (c₀.operator_call self₀ point).1 = .ok true := h [] c₀ self₀ rest rfl
      rw [pipeline_cons_true c₀ self₀ rest point h₀,
        pipeline_of_all_true rest (c₀.operator_call self₀ point).2.2
          (fun pre c self post hcs => h ((c₀, self₀) :: pre) c self post (by rw [hcs]; rfl))]
      rfl

theorem pipeline_true_in_order {S P V : Type} [Zero V] [One V] :
    ∀ (cs : List (Constraint S P V × S)) (point : ParameterPoint P V),
      (pipeline cs point).1 = .ok true →
      ∀ pre c self post, cs = pre ++ (c, self) :: post →
        (c.operator_call self (pointAfter pre point)).1 = .ok true
  | [], _, _, pre, c, self, post, hcs => by cases pre <;> cases hcs
  | (c₀, self₀) :: rest, point, h, pre, c, self, post, hcs => by
      by_cases h₀ : (c₀.operator_call self₀ point).1 = .ok true
      · rw [pipeline_cons_true c₀ self₀ rest point h₀] at h
        cases pre with
        | nil =>
            simp only [List.nil_append, List.cons.injEq, Prod.mk.injEq] at hcs
            obtain ⟨⟨rfl, rfl⟩, _⟩ := hcs
            exact h₀
        | cons x pre' =>
            simp only [List.cons_append, List.cons.injEq] at hcs
            obtain ⟨rfl, hrest⟩ := hcs
            exact pipeline_true_in_order rest _ h pre' c self post hrest
      · rw [pipeline_cons_false c₀ self₀ rest point h₀] at h
        exact absurd h h₀

/-- C11 (pipeline short-circuit): for every ordered list of wrapped checks
joined by `&&` and every point, the condition is `true` if and only if every
check returns `true` when the checks are run in order, each on the point as the
checks before it left it (`pointAfter`); when it is `true`, the objects and the
point, its store included, are those left by running all the checks in order.
When the checks before check `c` all return `true` and `c` returns `false`, the
condition is `false`, the objects of the checks before `c` and of `c` are as
their calls left them, the objects of all later checks are exactly as they were
(so a call counter in any of them is unchanged: no later `Apply` is invoked),
and the final point, its store included, is the point as `c` left it.  In
particular for `[A, B]` under `Severity::apply`: when `Apply` of `A` returns
`false`, the counter of `A` goes up by one and the counter of `B` stays; when
`Apply` of `A` returns `true`, `Apply` of `B` is invoked once on the point `A`
left, and its outcome and its point are those of the condition. -/
theorem pipeline_short_circuit {S P V : Type} [Zero V] [One V]
    (cs : List (Constraint S P V × S)) (point : ParameterPoint P V) :
    ((pipeline cs point).1 = .ok true ↔
        ∀ pre c self post, cs = pre ++ (c, self) :: post →
          (c.operator_call self (pointAfter pre point)).1 = .ok true) ∧
      ((pipeline cs point).1 = .ok true →
        (pipeline cs point).2.1 = statesAfter cs point ∧
          (pipeline cs point).2.2 = pointAfter cs point) ∧
      (∀ pre c self post, cs = pre ++ (c, self) :: post →
        (∀ pre₁ c₁ self₁ post₁, pre = pre₁ ++ (c₁, self₁) :: post₁ →
          (c₁.operator_call self₁ (pointAfter pre₁ point)).1 = .ok true) →
        (c.operator_call self (pointAfter pre point)).1 = .ok false →
          (pipeline cs point).1 = .ok false ∧
          (pipeline cs point).2.1 = statesAfter pre point ++
            (c.operator_call self (pointAfter pre point)).2.1 :: post.map Prod.snd ∧
          (pipeline cs point).2.2 = (c.operator_call self (pointAfter pre point)).2.2) ∧
      (∀ (A B : Constraint S P V) (a a' b : S) (n m : Nat) (point' : ParameterPoint P V),
        A.severity_ = Severity.apply → B.severity_ = Severity.apply →
        A.Apply a point = (.ok false, a', point') →
          pipeline [(A.counted, (a, n)), (B.counted, (b, m))] point
            = (.ok false, [(a', n + 1), (b, m)], point')) ∧
      (∀ (A B : Constraint S P V) (a a' b b' : S) (n m : Nat)
        (point' point'' : ParameterPoint P V) (r : Except (Exception V) Bool),
        A.severity_ = Severity.apply → B.severity_ = Severity.apply →
        A.Apply a point = (.ok true, a', point') →
        B.Apply b point' = (r, b', point'') →
          pipeline [(A.counted, (a, n)), (B.counted, (b, m))] point
            = (r, [(a', n + 1), (b', m + 1)], point'')) := by
  refine ⟨⟨pipeline_true_in_order cs point, fun h => ?_⟩, fun h => ?_, ?_, ?_, ?_⟩
  · rw [pipeline_of_all_true cs point h]
  · rw [pipeline_of_all_true cs point (pipeline_true_in_order cs point h)]
    exact ⟨rfl, rfl⟩
  · intro pre c self post hcs hpre hc
    have hrun := pipeline_of_all_true pre point hpre
    have hne : (c.operator_call self (pipeline pre point).2.2).1 ≠ .ok true := by
      rw [hrun, hc]; intro h; cases h
    rw [hcs, pipeline_first_false pre c self post point (by rw [hrun]) hne, hrun]
    exact ⟨hc, rfl, rfl⟩
  · intro A B a a' b n m point' hA _ hApply
    have hcall : A.counted.operator_call (a, n) point = (.ok false, (a', n + 1), point') := by
      unfold Constraint.operator_call
      have h' : A.counted.severity_ = Severity.apply := hA
      rw [if_pos h']
      simp only [Constraint.counted, hApply]
    have hne : (A.counted.operator_call (a, n) point).1 ≠ .ok true := by
      rw [hcall]; intro h; cases h
    rw [pipeline_cons_false A.counted (a, n) _ point hne, hcall]
    rfl
  · intro A B a a' b b' n m point' point'' r hA hB hApplyA hApplyB
    have hcallA : A.counted.operator_call (a, n) point = (.ok true, (a', n + 1), point') := by
      unfold Constraint.operator_call
      have h' : A.counted.severity_ = Severity.apply := hA
      rw [if_pos h']
      simp only [Constraint.counted, hApplyA]
    have hcallB : B.counted.operator_call (b, m) point' = (r, (b', m + 1), point'') := by
      unfold Constraint.operator_call
      have h' : B.counted.severity_ = Severity.apply := hB
      rw [if_pos h']
      simp only [Constraint.counted, hApplyB]
    rw [pipeline_cons_true A.counted (a, n) _ point (by rw [hcallA]), hcallA]
    by_cases hr : r = .ok true
    · subst hr
      rw [pipeline_cons_true B.counted (b, m) _ point' (by rw [hcallB]), hcallB]
      rfl
    · rw [pipeline_cons_false B.counted (b, m) _ point' (by rw [hcallB]; exact hr), hcallB]
      rfl

/-- C12 (errors are propagated): when `Apply` throws on the point, `operator()`
under `Severity::apply` and under `Severity::ignore` throws the same exception,
so it returns no boolean; `Apply` has been invoked once, and the check and the
point, its store included, are as `Apply` left them when it threw: under
`Severity::ignore` no "valid_" entry is written. -/
theorem Constraint.error_propagates {S P V : Type} [Zero V] [One V]
    (c : Constraint S P V) (self self' : S) (n : Nat) (point point' : ParameterPoint P V)
    (e : Exception V)
    (h : c.severity_ = Severity.apply ∨ c.severity_ = Severity.ignore)
    (hA : c.Apply self point = (.error e, self', point')) :
    c.operator_call self point = (.error e, self', point') ∧
      c.counted.operator_call (self, n) point = (.error e, (self', n + 1), point') := by
  have hA' : c.counted.Apply (self, n) point = (.error e, (self', n + 1), point') := by
    simp only [Constraint.counted, hA]
  have hsev : c.counted.severity_ = c.severity_ := rfl
  rcases h with h | h
  · constructor
    · unfold Constraint.operator_call
      rw [if_pos h, hA]
    · unfold Constraint.operator_call
      rw [if_pos (hsev.trans h), hA']
  · constructor
    · unfold Constraint.operator_call
      rw [if_neg (by rw [h]; exact Severity.ignore_ne_apply), if_pos h, hA]
    · unfold Constraint.operator_call
      rw [if_neg (by rw [hsev, h]; exact Severity.ignore_ne_apply), if_pos (hsev.trans h), hA']

/-- Witness of C12: under `Severity::ignore` the check reading the key
"missing" throws the "Unknown key" error of the lookup. -/
theorem Constraint.error_propagates_witness :
    ((exampleReader Severity.ignore).severity_ = Severity.apply ∨
        (exampleReader Severity.ignore).severity_ = Severity.ignore) ∧
      (exampleReader Severity.ignore).Apply () examplePoint
        = (.error (.DataMapError (.unknownKey "missing")), (), examplePoint) ∧
      ((exampleReader Severity.ignore).operator_call () examplePoint
          = (.error (.DataMapError (.unknownKey "missing")), (), examplePoint) ∧
        (exampleReader Severity.ignore).counted.operator_call ((), 0) examplePoint
          = (.error (.DataMapError (.unknownKey "missing")), ((), 0 + 1), examplePoint)) :=
  ⟨Or.inr rfl, rfl, Constraint.error_propagates (exampleReader Severity.ignore) () () 0
    examplePoint examplePoint _ (Or.inr rfl) rfl⟩

/-! ## The oblique parameters: `Constraints/STU.hpp`, `Constraints/STU.cpp`

The type `double` is embedded as a linearly ordered field `R`, so that the
arithmetic is exact; the functions of `<cmath>` that are not field operations
come as a parameter.  Over the rationals every definition below can be run,
over the reals `Libm.real` supplies the functions themselves. -/

/-- The functions of `<cmath>` the loop functions call. -/
structure Libm (R : Type) where
  /-- The function `log`. -/
  log : R → R
  /-- The function `sqrt`. -/
  sqrt : R → R
  /-- The function `atan`. -/
  atan : R → R

/-- The functions of `<cmath>` on the real numbers. -/
noncomputable def Libm.real : Libm ℝ := ⟨Real.log, Real.sqrt, Real.arctan⟩

/-- The constant `STUFit::S`, "central value for S". -/
def STUFit.S {R : Type} [LinearOrderedField R] : R := 0.04

/-- The constant `STUFit::sdS`, "standard deviation". -/
def STUFit.sdS {R : Type} [LinearOrderedField R] : R := 0.11

/-- The constant `STUFit::T`, "central value for T". -/
def STUFit.T {R : Type} [LinearOrderedField R] : R := 0.09

/-- The constant `STUFit::sdT`. -/
def STUFit.sdT {R : Type} [LinearOrderedField R] : R := 0.14

/-- The constant `STUFit::U`, "central value for U". -/
def STUFit.U {R : Type} [LinearOrderedField R] : R := -0.02

/-- The constant `STUFit::sdU`. -/
def STUFit.sdU {R : Type} [LinearOrderedField R] : R := 0.11

/-- The constant `STUFit::ccST`, "correlation coefficient between S and T". -/
def STUFit.ccST {R : Type} [LinearOrderedField R] : R := 0.92

/-- The constant `STUFit::ccSU`. -/
def STUFit.ccSU {R : Type} [LinearOrderedField R] : R := -0.68

/-- The constant `STUFit::ccTU`. -/
def STUFit.ccTU {R : Type} [LinearOrderedField R] : R := -0.87

/-- The constant `STUFit::mhref`, "reference Higgs mass used in the fit". -/
def STUFit.mhref {R : Type} [LinearOrderedField R] : R := 125

/-- The constant `Constants::chisq2Sigma3d`. -/
def Constants.chisq2Sigma3d {R : Type} [LinearOrderedField R] : R := 7.81

/-- An `Eigen::Vector3d`. -/
structure Vector3d (R : Type) where
  /-- Coefficient 0. -/
  x : R
  /-- Coefficient 1. -/
  y : R
  /-- Coefficient 2. -/
  z : R

/-- An `Eigen::Matrix3d`, by its coefficients `m(i, j)`. -/
structure Matrix3d (R : Type) where
  /-- Coefficient (0, 0). -/
  m00 : R
  /-- Coefficient (0, 1). -/
  m01 : R
  /-- Coefficient (0, 2). -/
  m02 : R
  /-- Coefficient (1, 0). -/
  m10 : R
  /-- Coefficient (1, 1). -/
  m11 : R
  /-- Coefficient (1, 2). -/
  m12 : R
  /-- Coefficient (2, 0). -/
  m20 : R
  /-- Coefficient (2, 1). -/
  m21 : R
  /-- Coefficient (2, 2). -/
  m22 : R

/-- The determinant, by expansion along the first row. -/
def Matrix3d.determinant {R : Type} [LinearOrderedField R] (m : Matrix3d R) : R :=
  m.m00 * (m.m11 * m.m22 - m.m12 * m.m21) - m.m01 * (m.m10 * m.m22 - m.m12 * m.m20)
    + m.m02 * (m.m10 * m.m21 - m.m11 * m.m20)

/-- The member `inverse()` of a fixed-size 3×3 matrix: the transposed matrix of
cofactors divided by the determinant. -/
def Matrix3d.inverse {R : Type} [LinearOrderedField R] (m : Matrix3d R) : Matrix3d R where
  m00 := (m.m11 * m.m22 - m.m12 * m.m21) / m.determinant
  m01 := (m.m02 * m.m21 - m.m01 * m.m22) / m.determinant
  m02 := (m.m01 * m.m12 - m.m02 * m.m11) / m.determinant
  m10 := (m.m12 * m.m20 - m.m10 * m.m22) / m.determinant
  m11 := (m.m00 * m.m22 - m.m02 * m.m20) / m.determinant
  m12 := (m.m02 * m.m10 - m.m00 * m.m12) / m.determinant
  m20 := (m.m10 * m.m21 - m.m11 * m.m20) / m.determinant
  m21 := (m.m01 * m.m20 - m.m00 * m.m21) / m.determinant
  m22 := (m.m00 * m.m11 - m.m01 * m.m10) / m.determinant

/-- The product `v.transpose() * m * v`. -/
def Matrix3d.quadraticForm {R : Type} [LinearOrderedField R] (m : Matrix3d R)
    (v : Vector3d R) : R :=
  (v.x * m.m00 + v.y * m.m10 + v.z * m.m20) * v.x
    + (v.x * m.m01 + v.y * m.m11 + v.z * m.m21) * v.y
    + (v.x * m.m02 + v.y * m.m12 + v.z * m.m22) * v.z

/-- The covariance matrix that `Chisq` inverts, filled row by row through the
comma initializer. -/
def STUFit.cov {R : Type} [LinearOrderedField R] : Matrix3d R where
  m00 := STUFit.sdS * STUFit.sdS
  m01 := STUFit.ccST * STUFit.sdS * STUFit.sdT
  m02 := STUFit.ccSU * STUFit.sdS * STUFit.sdU
  m10 := STUFit.ccST * STUFit.sdS * STUFit.sdT
  m11 := STUFit.sdT * STUFit.sdT
  m12 := STUFit.ccTU * STUFit.sdT * STUFit.sdU
  m20 := STUFit.ccSU * STUFit.sdS * STUFit.sdU
  m21 := STUFit.ccTU * STUFit.sdT * STUFit.sdU
  m22 := STUFit.sdU * STUFit.sdU

/-- The function `STUDetail::Chisq(S, T, U)`. -/
def Chisq {R : Type} [LinearOrderedField R] (S T U : R) : R :=
  let result : Vector3d R := ⟨STUFit.S - S, STUFit.T - T, STUFit.U - U⟩
  let invCov : Matrix3d R := STUFit.cov.inverse
  invCov.quadraticForm result

/-- The branch of `F` taken when `abs(delta) < 1e-3`. -/
def F.expanded {R : Type} [LinearOrderedField R] (SumSq delta : R) : R :=
  |delta| + SumSq * delta * delta * (1 + delta * delta / 5) / 3

/-- The other branch of `F`. -/
def F.closed {R : Type} [LinearOrderedField R] (libm : Libm R) (SumSq delta : R) : R :=
  SumSq * (0.5 + 0.25 * (delta - 1) * (delta + 1) / delta *
    libm.log ((1 + delta) / (1 - delta)))

/-- The function `STUDetail::F(I, J)`. -/
def F {R : Type} [LinearOrderedField R] (libm : Libm R) (I J : R) : R :=
  let SumSq := I + J
  let delta := (I - J) / SumSq
  if |delta| < 1e-3 then F.expanded SumSq delta else F.closed libm SumSq delta

/-- The function `STUDetail::FuncF(t, r)`. -/
def FuncF {R : Type} [LinearOrderedField R] (libm : Libm R) (t r : R) : R :=
  if |r| < 1e-3 then -2 * r / t
  else if r > 0 then
    libm.sqrt r * libm.log |(t - libm.sqrt r) / (t + libm.sqrt r)|
  else
    2 * libm.sqrt (-r) * libm.atan (libm.sqrt (-r) / t)

/-- The value of `logpart` in `G` when `abs(I - J) < 1e-3`. -/
def G.logpartNear {R : Type} [LinearOrderedField R] (I J Q : R) : R :=
  6 * J / Q + 3 * (I - J) / Q

/-- The value of `logpart` in `G` otherwise. -/
def G.logpartClosed {R : Type} [LinearOrderedField R] (libm : Libm R) (I J Q : R) : R :=
  3 / Q * ((I ^ 2 + J ^ 2) / (I - J) - (I ^ 2 - J ^ 2) / Q + (I - J) ^ 3 / (3 * Q ^ 2)) *
    libm.log (I / J)

/-- The function `STUDetail::G(I, J, Q)`. -/
def G {R : Type} [LinearOrderedField R] (libm : Libm R) (I J Q : R) : R :=
  let logpart := if |I - J| < 1e-3 then G.logpartNear I J Q else G.logpartClosed libm I J Q
  let r := Q ^ 2 - 2 * Q * (I + J) + (I - J) ^ 2
  let t := I + J - Q;
  -16 / 3 + 5 * (I + J) / Q - 2 * (I - J) ^ 2 / Q ^ 2 + logpart + r / Q ^ 3 * FuncF libm t r

/-- The value of `logpart` in `G2` when `abs(I - Q) < 1e-3`. -/
def G2.logpartNear {R : Type} [LinearOrderedField R] (I Q : R) : R :=
  -18 + 3 * (I - Q) / Q

/-- The value of `logpart` in `G2` otherwise. -/
def G2.logpartClosed {R : Type} [LinearOrderedField R] (libm : Libm R) (I Q : R) : R :=
  (-10 + 18 * I / Q - 6 * (I / Q) ^ 2 + (I / Q) ^ 3 - 9 * (I + Q) / (I - Q)) *
    libm.log (I / Q)

/-- The function `STUDetail::G2(I, Q)`. -/
def G2 {R : Type} [LinearOrderedField R] (libm : Libm R) (I Q : R) : R :=
  let logpart := if |I - Q| < 1e-3 then G2.logpartNear I Q else G2.logpartClosed libm I Q;
  -79 / 3 + 9 * I / Q - 2 * (I / Q) ^ 2 + logpart +
    (12 - 4 * I / Q + (I / Q) ^ 2) * FuncF libm I (I ^ 2 - 4 * I * Q) / Q

/-! ## The claims on `Chisq` and on the loop functions -/

theorem STUFit.cov_determinant {R : Type} [LinearOrderedField R] :
    (STUFit.cov.determinant : R) = 4097122799 / 62500000000000000 := by
  simp only [Matrix3d.determinant, STUFit.cov, STUFit.sdS, STUFit.sdT, STUFit.sdU,
    STUFit.ccST, STUFit.ccSU, STUFit.ccTU]
  norm_num

/-- C16 (chi-square at the fit centre): `Chisq(STUFit::S, STUFit::T, STUFit::U)`
is 0 in exact arithmetic, hence below 0.1; the covariance matrix it inverts has
a non-zero determinant, so the inverse is a true inverse. -/
theorem Chisq_at_centre {R : Type} [LinearOrderedField R] :
    (Chisq STUFit.S STUFit.T STUFit.U : R) = 0 ∧
      (Chisq STUFit.S STUFit.T STUFit.U : R) < 0.1 ∧
      (STUFit.cov.determinant : R) ≠ 0 := by
  have h0 : (Chisq STUFit.S STUFit.T STUFit.U : R) = 0 := by
    simp [Chisq, Matrix3d.quadraticForm]
  refine ⟨h0, ?_, ?_⟩
  · rw [h0]; norm_num
  · rw [STUFit.cov_determinant]; norm_num

theorem Chisq_S_plus {R : Type} [LinearOrderedField R] :
    (Chisq (STUFit.S + STUFit.sdS) STUFit.T STUFit.U : R) = 60775 / 5711 := by
  simp only [Chisq, Matrix3d.quadraticForm, Matrix3d.inverse, Matrix3d.determinant,
    STUFit.cov, STUFit.S, STUFit.T, STUFit.U, STUFit.sdS, STUFit.sdT, STUFit.sdU,
    STUFit.ccST, STUFit.ccSU, STUFit.ccTU]
  norm_num

theorem Chisq_S_minus {R : Type} [LinearOrderedField R] :
    (Chisq (STUFit.S - STUFit.sdS) STUFit.T STUFit.U : R) = 60775 / 5711 := by
  simp only [Chisq, Matrix3d.quadraticForm, Matrix3d.inverse, Matrix3d.determinant,
    STUFit.cov, STUFit.S, STUFit.T, STUFit.U, STUFit.sdS, STUFit.sdT, STUFit.sdU,
    STUFit.ccST, STUFit.ccSU, STUFit.ccTU]
  norm_num

theorem Chisq_T_plus {R : Type} [LinearOrderedField R] :
    (Chisq STUFit.S (STUFit.T + STUFit.sdT) STUFit.U : R) = 134400 / 5711 := by
  simp only [Chisq, Matrix3d.quadraticForm, Matrix3d.inverse, Matrix3d.determinant,
    STUFit.cov, STUFit.S, STUFit.T, STUFit.U, STUFit.sdS, STUFit.sdT, STUFit.sdU,
    STUFit.ccST, STUFit.ccSU, STUFit.ccTU]
  norm_num

theorem Chisq_T_minus {R : Type} [LinearOrderedField R] :
    (Chisq STUFit.S (STUFit.T - STUFit.sdT) STUFit.U : R) = 134400 / 5711 := by
  simp only [Chisq, Matrix3d.quadraticForm, Matrix3d.inverse, Matrix3d.determinant,
    STUFit.cov, STUFit.S, STUFit.T, STUFit.U, STUFit.sdS, STUFit.sdT, STUFit.sdU,
    STUFit.ccST, STUFit.ccSU, STUFit.ccTU]
  norm_num

theorem Chisq_U_plus {R : Type} [LinearOrderedField R] :
    (Chisq STUFit.S STUFit.T (STUFit.U + STUFit.sdU) : R) = 38400 / 5711 := by
  simp only [Chisq, Matrix3d.quadraticForm, Matrix3d.inverse, Matrix3d.determinant,
    STUFit.cov, STUFit.S, STUFit.T, STUFit.U, STUFit.sdS, STUFit.sdT, STUFit.sdU,
    STUFit.ccST, STUFit.ccSU, STUFit.ccTU]
  norm_num

theorem Chisq_U_minus {R : Type} [LinearOrderedField R] :
    (Chisq STUFit.S STUFit.T (STUFit.U - STUFit.sdU) : R) = 38400 / 5711 := by
  simp only [Chisq, Matrix3d.quadraticForm, Matrix3d.inverse, Matrix3d.determinant,
    STUFit.cov, STUFit.S, STUFit.T, STUFit.U, STUFit.sdS, STUFit.sdT, STUFit.sdU,
    STUFit.ccST, STUFit.ccSU, STUFit.ccTU]
  norm_num

/-- C17 (chi-square at one standard deviation): with the constants of `STUFit`,
`Chisq` is 60775/5711 (about 10.6) at `S ± sdS` and 134400/5711 (about 23.5) at
`T ± sdT`, neither below 7.81, and it is 38400/5711 (about 6.7) at `U ± sdU`,
below 7.81. -/
theorem Chisq_one_sigma {R : Type} [LinearOrderedField R] :
    ¬ ((Chisq (STUFit.S + STUFit.sdS) STUFit.T STUFit.U : R) < 7.81) ∧
      ¬ ((Chisq (STUFit.S - STUFit.sdS) STUFit.T STUFit.U : R) < 7.81) ∧
      ¬ ((Chisq STUFit.S (STUFit.T + STUFit.sdT) STUFit.U : R) < 7.81) ∧
      ¬ ((Chisq STUFit.S (STUFit.T - STUFit.sdT) STUFit.U : R) < 7.81) ∧
      (Chisq STUFit.S STUFit.T (STUFit.U + STUFit.sdU) : R) < 7.81 ∧
      (Chisq STUFit.S STUFit.T (STUFit.U - STUFit.sdU) : R) < 7.81 := by
  rw [Chisq_S_plus, Chisq_S_minus, Chisq_T_plus, Chisq_T_minus, Chisq_U_plus, Chisq_U_minus]
  norm_num

/-- C20 fails on the code: at `I = 2001`, `J = 1999` (`delta = 1/2000`, inside
the expanded branch) `F` returns `abs(delta)` plus the truncated Taylor series
`(I+J)*(delta^2/3 + delta^4/15)`, that is 16666667/20000000000 instead of
6666667/20000000000, whatever `log` is. -/
theorem F_expanded_adds_abs_delta {R : Type} [LinearOrderedField R] (libm : Libm R) :
    F libm 2001 1999 = 1 / 2000 + (2001 + 1999) * ((1 / 2000) ^ 2 / 3 + (1 / 2000) ^ 4 / 15) ∧
      F libm 2001 1999 ≠ (2001 + 1999) * ((1 / 2000) ^ 2 / 3 + (1 / 2000) ^ 4 / 15) := by
  have hδ : ((2001 : R) - 1999) / (2001 + 1999) = 1 / 2000 := by norm_num
  have habs : |(1 : R) / 2000| = 1 / 2000 := abs_of_pos (by norm_num)
  have hF : F libm 2001 1999
      = 1 / 2000 + (2001 + 1999) * ((1 / 2000) ^ 2 / 3 + (1 / 2000) ^ 4 / 15) := by
    unfold F
    dsimp only
    rw [hδ, if_pos (by rw [habs]; norm_num)]
    unfold F.expanded
    rw [habs]
    norm_num
  refine ⟨hF, ?_⟩
  rw [hF]
  norm_num

theorem tendsto_log_div_sub (J : ℝ) (hJ : 0 < J) :
    Filter.Tendsto (fun I : ℝ => Real.log (I / J) / (I - J)) (nhdsWithin J {J}ᶜ)
      (nhds J⁻¹) := by
  have hd := hasDerivAt_iff_tendsto_slope.mp (Real.hasDerivAt_log hJ.ne')
  refine hd.congr' ?_
  have hpos : ∀ᶠ I in nhdsWithin J {J}ᶜ, 0 < I :=
    (eventually_gt_nhds hJ).filter_mono nhdsWithin_le_nhds
  filter_upwards [hpos] with I hI
  rw [slope_def_field, Real.log_div hI.ne' hJ.ne']

theorem tendsto_log_div (J : ℝ) (hJ : 0 < J) :
    Filter.Tendsto (fun I : ℝ => Real.log (I / J)) (nhdsWithin J {J}ᶜ) (nhds 0) := by
  have hc : ContinuousAt (fun I : ℝ => Real.log (I / J)) J := by
    apply ContinuousAt.log
    · exact continuousAt_id.div_const J
    · simp [hJ.ne']
  have := hc.tendsto
  simp only [div_self hJ.ne', Real.log_one] at this
  exact this.mono_left nhdsWithin_le_nhds

theorem G.logpartClosed_tendsto_near (J Q : ℝ) (hJ : 0 < J) :
    Filter.Tendsto (fun I => G.logpartClosed Libm.real I J Q) (nhdsWithin J {J}ᶜ)
      (nhds (6 * J / Q)) := by
  have h1 := tendsto_log_div_sub J hJ
  have h2 := tendsto_log_div J hJ
  have hI : Filter.Tendsto (fun I : ℝ => I) (nhdsWithin J {J}ᶜ) (nhds J) :=
    Filter.tendsto_id.mono_left nhdsWithin_le_nhds
  have hg : Filter.Tendsto (fun I : ℝ => 3 / Q * ((I ^ 2 + J ^ 2) * (Real.log (I / J) / (I - J))
      - (I ^ 2 - J ^ 2) / Q * Real.log (I / J)
      + (I - J) ^ 3 / (3 * Q ^ 2) * Real.log (I / J))) (nhdsWithin J {J}ᶜ)
      (nhds (3 / Q * ((J ^ 2 + J ^ 2) * J⁻¹ - (J ^ 2 - J ^ 2) / Q * 0
        + (J - J) ^ 3 / (3 * Q ^ 2) * 0))) :=
    Filter.Tendsto.const_mul _ (((((hI.pow 2).add_const _).mul h1).sub
      ((((hI.pow 2).sub_const _).div_const _).mul h2)).add
      ((((hI.sub_const _).pow 3).div_const _).mul h2))
  have hval : 3 / Q * ((J ^ 2 + J ^ 2) * J⁻¹ - (J ^ 2 - J ^ 2) / Q * 0
        + (J - J) ^ 3 / (3 * Q ^ 2) * 0) = 6 * J / Q := by
    have h3 : (J ^ 2 + J ^ 2) * J⁻¹ = 2 * J := by
      field_simp
      ring
    rw [h3]
    ring
  rw [hval] at hg
  refine hg.congr' ?_
  filter_upwards [self_mem_nhdsWithin] with I hI'
  have hne : I - J ≠ 0 := sub_ne_zero.mpr hI'
  simp only [G.logpartClosed, Libm.real]
  field_simp
  ring

theorem G2.logpartClosed_tendsto_minus18 (Q : ℝ) (hQ : 0 < Q) :
    Filter.Tendsto (fun I => G2.logpartClosed Libm.real I Q) (nhdsWithin Q {Q}ᶜ)
      (nhds (-18)) := by
  have h1 := tendsto_log_div_sub Q hQ
  have h2 := tendsto_log_div Q hQ
  have hI : Filter.Tendsto (fun I : ℝ => I) (nhdsWithin Q {Q}ᶜ) (nhds Q) :=
    Filter.tendsto_id.mono_left nhdsWithin_le_nhds
  have hg : Filter.Tendsto (fun I : ℝ =>
      (-10 + 18 * I / Q - 6 * (I / Q) ^ 2 + (I / Q) ^ 3) * Real.log (I / Q)
        - 9 * (I + Q) * (Real.log (I / Q) / (I - Q))) (nhdsWithin Q {Q}ᶜ)
      (nhds ((-10 + 18 * Q / Q - 6 * (Q / Q) ^ 2 + (Q / Q) ^ 3) * 0
        - 9 * (Q + Q) * Q⁻¹)) := by
    refine Filter.Tendsto.sub (Filter.Tendsto.mul ?_ h2) (Filter.Tendsto.mul ?_ h1)
    · exact (((((hI.const_mul 18).div_const Q).const_add (-10)).sub
        (((hI.div_const Q).pow 2).const_mul 6)).add ((hI.div_const Q).pow 3))
    · exact (hI.add_const Q).const_mul 9
  have hval : (-10 + 18 * Q / Q - 6 * (Q / Q) ^ 2 + (Q / Q) ^ 3) * 0 - 9 * (Q + Q) * Q⁻¹
      = -18 := by
    field_simp
    ring
  rw [hval] at hg
  refine hg.congr' ?_
  filter_upwards [self_mem_nhdsWithin] with I hI'
  have hne : I - Q ≠ 0 := sub_ne_zero.mpr hI'
  simp only [G2.logpartClosed, Libm.real]
  field_simp
  ring

/-- C18 (`G` at degenerate masses): for real `J > 0` and `Q > 0`, as `I` tends to
`J` (with `I ≠ J`) the closed-form `logpart` of `G`, the one used when
`abs(I - J) >= 1e-3`, tends to `6 J / Q`, which is the value of the
near-degenerate `logpart` at `I = J`; the difference of the two tends to 0.
All other terms of `G` are the same in both branches, so this is also the
difference of the two expressions of `G`. -/
theorem G_logpart_limit (J Q : ℝ) (hJ : 0 < J) (hQ : 0 < Q) :
    Filter.Tendsto (fun I => G.logpartClosed Libm.real I J Q) (nhdsWithin J {J}ᶜ)
        (nhds (6 * J / Q)) ∧
      G.logpartNear J J Q = 6 * J / Q ∧
      Filter.Tendsto (fun I => G.logpartClosed Libm.real I J Q - G.logpartNear I J Q)
        (nhdsWithin J {J}ᶜ) (nhds 0) ∧
      ∀ I, G Libm.real I J Q
        - (if |I - J| < 1e-3 then G.logpartNear I J Q else G.logpartClosed Libm.real I J Q)
        = -16 / 3 + 5 * (I + J) / Q - 2 * (I - J) ^ 2 / Q ^ 2
          + (Q ^ 2 - 2 * Q * (I + J) + (I - J) ^ 2) / Q ^ 3
            * FuncF Libm.real (I + J - Q) (Q ^ 2 - 2 * Q * (I + J) + (I - J) ^ 2) := by
  have _hQ := hQ
  have hclosed := G.logpartClosed_tendsto_near J Q hJ
  have hnear : Filter.Tendsto (fun I : ℝ => G.logpartNear I J Q) (nhdsWithin J {J}ᶜ)
      (nhds (6 * J / Q)) := by
    have hI : Filter.Tendsto (fun I : ℝ => I) (nhdsWithin J {J}ᶜ) (nhds J) :=
      Filter.tendsto_id.mono_left nhdsWithin_le_nhds
    have := (((hI.sub_const J).const_mul 3).div_const Q).const_add (6 * J / Q)
    simpa [G.logpartNear] using this
  refine ⟨hclosed, ?_, ?_, ?_⟩
  · simp [G.logpartNear]
  · simpa using hclosed.sub hnear
  · intro I
    simp only [G]
    ring

/-- Witness of C18: `J = 1`, `Q = 1`. -/
theorem G_logpart_limit_witness :
    (0 : ℝ) < 1 ∧
      Filter.Tendsto (fun I => G.logpartClosed Libm.real I 1 1) (nhdsWithin 1 {1}ᶜ)
        (nhds (6 * 1 / 1)) ∧
      G.logpartNear (1 : ℝ) 1 1 = 6 * 1 / 1 ∧
      Filter.Tendsto (fun I => G.logpartClosed Libm.real I 1 1 - G.logpartNear I 1 1)
        (nhdsWithin 1 {1}ᶜ) (nhds 0) ∧
      ∀ I : ℝ, G Libm.real I 1 1
        - (if |I - 1| < 1e-3 then G.logpartNear I 1 1 else G.logpartClosed Libm.real I 1 1)
        = -16 / 3 + 5 * (I + 1) / 1 - 2 * (I - 1) ^ 2 / 1 ^ 2
          + (1 ^ 2 - 2 * 1 * (I + 1) + (I - 1) ^ 2) / 1 ^ 3
            * FuncF Libm.real (I + 1 - 1) (1 ^ 2 - 2 * 1 * (I + 1) + (I - 1) ^ 2) :=
  ⟨zero_lt_one, G_logpart_limit 1 1 zero_lt_one zero_lt_one⟩

/-- C19 (`G2` at the degenerate point): for real `Q > 0`, as `I` tends to `Q`
(with `I ≠ Q`) the closed-form `logpart` of `G2`, the one used when
`abs(I - Q) >= 1e-3`, tends to -18, which is the value of the near-degenerate
`logpart` at `I = Q`; the difference of the two tends to 0.  All other terms of
`G2` are the same in both branches. -/
theorem G2_logpart_limit (Q : ℝ) (hQ : 0 < Q) :
    Filter.Tendsto (fun I => G2.logpartClosed Libm.real I Q) (nhdsWithin Q {Q}ᶜ)
        (nhds (-18)) ∧
      G2.logpartNear Q Q = -18 ∧
      Filter.Tendsto (fun I => G2.logpartClosed Libm.real I Q - G2.logpartNear I Q)
        (nhdsWithin Q {Q}ᶜ) (nhds 0) ∧
      ∀ I, G2 Libm.real I Q
        - (if |I - Q| < 1e-3 then G2.logpartNear I Q else G2.logpartClosed Libm.real I Q)
        = -79 / 3 + 9 * I / Q - 2 * (I / Q) ^ 2
          + (12 - 4 * I / Q + (I / Q) ^ 2) * FuncF Libm.real I (I ^ 2 - 4 * I * Q) / Q := by
  have hclosed := G2.logpartClosed_tendsto_minus18 Q hQ
  have hnear : Filter.Tendsto (fun I : ℝ => G2.logpartNear I Q) (nhdsWithin Q {Q}ᶜ)
      (nhds (-18)) := by
    have hI : Filter.Tendsto (fun I : ℝ => I) (nhdsWithin Q {Q}ᶜ) (nhds Q) :=
      Filter.tendsto_id.mono_left nhdsWithin_le_nhds
    have := (((hI.sub_const Q).const_mul 3).div_const Q).const_add (-18)
    simpa [G2.logpartNear] using this
  refine ⟨hclosed, ?_, ?_, ?_⟩
  · simp [G2.logpartNear]
  · simpa using hclosed.sub hnear
  · intro I
    simp only [G2]
    ring

/-- Witness of C19: `Q = 1`. -/
theorem G2_logpart_limit_witness :
    (0 : ℝ) < 1 ∧
      Filter.Tendsto (fun I => G2.logpartClosed Libm.real I 1) (nhdsWithin 1 {1}ᶜ)
        (nhds (-18)) ∧
      G2.logpartNear (1 : ℝ) 1 = -18 ∧
      Filter.Tendsto (fun I => G2.logpartClosed Libm.real I 1 - G2.logpartNear I 1)
        (nhdsWithin 1 {1}ᶜ) (nhds 0) ∧
      ∀ I : ℝ, G2 Libm.real I 1
        - (if |I - 1| < 1e-3 then G2.logpartNear I 1 else G2.logpartClosed Libm.real I 1)
        = -79 / 3 + 9 * I / 1 - 2 * (I / 1) ^ 2
          + (12 - 4 * I / 1 + (I / 1) ^ 2) * FuncF Libm.real I (I ^ 2 - 4 * I * 1) / 1 :=
  ⟨zero_lt_one, G2_logpart_limit 1 zero_lt_one⟩

/-! ## The class `STU` -/

/-- The constant `Constants::pi`. -/
def Constants.pi {R : Type} [LinearOrderedField R] : R := 3.14159265359

/-- The constant `Constants::mW`. -/
def Constants.mW {R : Type} [LinearOrderedField R] : R := 80.385

/-- The constant `Constants::mZ`. -/
def Constants.mZ {R : Type} [LinearOrderedField R] : R := 91.1876

/-- The constant `Constants::mWsq`, "squared W mass". -/
def Constants.mWsq {R : Type} [LinearOrderedField R] : R := Constants.mW * Constants.mW

/-- The constant `Constants::mZsq`, "squared Z mass". -/
def Constants.mZsq {R : Type} [LinearOrderedField R] : R := Constants.mZ * Constants.mZ

/-- The constant `Constants::stw`.  The compile-time square root
`Utilities::cxSqrt`, a Newton iteration run to machine precision, is embedded
as the square root of `libm`. -/
def Constants.stw {R : Type} [LinearOrderedField R] (libm : Libm R) : R :=
  libm.sqrt (1 - Constants.mW * Constants.mW / Constants.mZ / Constants.mZ)

/-- The constant `Constants::s2tw`. -/
def Constants.s2tw {R : Type} [LinearOrderedField R] (libm : Libm R) : R :=
  Constants.stw libm * Constants.stw libm

/-- A `std::complex<double>`. -/
structure Complexd (R : Type) where
  /-- The real part. -/
  re : R
  /-- The imaginary part. -/
  im : R

/-- The struct `STUDetail::STUParameters` for a model with `m` neutral and `n`
charged mass eigenstates, Goldstones included.  The dynamic-size matrices `mV`
(`nd × m`, complex) and `mU` (`nd × n`, real) carry their sizes in the type:
`Apply` assigns their products to fixed-size matrices, which Eigen only defines
for matching sizes.  The lengths of the two mass vectors are free, `Apply`
checks them. -/
structure STUParameters (R : Type) (m n : Nat) where
  /-- The common number of rows of `mV` and `mU`. -/
  nd : Nat
  /-- The matrix `mV`. -/
  mV : Fin nd → Fin m → Complexd R
  /-- The matrix `mU`. -/
  mU : Fin nd → Fin n → R
  /-- The vector `mHzero`, "neutral Higgs masses excluding the EW goldstone". -/
  mHzero : List R
  /-- The vector `mHcharged`, "charged Higgs masses excluding the EW goldstone". -/
  mHcharged : List R

/-- What the class `STU` asks of its template parameter `Model`. -/
structure Model (R P : Type) where
  /-- The constant `Model::nHzero`. -/
  nHzero : Nat
  /-- The constant `Model::nHplus`. -/
  nHplus : Nat
  /-- The function `Model::STUInput(p)`, taking the point by const reference. -/
  STUInput : ParameterPoint P R → STUParameters R (nHzero + 1) (nHplus + 1)
  /-- The function `Model::EWPValid(p)`, taking the point by const reference. -/
  EWPValid : ParameterPoint P R → Bool

/-- The constant `STU::m_ = Model::nHzero + 1`. -/
def STU.m_ {R P : Type} (model : Model R P) : Nat := model.nHzero + 1

/-- The constant `STU::n_ = Model::nHplus + 1`. -/
def STU.n_ {R P : Type} (model : Model R P) : Nat := model.nHplus + 1

/-- The data members of an `STU` object that outlive a call of `Apply`.  The
matrices and arrays `ImVVsq`, ..., `m0sq` are members too, but `Apply` fills
every one of them before it reads any, so they are the value `STU.Work`
computed in the call. -/
structure STU (R : Type) where
  /-- The member `chisqCrit_`. -/
  chisqCrit_ : R
  /-- The member `mhref2`. -/
  mhref2 : R

/-- The constructor `STU(severity, chisqCrit, mhref)`, the severity going to the
base class. -/
def STU.new {R : Type} [LinearOrderedField R] (chisqCrit mhref : R) : STU R :=
  ⟨chisqCrit, mhref * mhref⟩

/-- The constructor with its default arguments `Constants::chisq2Sigma3d` and
`STUFit::mhref`. -/
def STU.newDefault {R : Type} [LinearOrderedField R] : STU R :=
  STU.new Constants.chisq2Sigma3d STUFit.mhref

/-- The matrices and arrays `Apply` computes from the input. -/
structure STU.Work (R : Type) (m n : Nat) where
  /-- The matrix `ImVVsq`. -/
  ImVVsq : Fin m → Fin m → R
  /-- The matrix `UVsq`. -/
  UVsq : Fin n → Fin m → R
  /-- The matrix `UUsq`. -/
  UUsq : Fin n → Fin n → R
  /-- The vector `dUU`. -/
  dUU : Fin n → R
  /-- The vector `dVV`. -/
  dVV : Fin m → R
  /-- The array `mcsq`. -/
  mcsq : Fin n → R
  /-- The array `m0sq`. -/
  m0sq : Fin m → R

/-- The sum of `f` over the indices of a loop. -/
def loopSum {R ι : Type} [LinearOrderedField R] (indices : List ι) (f : ι → R) : R :=
  (indices.map f).sum

/-- The indices of `for (a = 1; a < n; ++a)`. -/
def fromOne (n : Nat) : List (Fin n) :=
  (List.finRange n).filter (fun a => decide (1 ≤ a.val))

/-- The indices of `for (a1 = 1; a1 < n - 1; ++a1)`. -/
def fromOneButLast (n : Nat) : List (Fin n) :=
  (List.finRange n).filter (fun a => decide (1 ≤ a.val ∧ a.val + 1 < n))

/-- The indices of `for (a2 = a1 + 1; a2 < n; ++a2)`. -/
def above {n : Nat} (a1 : Fin n) : List (Fin n) :=
  (List.finRange n).filter (fun a2 => decide (a1.val < a2.val))

/-- The arrays and matrices as `Apply` fills them: `m0sq[0] = 0`,
`m0sq[i + 1] = pow(mHzero[i], 2)`, the same for `mcsq`, and
`ImVVsq = (mV.adjoint() * mV).imag().cwiseAbs2()`,
`UVsq = (mU.adjoint() * mV).cwiseAbs2()`, `UUsq = (mU.adjoint() * mU).cwiseAbs2()`,
`dUU = (mU.adjoint() * mU).diagonal()`,
`dVV = (mV.adjoint() * mV).diagonal().real()`. -/
def STU.work {R : Type} [LinearOrderedField R] {m n : Nat} (input : STUParameters R m n) :
    STU.Work R m n where
  ImVVsq := fun b1 b2 =>
    (loopSum (List.finRange input.nd) fun k =>
      (input.mV k b1).re * (input.mV k b2).im - (input.mV k b1).im * (input.mV k b2).re) ^ 2
  UVsq := fun a b =>
    (loopSum (List.finRange input.nd) fun k => input.mU k a * (input.mV k b).re) ^ 2
      + (loopSum (List.finRange input.nd) fun k => input.mU k a * (input.mV k b).im) ^ 2
  UUsq := fun a1 a2 =>
    (loopSum (List.finRange input.nd) fun k => input.mU k a1 * input.mU k a2) ^ 2
  dUU := fun a => loopSum (List.finRange input.nd) fun k => input.mU k a * input.mU k a
  dVV := fun b =>
    loopSum (List.finRange input.nd) fun k =>
      (input.mV k b).re * (input.mV k b).re + (input.mV k b).im * (input.mV k b).im
  mcsq := fun a => if a.val = 0 then 0 else (input.mHcharged.getD (a.val - 1) 0) ^ 2
  m0sq := fun b => if b.val = 0 then 0 else (input.mHzero.getD (b.val - 1) 0) ^ 2

/-- The member `STU::CalcS()`. -/
def STU.CalcS {R : Type} [LinearOrderedField R] {m n : Nat} (libm : Libm R) (self : STU R)
    (w : STU.Work R (m + 1) n) : R :=
  let S0 : R := 0
  let S0 := S0 + loopSum (fromOne n) fun a =>
    (2 * Constants.s2tw libm - w.dUU a) ^ 2 * G libm (w.mcsq a) (w.mcsq a) Constants.mZsq
  let S0 := S0 + loopSum (fromOneButLast n) fun a1 => loopSum (above a1) fun a2 =>
    2 * w.UUsq a1 a2 * G libm (w.mcsq a1) (w.mcsq a2) Constants.mZsq
  let S0 := S0 + loopSum (fromOneButLast (m + 1)) fun b1 => loopSum (above b1) fun b2 =>
    w.ImVVsq b1 b2 * G libm (w.m0sq b1) (w.m0sq b2) Constants.mZsq
  let S0 := S0 - loopSum (fromOne n) fun a => 2 * w.dUU a * libm.log (w.mcsq a)
  let S0 := S0 + loopSum (fromOne (m + 1)) fun b => w.dVV b * libm.log (w.m0sq b)
  let S0 := S0 - libm.log self.mhref2
  let S0 := S0 + loopSum (fromOne (m + 1)) fun b =>
    w.ImVVsq 0 b * G2 libm (w.m0sq b) Constants.mZsq
  let S0 := S0 - G2 libm self.mhref2 Constants.mZsq
  S0 / 24 / Constants.pi

/-- The member `STU::CalcT()`. -/
def STU.CalcT {R : Type} [LinearOrderedField R] {m n : Nat} (libm : Libm R) (self : STU R)
    (w : STU.Work R (m + 1) n) : R :=
  let T0 : R := 0
  let T0 := T0 + loopSum (fromOne n) fun a => loopSum (fromOne (m + 1)) fun b =>
    w.UVsq a b * F libm (w.mcsq a) (w.m0sq b)
  let T0 := T0 - loopSum (fromOneButLast (m + 1)) fun b1 => loopSum (above b1) fun b2 =>
    w.ImVVsq b1 b2 * F libm (w.m0sq b1) (w.m0sq b2)
  let T0 := T0 - loopSum (fromOneButLast n) fun a1 => loopSum (above a1) fun a2 =>
    2 * w.UUsq a1 a2 * F libm (w.mcsq a1) (w.mcsq a2)
  let T0 := T0 + loopSum (fromOne (m + 1)) fun b =>
    3 * w.ImVVsq 0 b * (F libm Constants.mZsq (w.m0sq b) - F libm Constants.mWsq (w.m0sq b))
  let T0 := T0 - 3 * (F libm Constants.mZsq self.mhref2 - F libm Constants.mWsq self.mhref2)
  T0 / 16 / Constants.pi / Constants.s2tw libm / Constants.mWsq

/-- The member `STU::CalcU()`. -/
def STU.CalcU {R : Type} [LinearOrderedField R] {m n : Nat} (libm : Libm R) (self : STU R)
    (w : STU.Work R (m + 1) n) : R :=
  let U0 : R := 0
  let U0 := U0 + loopSum (fromOne n) fun a => loopSum (fromOne (m + 1)) fun b =>
    w.UVsq a b * G libm (w.mcsq a) (w.m0sq b) Constants.mWsq
  let U0 := U0 - loopSum (fromOne n) fun a =>
    (2 * Constants.s2tw libm - w.dUU a) ^ 2 * G libm (w.mcsq a) (w.mcsq a) Constants.mZsq
  let U0 := U0 - loopSum (fromOneButLast n) fun a1 => loopSum (above a1) fun a2 =>
    2 * w.UUsq a1 a2 * G libm (w.mcsq a1) (w.mcsq a2) Constants.mZsq
  let U0 := U0 - loopSum (fromOneButLast (m + 1)) fun b1 => loopSum (above b1) fun b2 =>
    w.ImVVsq b1 b2 * G libm (w.m0sq b1) (w.m0sq b2) Constants.mZsq
  let U0 := U0 + loopSum (fromOne (m + 1)) fun b =>
    w.ImVVsq 0 b * (G2 libm (w.m0sq b) Constants.mWsq - G2 libm (w.m0sq b) Constants.mZsq)
  let U0 := U0 - (G2 libm self.mhref2 Constants.mWsq - G2 libm self.mhref2 Constants.mZsq)
  U0 / 24 / Constants.pi

/-- Sequencing of two statements working on the same object: the second runs
on the object as the first left it, unless the first threw. -/
def andThen {ε σ α β : Type} (first : Except ε α × σ) (next : α → σ → Except ε β × σ) :
    Except ε β × σ :=
  match first with
  | (.ok a, s) => next a s
  | (.error e, s) => (.error e, s)

/-- The statements of `STU::Apply` from the first `Store` on, as they act on
`p.data`: the outcome and the store afterwards. -/
def STU.storeResults {R P : Type} [LinearOrderedField R] (model : Model R P) (self : STU R)
    (params : P) (S T U : R) (data : DataMap R) : Except (Exception R) Bool × DataMap R :=
  andThen (data.Store "S" S) fun _ data =>
  andThen (data.Store "T" T) fun _ data =>
  andThen (data.Store "U" U) fun _ data =>
  andThen (data.operator_subscript "S", data) fun s data =>
  andThen (data.operator_subscript "T", data) fun t data =>
  andThen (data.operator_subscript "U", data) fun u data =>
  andThen (data.Store "STU_chisq" (Chisq s t u)) fun _ data =>
  if model.EWPValid ⟨params, data⟩ then
    andThen (data.operator_subscript "STU_chisq", data) fun chisq data =>
      (.ok (decide (chisq < self.chisqCrit_)), data)
  else (.ok false, data)

/-- The member `STU::Apply(p)`: the outcome, the object and the point
afterwards. -/
def STU.Apply {R P : Type} [LinearOrderedField R] (libm : Libm R) (model : Model R P)
    (self : STU R) (p : ParameterPoint P R) :
    Except (Exception R) Bool × STU R × ParameterPoint P R :=
  let input := model.STUInput p
  if input.mHzero.length ≠ STU.m_ model - 1 then
    (.error (.runtime_error
      ("Number of masses does not match number of neutral Higgs bosons " ++
        toString input.mHzero.length ++ " vs " ++ toString (STU.m_ model))), self, p)
  else if input.mHcharged.length ≠ STU.n_ model - 1 then
    (.error (.runtime_error
      ("Number of masses does not match number of charged Higgs bosons " ++
        toString input.mHcharged.length ++ " vs " ++ toString (STU.n_ model))), self, p)
  else
    let w := STU.work input
    let result := STU.storeResults model self p.params (STU.CalcS libm self w)
      (STU.CalcT libm self w) (STU.CalcU libm self w) p.data
    (result.1, self, ⟨p.params, result.2⟩)

/-- The class `STU<Model>` as a `Constraint`, with `constraintId = "STU"`. -/
def STU.constraint {R P : Type} [LinearOrderedField R] (libm : Libm R) (model : Model R P)
    (severity : Severity) : Constraint (STU R) P R where
  severity_ := severity
  constraintId := "STU"
  Apply := STU.Apply libm model

/-- The store after the four `Store` calls of `STU::Apply`. -/
def STU.stored {R : Type} [LinearOrderedField R] (S T U : R) (data : DataMap R) : DataMap R :=
  ((((data.Store "S" S).2.Store "T" T).2.Store "U" U).2.Store "STU_chisq" (Chisq S T U)).2

/-- Rational stand-ins for `log`, `sqrt` and `atan`, to run the code on rational
inputs. -/
def exampleLibm : Libm ℚ := ⟨fun x => x - 1, fun x => x, fun x => x⟩

/-- A model with one physical neutral scalar and no charged one: `mV = (i, 1)`,
`mU = (1)`, the neutral mass 125. -/
def exampleModel : Model ℚ Unit where
  nHzero := 1
  nHplus := 0
  STUInput := fun _ =>
    ⟨1, fun _ b => if b.val = 0 then ⟨0, 1⟩ else ⟨1, 0⟩, fun _ _ => 1, [125], []⟩
  EWPValid := fun _ => true

/-- The point with an empty store. -/
def exampleEmpty : ParameterPoint Unit ℚ := ⟨(), DataMap.new⟩

/-! ## The claims on `STU::Apply` -/


theorem andThen_ok {ε σ α β : Type} (a : α) (s : σ) (next : α → σ → Except ε β × σ) :
    andThen (.ok a, s) next = next a s := rfl

theorem andThen_error {ε σ α β : Type} (e : ε) (s : σ) (next : α → σ → Except ε β × σ) :
    andThen (.error e, s) next = (.error e, s) := rfl

theorem DataMap.Store_eq_of_absent {V : Type} (d : DataMap V) (k : String) (v : V)
    (h : d.data_.find k = none) : d.Store k v = (.ok (), (d.Store k v).2) :=
  Prod.ext (DataMap.Store_of_absent d k v h).1 rfl

theorem DataMap.Store_find_ne {V : Type} (d : DataMap V) (k k' : String) (v : V)
    (hne : k ≠ k') : (d.Store k v).2.data_.find k' = d.data_.find k' := by
  cases hfind : d.data_.find k with
  | some x => rw [DataMap.Store_of_present d k v x hfind]
  | none =>
      unfold Map.find
      rw [(DataMap.Store_of_absent d k v hfind).2, findEntry_insertEntry_ne k v k' hne]

theorem DataMap.Store_find_self {V : Type} (d : DataMap V) (k : String) (v : V)
    (h : d.data_.find k = none) : (d.Store k v).2.data_.find k = some v := by
  unfold Map.find at h ⊢
  rw [(DataMap.Store_of_absent d k v h).2]
  exact findEntry_insertEntry_self k v _ h

theorem DataMap.subscript_of_find {V : Type} (d : DataMap V) (k : String) (v : V)
    (h : d.data_.find k = some v) : d.operator_subscript k = .ok v :=
  (DataMap.subscript_eq_ok_iff d k v).mpr h

theorem STU.storeResults_of_absent {R P : Type} [LinearOrderedField R] (model : Model R P)
    (self : STU R) (params : P) (S T U : R) (data : DataMap R)
    (hS : data.data_.find "S" = none) (hT : data.data_.find "T" = none)
    (hU : data.data_.find "U" = none) (hC : data.data_.find "STU_chisq" = none) :
    STU.storeResults model self params S T U data =
      (.ok (model.EWPValid ⟨params, STU.stored S T U data⟩ &&
          decide (Chisq S T U < self.chisqCrit_)), STU.stored S T U data) := by
  have hT1 : (data.Store "S" S).2.data_.find "T" = none := by
    rw [DataMap.Store_find_ne _ _ _ _ (by decide)]; exact hT
  have hU1 : (data.Store "S" S).2.data_.find "U" = none := by
    rw [DataMap.Store_find_ne _ _ _ _ (by decide)]; exact hU
  have hC1 : (data.Store "S" S).2.data_.find "STU_chisq" = none := by
    rw [DataMap.Store_find_ne _ _ _ _ (by decide)]; exact hC
  have hS1 := DataMap.Store_find_self data "S" S hS
  have hU2 : ((data.Store "S" S).2.Store "T" T).2.data_.find "U" = none := by
    rw [DataMap.Store_find_ne _ _ _ _ (by decide)]; exact hU1
  have hC2 : ((data.Store "S" S).2.Store "T" T).2.data_.find "STU_chisq" = none := by
    rw [DataMap.Store_find_ne _ _ _ _ (by decide)]; exact hC1
  have hS2 : ((data.Store "S" S).2.Store "T" T).2.data_.find "S" = some S := by
    rw [DataMap.Store_find_ne _ _ _ _ (by decide)]; exact hS1
  have hT2 := DataMap.Store_find_self (data.Store "S" S).2 "T" T hT1
  have hC3 : (((data.Store "S" S).2.Store "T" T).2.Store "U" U).2.data_.find "STU_chisq"
      = none := by
    rw [DataMap.Store_find_ne _ _ _ _ (by decide)]; exact hC2
  have hS3 : (((data.Store "S" S).2.Store "T" T).2.Store "U" U).2.data_.find "S" = some S := by
    rw [DataMap.Store_find_ne _ _ _ _ (by decide)]; exact hS2
  have hT3 : (((data.Store "S" S).2.Store "T" T).2.Store "U" U).2.data_.find "T" = some T := by
    rw [DataMap.Store_find_ne _ _ _ _ (by decide)]; exact hT2
  have hU3 := DataMap.Store_find_self ((data.Store "S" S).2.Store "T" T).2 "U" U hU2
  have hC4 := DataMap.Store_find_self _ "STU_chisq" (Chisq S T U) hC3
  unfold STU.storeResults
  rw [DataMap.Store_eq_of_absent data "S" S hS, andThen_ok,
    DataMap.Store_eq_of_absent _ "T" T hT1, andThen_ok,
    DataMap.Store_eq_of_absent _ "U" U hU2, andThen_ok,
    DataMap.subscript_of_find _ "S" S hS3, andThen_ok,
    DataMap.subscript_of_find _ "T" T hT3, andThen_ok,
    DataMap.subscript_of_find _ "U" U hU3, andThen_ok,
    DataMap.Store_eq_of_absent _ "STU_chisq" _ hC3, andThen_ok]
  unfold STU.stored
  cases hv : model.EWPValid ⟨params, _⟩
  · simp
  · simp only [if_true, Bool.true_and]
    rw [DataMap.subscript_of_find _ "STU_chisq" _ hC4, andThen_ok]

theorem STU.storeResults_of_present {R P : Type} [LinearOrderedField R] (model : Model R P)
    (self : STU R) (params : P) (S T U : R) (data : DataMap R)
    (h : ¬ (data.data_.find "S" = none ∧ data.data_.find "T" = none ∧
      data.data_.find "U" = none ∧ data.data_.find "STU_chisq" = none)) :
    ∃ key, (STU.storeResults model self params S T U data).1
      = .error (.DataMapError (.alreadyExists key)) := by
  unfold STU.storeResults
  cases hS : data.data_.find "S" with
  | some x => exact ⟨"S", by rw [DataMap.Store_of_present data "S" S x hS, andThen_error]⟩
  | none =>
  rw [DataMap.Store_eq_of_absent data "S" S hS, andThen_ok]
  have hS1 := DataMap.Store_find_self data "S" S hS
  cases hT : data.data_.find "T" with
  | some x =>
      have hT1 : (data.Store "S" S).2.data_.find "T" = some x := by
        rw [DataMap.Store_find_ne _ _ _ _ (by decide)]; exact hT
      exact ⟨"T", by rw [DataMap.Store_of_present _ "T" T x hT1, andThen_error]⟩
  | none =>
  have hT1 : (data.Store "S" S).2.data_.find "T" = none := by
    rw [DataMap.Store_find_ne _ _ _ _ (by decide)]; exact hT
  rw [DataMap.Store_eq_of_absent _ "T" T hT1, andThen_ok]
  have hS2 : ((data.Store "S" S).2.Store "T" T).2.data_.find "S" = some S := by
    rw [DataMap.Store_find_ne _ _ _ _ (by decide)]; exact hS1
  have hT2 := DataMap.Store_find_self (data.Store "S" S).2 "T" T hT1
  cases hU : data.data_.find "U" with
  | some x =>
      have hU2 : ((data.Store "S" S).2.Store "T" T).2.data_.find "U" = some x := by
        rw [DataMap.Store_find_ne _ _ _ _ (by decide),
          DataMap.Store_find_ne _ _ _ _ (by decide)]; exact hU
      exact ⟨"U", by rw [DataMap.Store_of_present _ "U" U x hU2, andThen_error]⟩
  | none =>
  have hU2 : ((data.Store "S" S).2.Store "T" T).2.data_.find "U" = none := by
    rw [DataMap.Store_find_ne _ _ _ _ (by decide),
      DataMap.Store_find_ne _ _ _ _ (by decide)]; exact hU
  rw [DataMap.Store_eq_of_absent _ "U" U hU2, andThen_ok]
  have hS3 : (((data.Store "S" S).2.Store "T" T).2.Store "U" U).2.data_.find "S" = some S := by
    rw [DataMap.Store_find_ne _ _ _ _ (by decide)]; exact hS2
  have hT3 : (((data.Store "S" S).2.Store "T" T).2.Store "U" U).2.data_.find "T" = some T := by
    rw [DataMap.Store_find_ne _ _ _ _ (by decide)]; exact hT2
  have hU3 := DataMap.Store_find_self ((data.Store "S" S).2.Store "T" T).2 "U" U hU2
  rw [DataMap.subscript_of_find _ "S" S hS3, andThen_ok,
    DataMap.subscript_of_find _ "T" T hT3, andThen_ok,
    DataMap.subscript_of_find _ "U" U hU3, andThen_ok]
  cases hC : data.data_.find "STU_chisq" with
  | none => exact absurd ⟨hS, hT, hU, hC⟩ h
  | some x =>
      have hC3 : (((data.Store "S" S).2.Store "T" T).2.Store "U" U).2.data_.find "STU_chisq"
          = some x := by
        rw [DataMap.Store_find_ne _ _ _ _ (by decide),
          DataMap.Store_find_ne _ _ _ _ (by decide),
          DataMap.Store_find_ne _ _ _ _ (by decide)]; exact hC
      exact ⟨"STU_chisq", by rw [DataMap.Store_of_present _ "STU_chisq" _ x hC3, andThen_error]⟩

theorem STU.Apply_of_match {R P : Type} [LinearOrderedField R] (libm : Libm R)
    (model : Model R P) (self : STU R) (p : ParameterPoint P R)
    (hz : (model.STUInput p).mHzero.length = model.nHzero)
    (hc : (model.STUInput p).mHcharged.length = model.nHplus) :
    STU.Apply libm model self p =
      ((STU.storeResults model self p.params
          (STU.CalcS libm self (STU.work (model.STUInput p)))
          (STU.CalcT libm self (STU.work (model.STUInput p)))
          (STU.CalcU libm self (STU.work (model.STUInput p))) p.data).1, self,
        ⟨p.params, (STU.storeResults model self p.params
          (STU.CalcS libm self (STU.work (model.STUInput p)))
          (STU.CalcT libm self (STU.work (model.STUInput p)))
          (STU.CalcU libm self (STU.work (model.STUInput p))) p.data).2⟩) := by
  unfold STU.Apply
  simp only [STU.m_, STU.n_, Nat.add_sub_cancel, hz, hc, ne_eq, not_true_eq_false, if_false]

theorem STU.Apply_of_absent {R P : Type} [LinearOrderedField R] (libm : Libm R)
    (model : Model R P) (self : STU R) (p : ParameterPoint P R)
    (hz : (model.STUInput p).mHzero.length = model.nHzero)
    (hc : (model.STUInput p).mHcharged.length = model.nHplus)
    (hS : p.data.data_.find "S" = none) (hT : p.data.data_.find "T" = none)
    (hU : p.data.data_.find "U" = none) (hC : p.data.data_.find "STU_chisq" = none) :
    STU.Apply libm model self p =
      (.ok (model.EWPValid ⟨p.params, STU.stored
            (STU.CalcS libm self (STU.work (model.STUInput p)))
            (STU.CalcT libm self (STU.work (model.STUInput p)))
            (STU.CalcU libm self (STU.work (model.STUInput p))) p.data⟩ &&
          decide (Chisq (STU.CalcS libm self (STU.work (model.STUInput p)))
            (STU.CalcT libm self (STU.work (model.STUInput p)))
            (STU.CalcU libm self (STU.work (model.STUInput p))) < self.chisqCrit_)), self,
        ⟨p.params, STU.stored
            (STU.CalcS libm self (STU.work (model.STUInput p)))
            (STU.CalcT libm self (STU.work (model.STUInput p)))
            (STU.CalcU libm self (STU.work (model.STUInput p))) p.data⟩) := by
  rw [STU.Apply_of_match libm model self p hz hc,
    STU.storeResults_of_absent model self p.params _ _ _ p.data hS hT hU hC]

theorem STU.stored_facts {R : Type} [LinearOrderedField R] (S T U : R) (data : DataMap R)
    (hS : data.data_.find "S" = none) (hT : data.data_.find "T" = none)
    (hU : data.data_.find "U" = none) (hC : data.data_.find "STU_chisq" = none) :
    (∀ k v, (k, v) ∈ (STU.stored S T U data).iterate ↔
        (k, v) ∈ data.iterate ∨ (k, v) = ("S", S) ∨ (k, v) = ("T", T) ∨ (k, v) = ("U", U) ∨
          (k, v) = ("STU_chisq", Chisq S T U)) ∧
      (STU.stored S T U data).operator_subscript "S" = .ok S ∧
      (STU.stored S T U data).operator_subscript "T" = .ok T ∧
      (STU.stored S T U data).operator_subscript "U" = .ok U ∧
      (STU.stored S T U data).operator_subscript "STU_chisq" = .ok (Chisq S T U) ∧
      ∀ k, k ≠ "S" → k ≠ "T" → k ≠ "U" → k ≠ "STU_chisq" →
        (STU.stored S T U data).operator_subscript k = data.operator_subscript k := by
  have hT1 : (data.Store "S" S).2.data_.find "T" = none := by
    rw [DataMap.Store_find_ne _ _ _ _ (by decide)]; exact hT
  have hU2 : ((data.Store "S" S).2.Store "T" T).2.data_.find "U" = none := by
    rw [DataMap.Store_find_ne _ _ _ _ (by decide),
      DataMap.Store_find_ne _ _ _ _ (by decide)]; exact hU
  have hC3 : (((data.Store "S" S).2.Store "T" T).2.Store "U" U).2.data_.find "STU_chisq"
      = none := by
    rw [DataMap.Store_find_ne _ _ _ _ (by decide), DataMap.Store_find_ne _ _ _ _ (by decide),
      DataMap.Store_find_ne _ _ _ _ (by decide)]; exact hC
  refine ⟨?_, ?_, ?_, ?_, ?_, ?_⟩
  · intro k v
    unfold STU.stored DataMap.iterate
    rw [(DataMap.Store_of_absent _ "STU_chisq" _ hC3).2, mem_insertEntry,
      (DataMap.Store_of_absent _ "U" U hU2).2, mem_insertEntry,
      (DataMap.Store_of_absent _ "T" T hT1).2, mem_insertEntry,
      (DataMap.Store_of_absent _ "S" S hS).2, mem_insertEntry]
    tauto
  · apply DataMap.subscript_of_find
    unfold STU.stored
    rw [DataMap.Store_find_ne _ _ _ _ (by decide), DataMap.Store_find_ne _ _ _ _ (by decide),
      DataMap.Store_find_ne _ _ _ _ (by decide)]
    exact DataMap.Store_find_self data "S" S hS
  · apply DataMap.subscript_of_find
    unfold STU.stored
    rw [DataMap.Store_find_ne _ _ _ _ (by decide), DataMap.Store_find_ne _ _ _ _ (by decide)]
    exact DataMap.Store_find_self _ "T" T hT1
  · apply DataMap.subscript_of_find
    unfold STU.stored
    rw [DataMap.Store_find_ne _ _ _ _ (by decide)]
    exact DataMap.Store_find_self _ "U" U hU2
  · apply DataMap.subscript_of_find
    unfold STU.stored
    exact DataMap.Store_find_self _ "STU_chisq" _ hC3
  · intro k h1 h2 h3 h4
    unfold STU.stored DataMap.operator_subscript
    rw [DataMap.Store_find_ne _ _ _ _ (Ne.symm h4), DataMap.Store_find_ne _ _ _ _ (Ne.symm h3),
      DataMap.Store_find_ne _ _ _ _ (Ne.symm h2), DataMap.Store_find_ne _ _ _ _ (Ne.symm h1)]


theorem STU.Apply_of_neutral_mismatch {R P : Type} [LinearOrderedField R] (libm : Libm R)
    (model : Model R P) (self : STU R) (p : ParameterPoint P R)
    (hz : (model.STUInput p).mHzero.length ≠ model.nHzero) :
    STU.Apply libm model self p =
      (.error (.runtime_error
        ("Number of masses does not match number of neutral Higgs bosons " ++
          toString (model.STUInput p).mHzero.length ++ " vs " ++
          toString (model.nHzero + 1))), self, p) := by
  unfold STU.Apply
  simp only [STU.m_, Nat.add_sub_cancel, ne_eq, hz, not_false_eq_true, if_true]

theorem STU.Apply_of_charged_mismatch {R P : Type} [LinearOrderedField R] (libm : Libm R)
    (model : Model R P) (self : STU R) (p : ParameterPoint P R)
    (hz : (model.STUInput p).mHzero.length = model.nHzero)
    (hc : (model.STUInput p).mHcharged.length ≠ model.nHplus) :
    STU.Apply libm model self p =
      (.error (.runtime_error
        ("Number of masses does not match number of charged Higgs bosons " ++
          toString (model.STUInput p).mHcharged.length ++ " vs " ++
          toString (model.nHplus + 1))), self, p) := by
  unfold STU.Apply
  simp only [STU.m_, STU.n_, Nat.add_sub_cancel, ne_eq, hz, hc, not_true_eq_false,
    not_false_eq_true, if_true, if_false]

/-- C13 (dimension check of `STU::Apply`): when the neutral mass list does not
have exactly `nHzero` entries, or it has and the charged mass list does not have
exactly `nHplus` entries, `Apply` throws the `std::runtime_error` "Number of
masses does not match ..." and leaves the object and the point, its store
included, as they were; when both lengths match `Apply` throws no
`std::runtime_error` at all. -/
theorem STU.Apply_dimension_check {R P : Type} [LinearOrderedField R] (libm : Libm R)
    (model : Model R P) (self : STU R) (p : ParameterPoint P R) :
    ((model.STUInput p).mHzero.length ≠ model.nHzero →
        STU.Apply libm model self p =
          (.error (.runtime_error
            ("Number of masses does not match number of neutral Higgs bosons " ++
              toString (model.STUInput p).mHzero.length ++ " vs " ++
              toString (model.nHzero + 1))), self, p)) ∧
      ((model.STUInput p).mHzero.length = model.nHzero →
        (model.STUInput p).mHcharged.length ≠ model.nHplus →
        STU.Apply libm model self p =
          (.error (.runtime_error
            ("Number of masses does not match number of charged Higgs bosons " ++
              toString (model.STUInput p).mHcharged.length ++ " vs " ++
              toString (model.nHplus + 1))), self, p)) ∧
      ((model.STUInput p).mHzero.length = model.nHzero →
        (model.STUInput p).mHcharged.length = model.nHplus →
        ∀ what, (STU.Apply libm model self p).1 ≠ .error (.runtime_error what)) := by
  refine ⟨STU.Apply_of_neutral_mismatch libm model self p,
    STU.Apply_of_charged_mismatch libm model self p, ?_⟩
  intro hz hc what
  by_cases h : p.data.data_.find "S" = none ∧ p.data.data_.find "T" = none ∧
      p.data.data_.find "U" = none ∧ p.data.data_.find "STU_chisq" = none
  · rw [STU.Apply_of_absent libm model self p hz hc h.1 h.2.1 h.2.2.1 h.2.2.2]
    intro he; cases he
  · obtain ⟨key, hkey⟩ := STU.storeResults_of_present model self p.params
      (STU.CalcS libm self (STU.work (model.STUInput p)))
      (STU.CalcT libm self (STU.work (model.STUInput p)))
      (STU.CalcU libm self (STU.work (model.STUInput p))) p.data h
    rw [STU.Apply_of_match libm model self p hz hc]
    simp only
    rw [hkey]
    intro he; cases he

/-- C14 (annotations stored by `STU::Apply`): when both mass lists have the
declared lengths and the store holds none of the keys "S", "T", "U" and
"STU_chisq", `Apply` returns normally, with either verdict, and the store
afterwards consists of the entries it had and of exactly four more: "S", "T"
and "U" with the values of `CalcS`, `CalcT` and `CalcU`, and "STU_chisq" with
`Chisq` of these three values; every other key is looked up as before, and
the rest of the point and the object are unchanged. -/
theorem STU.Apply_stores {R P : Type} [LinearOrderedField R] (libm : Libm R)
    (model : Model R P) (self : STU R) (p : ParameterPoint P R)
    (hz : (model.STUInput p).mHzero.length = model.nHzero)
    (hc : (model.STUInput p).mHcharged.length = model.nHplus)
    (hS : p.data.data_.find "S" = none) (hT : p.data.data_.find "T" = none)
    (hU : p.data.data_.find "U" = none) (hC : p.data.data_.find "STU_chisq" = none) :
    ∃ (verdict : Bool) (final : DataMap R) (s t u : R),
      STU.Apply libm model self p = (.ok verdict, self, ⟨p.params, final⟩) ∧
      s = STU.CalcS libm self (STU.work (model.STUInput p)) ∧
      t = STU.CalcT libm self (STU.work (model.STUInput p)) ∧
      u = STU.CalcU libm self (STU.work (model.STUInput p)) ∧
      (∀ k v, (k, v) ∈ final.iterate ↔
        (k, v) ∈ p.data.iterate ∨ (k, v) = ("S", s) ∨ (k, v) = ("T", t) ∨ (k, v) = ("U", u) ∨
          (k, v) = ("STU_chisq", Chisq s t u)) ∧
      final.operator_subscript "S" = .ok s ∧
      final.operator_subscript "T" = .ok t ∧
      final.operator_subscript "U" = .ok u ∧
      final.operator_subscript "STU_chisq" = .ok (Chisq s t u) ∧
      ∀ k, k ≠ "S" → k ≠ "T" → k ≠ "U" → k ≠ "STU_chisq" →
        final.operator_subscript k = p.data.operator_subscript k :=
  ⟨_, _, _, _, _, STU.Apply_of_absent libm model self p hz hc hS hT hU hC, rfl, rfl, rfl,
    STU.stored_facts _ _ _ p.data hS hT hU hC⟩

/-- C15 (verdict of `STU::Apply`): when `Apply` returns normally, it returns
`true` if and only if `Model::EWPValid` holds of the point and the value stored
under "STU_chisq" is strictly below `chisqCrit_`, the critical value given to
the constructor; the default of that argument is 7.81. -/
theorem STU.Apply_verdict {R P : Type} [LinearOrderedField R] (libm : Libm R)
    (model : Model R P) (self self' : STU R) (p p' : ParameterPoint P R) (b : Bool)
    (hA : STU.Apply libm model self p = (.ok b, self', p')) :
    (b = true ↔ model.EWPValid p' = true ∧
        ∃ chisq, p'.data.operator_subscript "STU_chisq" = .ok chisq ∧
          chisq < self.chisqCrit_) ∧
      (STU.newDefault : STU R).chisqCrit_ = 7.81 := by
  refine ⟨?_, rfl⟩
  by_cases hz : (model.STUInput p).mHzero.length = model.nHzero
  swap
  · rw [STU.Apply_of_neutral_mismatch libm model self p hz] at hA
    cases hA
  by_cases hc : (model.STUInput p).mHcharged.length = model.nHplus
  swap
  · rw [STU.Apply_of_charged_mismatch libm model self p hz hc] at hA
    cases hA
  by_cases h : p.data.data_.find "S" = none ∧ p.data.data_.find "T" = none ∧
      p.data.data_.find "U" = none ∧ p.data.data_.find "STU_chisq" = none
  swap
  · obtain ⟨key, hkey⟩ := STU.storeResults_of_present model self p.params
      (STU.CalcS libm self (STU.work (model.STUInput p)))
      (STU.CalcT libm self (STU.work (model.STUInput p)))
      (STU.CalcU libm self (STU.work (model.STUInput p))) p.data h
    rw [STU.Apply_of_match libm model self p hz hc] at hA
    have h1 := congrArg Prod.fst hA
    simp only at h1
    rw [hkey] at h1
    cases h1
  rw [STU.Apply_of_absent libm model self p hz hc h.1 h.2.1 h.2.2.1 h.2.2.2] at hA
  have hb : (model.EWPValid p' && decide (Chisq
      (STU.CalcS libm self (STU.work (model.STUInput p)))
      (STU.CalcT libm self (STU.work (model.STUInput p)))
      (STU.CalcU libm self (STU.work (model.STUInput p))) < self.chisqCrit_)) = b := by
    have h1 := congrArg Prod.fst hA
    have h2 := congrArg (fun r => r.2.2) hA
    simp only at h1 h2
    rw [← h2]
    injection h1
  have hp : p'.data.operator_subscript "STU_chisq" = .ok (Chisq
      (STU.CalcS libm self (STU.work (model.STUInput p)))
      (STU.CalcT libm self (STU.work (model.STUInput p)))
      (STU.CalcU libm self (STU.work (model.STUInput p)))) := by
    have h2 := congrArg (fun r => r.2.2) hA
    simp only at h2
    rw [← h2]
    exact (STU.stored_facts _ _ _ p.data h.1 h.2.1 h.2.2.1 h.2.2.2).2.2.2.2.1
  rw [← hb, Bool.and_eq_true, decide_eq_true_iff]
  constructor
  · rintro ⟨hv, hlt⟩
    exact ⟨hv, _, hp, hlt⟩
  · rintro ⟨hv, chisq, hchisq, hlt⟩
    rw [hp] at hchisq
    injection hchisq with hchisq
    rw [hchisq]
    exact ⟨hv, hlt⟩

/-- Witness of C14: the model with `mV = (i, 1)`, `mU = (1)` on a point with an
empty store. -/
theorem STU.Apply_stores_witness :
    (exampleModel.STUInput exampleEmpty).mHzero.length = exampleModel.nHzero ∧
      (exampleModel.STUInput exampleEmpty).mHcharged.length = exampleModel.nHplus ∧
      exampleEmpty.data.data_.find "S" = none ∧
      exampleEmpty.data.data_.find "T" = none ∧
      exampleEmpty.data.data_.find "U" = none ∧
      exampleEmpty.data.data_.find "STU_chisq" = none ∧
      ∃ (verdict : Bool) (final : DataMap ℚ) (s t u : ℚ),
        STU.Apply exampleLibm exampleModel STU.newDefault exampleEmpty
          = (.ok verdict, STU.newDefault, ⟨exampleEmpty.params, final⟩) ∧
        s = STU.CalcS exampleLibm STU.newDefault (STU.work (exampleModel.STUInput exampleEmpty)) ∧
        t = STU.CalcT exampleLibm STU.newDefault (STU.work (exampleModel.STUInput exampleEmpty)) ∧
        u = STU.CalcU exampleLibm STU.newDefault (STU.work (exampleModel.STUInput exampleEmpty)) ∧
        (∀ k v, (k, v) ∈ final.iterate ↔
          (k, v) ∈ exampleEmpty.data.iterate ∨ (k, v) = ("S", s) ∨ (k, v) = ("T", t) ∨
            (k, v) = ("U", u) ∨ (k, v) = ("STU_chisq", Chisq s t u)) ∧
        final.operator_subscript "S" = .ok s ∧
        final.operator_subscript "T" = .ok t ∧
        final.operator_subscript "U" = .ok u ∧
        final.operator_subscript "STU_chisq" = .ok (Chisq s t u) ∧
        ∀ k, k ≠ "S" → k ≠ "T" → k ≠ "U" → k ≠ "STU_chisq" →
          final.operator_subscript k = exampleEmpty.data.operator_subscript k :=
  ⟨rfl, rfl, rfl, rfl, rfl, rfl, STU.Apply_stores exampleLibm exampleModel STU.newDefault exampleEmpty
    rfl rfl rfl rfl rfl rfl⟩

/-- Witness of C15: the same call; `Apply` returns normally by
`STU.Apply_of_absent`. -/
theorem STU.Apply_verdict_witness :
    ∃ (b : Bool) (p' : ParameterPoint Unit ℚ),
      STU.Apply exampleLibm exampleModel STU.newDefault exampleEmpty
        = (.ok b, STU.newDefault, p') ∧
      ((b = true ↔ exampleModel.EWPValid p' = true ∧
          ∃ chisq, p'.data.operator_subscript "STU_chisq" = .ok chisq ∧
            chisq < (STU.newDefault : STU ℚ).chisqCrit_) ∧
        (STU.newDefault : STU ℚ).chisqCrit_ = 7.81) :=
  ⟨_, _, STU.Apply_of_absent exampleLibm exampleModel STU.newDefault exampleEmpty
      rfl rfl rfl rfl rfl rfl,
    STU.Apply_verdict exampleLibm exampleModel STU.newDefault STU.newDefault exampleEmpty _ _
      (STU.Apply_of_absent exampleLibm exampleModel STU.newDefault exampleEmpty
        rfl rfl rfl rfl rfl rfl)⟩

/-! ## Reading a severity: `Constraints/Constraint.cpp` -/

/-- The function `operator>>(std::istream &in, Severity &sev)`, given the
integer `i` that `in >> i` extracts: the outcome and the target `sev`
afterwards. -/
def Severity.read {V : Type} (i : Int) (sev : Severity) :
    Except (Exception V) Unit × Severity :=
  if i ≥ -1 ∧ i ≤ 1 then (.ok (), ⟨i⟩)
  else
    (.error (.invalid_argument
      "Severities must take values in 1 (apply), 0 (ignore), -1 (skip)."), sev)

/-- C22 (reading a severity): for the extracted integer `i`, the read returns
normally if and only if `i` is -1, 0 or 1, and then the target is `skip`,
`ignore` or `apply` respectively; for every other integer it throws the
`std::invalid_argument` "Severities must take values in ..." and the target is
left as it was. -/
theorem Severity.read_succeeds_iff {V : Type} (i : Int) (sev : Severity) :
    (((Severity.read i sev : Except (Exception V) Unit × Severity)).1 = .ok () ↔
        i = -1 ∨ i = 0 ∨ i = 1) ∧
      (Severity.read (-1) sev : Except (Exception V) Unit × Severity)
        = (.ok (), Severity.skip) ∧
      (Severity.read 0 sev : Except (Exception V) Unit × Severity)
        = (.ok (), Severity.ignore) ∧
      (Severity.read 1 sev : Except (Exception V) Unit × Severity)
        = (.ok (), Severity.apply) ∧
      (¬ (i = -1 ∨ i = 0 ∨ i = 1) →
        (Severity.read i sev : Except (Exception V) Unit × Severity) =
          (.error (.invalid_argument
            "Severities must take values in 1 (apply), 0 (ignore), -1 (skip)."), sev)) := by
  have hrange : (i ≥ -1 ∧ i ≤ 1) ↔ (i = -1 ∨ i = 0 ∨ i = 1) := by omega
  refine ⟨?_, rfl, rfl, rfl, ?_⟩
  · unfold Severity.read
    by_cases h : i ≥ -1 ∧ i ≤ 1
    · rw [if_pos h]
      exact ⟨fun _ => hrange.mp h, fun _ => rfl⟩
    · rw [if_neg h]
      exact ⟨fun h' => (by cases h'), fun h' => absurd (hrange.mpr h') h⟩
  · intro h
    unfold Severity.read
    rw [if_neg (fun h' => h (hrange.mp h'))]

/-! ## Iterating over a `DataMap` -/

/-- The calls `Store(k₁, v₁)`, ..., `Store(kₙ, vₙ)`. -/
def storeCalls {V : Type} (kvs : List (String × V)) : List (Call V) :=
  kvs.map (fun e => Call.Store e.1 e.2)

theorem insertEntry_perm {V : Type} (key : String) (value : V) :
    ∀ l : List (String × V), (insertEntry key value l).Perm ((key, value) :: l)
  | [] => List.Perm.refl _
  | e :: rest => by
      unfold insertEntry
      split
      · exact List.Perm.refl _
      · exact ((insertEntry_perm key value rest).cons e).trans (List.Perm.swap _ _ _)

theorem DataMap.calls_storeCalls {V : Type} :
    ∀ (kvs : List (String × V)) (d : DataMap V),
      (kvs.map Prod.fst).Nodup → (∀ e ∈ kvs, d.data_.find e.1 = none) →
      (d.calls (storeCalls kvs)).iterate.Perm (kvs.reverse ++ d.iterate) ∧
        ∀ pre e post, kvs = pre ++ e :: post →
          ((d.calls (storeCalls pre)).Store e.1 e.2).1 = .ok ()
  | [], d, _, _ => by
      refine ⟨by simp [storeCalls, DataMap.calls], ?_⟩
      intro pre e post h
      cases pre <;> cases h
  | e₀ :: rest, d, hnd, habs => by
      have hnd' : e₀.1 ∉ rest.map Prod.fst ∧ (rest.map Prod.fst).Nodup :=
        List.nodup_cons.mp hnd
      have h₀ : d.data_.find e₀.1 = none := habs e₀ (List.mem_cons_self _ _)
      have hstore := DataMap.Store_of_absent d e₀.1 e₀.2 h₀
      have habs' : ∀ e ∈ rest, (d.Store e₀.1 e₀.2).2.data_.find e.1 = none := by
        intro e he
        have hne : e₀.1 ≠ e.1 := fun heq =>
          hnd'.1 (by rw [heq]; exact List.mem_map_of_mem Prod.fst he)
        unfold Map.find
        rw [hstore.2, findEntry_insertEntry_ne e₀.1 e₀.2 e.1 hne]
        exact habs e (List.mem_cons_of_mem _ he)
      obtain ⟨ih₁, ih₂⟩ := DataMap.calls_storeCalls rest (d.Store e₀.1 e₀.2).2 hnd'.2 habs'
      have hcalls : ∀ l : List (String × V), d.calls (storeCalls (e₀ :: l))
          = (d.Store e₀.1 e₀.2).2.calls (storeCalls l) := fun l => rfl
      constructor
      · rw [hcalls]
        refine ih₁.trans ?_
        have : (d.Store e₀.1 e₀.2).2.iterate.Perm (e₀ :: d.iterate) := by
          unfold DataMap.iterate
          rw [hstore.2]
          exact insertEntry_perm e₀.1 e₀.2 _
        refine (List.Perm.append_left _ this).trans ?_
        simp only [List.reverse_cons, List.append_assoc, List.singleton_append]
        exact List.Perm.refl _
      · intro pre e post h
        cases pre with
        | nil =>
            simp only [List.nil_append, List.cons.injEq] at h
            rw [← h.1]
            exact hstore.1
        | cons x pre' =>
            simp only [List.cons_append, List.cons.injEq] at h
            rw [← h.1, hcalls]
            exact ih₂ pre' e post h.2

/-- C23 (iteration): for key-value pairs with `n` pairwise distinct keys, every
one of the `n` calls `Store` on a new `DataMap` returns normally, and the
range-for over the resulting store visits exactly these `n` pairs, each once
(the visited sequence is a rearrangement of the stored pairs), no key twice;
the lookup of every visited key gives the visited value. -/
theorem DataMap.iterate_visits_each_once {V : Type} (kvs : List (String × V))
    (h : (kvs.map Prod.fst).Nodup) :
    (∀ pre e post, kvs = pre ++ e :: post →
        (((DataMap.new : DataMap V).calls (storeCalls pre)).Store e.1 e.2).1 = .ok ()) ∧
      (DataMap.new.calls (storeCalls kvs)).iterate.Perm kvs ∧
      (DataMap.new.calls (storeCalls kvs)).iterate.length = kvs.length ∧
      ((DataMap.new.calls (storeCalls kvs)).iterate.map Prod.fst).Nodup ∧
      ∀ k v, (k, v) ∈ (DataMap.new.calls (storeCalls kvs)).iterate →
        (DataMap.new.calls (storeCalls kvs)).operator_subscript k = .ok v := by
  obtain ⟨hperm, hok⟩ := DataMap.calls_storeCalls kvs DataMap.new h (fun _ _ => rfl)
  have hperm' : (DataMap.new.calls (storeCalls kvs)).iterate.Perm kvs := by
    refine hperm.trans ?_
    have : (DataMap.new : DataMap V).iterate = [] := rfl
    rw [this, List.append_nil]
    exact List.reverse_perm kvs
  refine ⟨hok, hperm', hperm'.length_eq, ?_, ?_⟩
  · exact (List.Perm.nodup_iff (hperm'.map Prod.fst)).mpr h
  · intro k v hmem
    rw [DataMap.subscript_eq_ok_iff]
    exact (Map.mem_entries_iff _ k v).mp hmem

/-- Witness of C23: the two calls of `T_DataMap.cpp`, with 2 and -1 for the
values. -/
theorem DataMap.iterate_visits_each_once_witness :
    ([("test", (2 : Int)), ("test1", -1)].map Prod.fst).Nodup ∧
      (∀ pre e post, [("test", (2 : Int)), ("test1", -1)] = pre ++ e :: post →
        (((DataMap.new : DataMap Int).calls (storeCalls pre)).Store e.1 e.2).1 = .ok ()) ∧
      (DataMap.new.calls (storeCalls [("test", (2 : Int)), ("test1", -1)])).iterate.Perm
        [("test", (2 : Int)), ("test1", -1)] ∧
      (DataMap.new.calls (storeCalls [("test", (2 : Int)), ("test1", -1)])).iterate.length
        = [("test", (2 : Int)), ("test1", -1)].length ∧
      ((DataMap.new.calls (storeCalls [("test", (2 : Int)), ("test1", -1)])).iterate.map
        Prod.fst).Nodup ∧
      ∀ k v, (k, v) ∈ (DataMap.new.calls (storeCalls [("test", (2 : Int)), ("test1", -1)])).iterate →
        (DataMap.new.calls (storeCalls [("test", (2 : Int)), ("test1", -1)])).operator_subscript k
          = .ok v :=
  ⟨by decide, DataMap.iterate_visits_each_once _ (by decide)⟩

/-- C26 as stated fails: it is not so that every check under `Severity::ignore`
leaves its real result under the key id + "_valid".  The check "c", whose
`Apply` writes "x" and returns `false`, called on the point holding
"duplicate", returns `true` and leaves the result 0 under the key "valid_c";
the lookup of "c_valid" throws, the store holds "duplicate", "valid_c" and "x"
only. -/
theorem Constraint.ignore_key_is_valid_prefix :
    (¬ ∀ (c : Constraint Unit Unit Int) (point point' : ParameterPoint Unit Int) (b : Bool),
        c.severity_ = Severity.ignore →
        c.Apply () point = (.ok b, (), point') →
        (c.operator_call () point).2.2.data.operator_subscript (c.constraintId ++ "_valid")
          = .ok (if b then 1 else 0)) ∧
      ((exampleCheck Severity.ignore).operator_call () examplePoint).1 = .ok true ∧
      ((exampleCheck Severity.ignore).operator_call () examplePoint).2.2.data.operator_subscript
        ("valid_" ++ "c") = .ok 0 ∧
      ((exampleCheck Severity.ignore).operator_call () examplePoint).2.2.data.operator_subscript
        ("c" ++ "_valid") = .error (.DataMapError (.unknownKey "c_valid")) ∧
      ((exampleCheck Severity.ignore).operator_call () examplePoint).2.2.data.iterate
        = [("duplicate", 2), ("valid_c", 0), ("x", 5)] := by
  refine ⟨fun hall => ?_, by rfl, by rfl, by rfl, by rfl⟩
  have h := hall (exampleCheck Severity.ignore) examplePoint
    ⟨(), (exampleStore.Store "x" 5).2⟩ false rfl rfl
  have hthrow :
      ((exampleCheck Severity.ignore).operator_call () examplePoint).2.2.data.operator_subscript
        ((exampleCheck Severity.ignore).constraintId ++ "_valid")
        = .error (.DataMapError (.unknownKey "c_valid")) := by rfl
  rw [hthrow] at h
  cases h

/-- C26 amended (the key of `Severity::ignore`): when `Apply` returns normally
on the point and the store it leaves does not hold the key "valid_" + id,
`operator()` returns `true` and the real result is saved under the key
"valid_" + id, the prefix "valid_" followed by the constraint id, as 1 if
`Apply` returned `true` and 0 if it returned `false`; the key id + "_valid",
when it is another key, is as `Apply` left it. -/
theorem Constraint.ignore_saves_under_valid_prefix {S P V : Type} [Zero V] [One V]
    (c : Constraint S P V) (self self' : S) (point point' : ParameterPoint P V) (b : Bool)
    (h : c.severity_ = Severity.ignore)
    (hA : c.Apply self point = (.ok b, self', point'))
    (hk : point'.data.data_.find ("valid_" ++ c.constraintId) = none) :
    (c.operator_call self point).1 = .ok true ∧
      (c.operator_call self point).2.2.data.operator_subscript ("valid_" ++ c.constraintId)
        = .ok (if b then 1 else 0) ∧
      (c.constraintId ++ "_valid" ≠ "valid_" ++ c.constraintId →
        (c.operator_call self point).2.2.data.operator_subscript (c.constraintId ++ "_valid")
          = point'.data.operator_subscript (c.constraintId ++ "_valid")) := by
  obtain ⟨hok, -⟩ := DataMap.Store_of_absent point'.data ("valid_" ++ c.constraintId)
    (if b then 1 else 0) hk
  obtain ⟨hget, hframe⟩ := DataMap.Store_absent_lookup point'.data
    ("valid_" ++ c.constraintId) (if b then 1 else 0) hk
  rw [Constraint.operator_call_ignore c h self self' point point' b hA, hok]
  exact ⟨rfl, hget, fun hne => hframe _ hne⟩

/-- Witness of C26 amended: the passing check "c" under `Severity::ignore` on
the point holding "duplicate"; the result 1 is under "valid_c", and "c_valid" is
unknown as before. -/
theorem Constraint.ignore_saves_under_valid_prefix_witness :
    (examplePass Severity.ignore).severity_ = Severity.ignore ∧
      (examplePass Severity.ignore).Apply () examplePoint = (.ok true, (), examplePoint) ∧
      examplePoint.data.data_.find ("valid_" ++ "c") = none ∧
      "c" ++ "_valid" ≠ "valid_" ++ "c" ∧
      ((examplePass Severity.ignore).operator_call () examplePoint).1 = .ok true ∧
      ((examplePass Severity.ignore).operator_call () examplePoint).2.2.data.operator_subscript
        ("valid_" ++ "c") = .ok 1 ∧
      ((examplePass Severity.ignore).operator_call () examplePoint).2.2.data.operator_subscript
        ("c" ++ "_valid") = examplePoint.data.operator_subscript ("c" ++ "_valid") :=
  ⟨rfl, rfl, rfl, by decide,
    (Constraint.ignore_saves_under_valid_prefix (examplePass Severity.ignore) () ()
      examplePoint examplePoint true rfl rfl rfl).1,
    (Constraint.ignore_saves_under_valid_prefix (examplePass Severity.ignore) () ()
      examplePoint examplePoint true rfl rfl rfl).2.1,
    (Constraint.ignore_saves_under_valid_prefix (examplePass Severity.ignore) () ()
      examplePoint examplePoint true rfl rfl rfl).2.2 (by decide)⟩

/-! ## `Utilities::IndexSort` -/

/-- The algorithm `std::sort(first, last, comp)`, embedded as an insertion sort:
an element goes in front of the first one that `comp` does not put before
it.  The standard leaves the order of equivalent elements open. -/
def std_sort {α : Type} (comp : α → α → Bool) (range : List α) : List α :=
  range.insertionSort (fun a b => comp b a = false)

/-- The function `Utilities::IndexSort(vec)`: `std::iota` fills `indices` with
`0, ..., N - 1`, and `std::sort` orders them by
`sortfun(a, b) = vec[a] < vec[b]`. -/
def IndexSort {R : Type} [LinearOrderedField R] (vec : List R) : List Nat :=
  std_sort (fun a b => decide (vec.getD a 0 < vec.getD b 0)) (List.range vec.length)

/-- The function `Utilities::Sorted(in)`, "return a sorted copy of the input
container": `std::sort` with the default comparison `<`. -/
def Utilities.Sorted {R : Type} [LinearOrderedField R] (input : List R) : List R :=
  std_sort (fun a b => decide (a < b)) input

theorem std_sort_perm {α : Type} (comp : α → α → Bool) (l : List α) :
    (std_sort comp l).Perm l :=
  List.perm_insertionSort _ l

theorem std_sort_sorted {α : Type} (comp : α → α → Bool)
    (htotal : ∀ a b, comp b a = false ∨ comp a b = false)
    (htrans : ∀ a b c, comp b a = false → comp c b = false → comp c a = false)
    (l : List α) : (std_sort comp l).Sorted (fun a b => comp b a = false) := by
  haveI : IsTotal α (fun a b => comp b a = false) := ⟨htotal⟩
  haveI : IsTrans α (fun a b => comp b a = false) := ⟨htrans⟩
  exact List.sorted_insertionSort _ l

theorem map_getD_range {R : Type} [Zero R] (vec : List R) :
    (List.range vec.length).map (fun i => vec.getD i 0) = vec := by
  apply List.ext_getElem
  · simp
  · intro i h₁ h₂
    simp [List.getD_eq_getElem?_getD, List.getElem?_eq_getElem h₂]

theorem IndexSort_values_sorted {R : Type} [LinearOrderedField R] (vec : List R) :
    ((IndexSort vec).map (fun i => vec.getD i 0)).Sorted (· ≤ ·) := by
  have h := std_sort_sorted (fun a b : Nat => decide (vec.getD a 0 < vec.getD b 0))
    (fun a b => by
      simp only [decide_eq_false_iff_not, not_lt]
      exact le_total _ _)
    (fun a b c h₁ h₂ => by
      simp only [decide_eq_false_iff_not, not_lt] at h₁ h₂ ⊢
      exact le_trans h₁ h₂)
    (List.range vec.length)
  unfold List.Sorted at h ⊢
  rw [List.pairwise_map]
  refine h.imp ?_
  intro a b hab
  simpa using hab

theorem Utilities.Sorted_sorted {R : Type} [LinearOrderedField R] (vec : List R) :
    (Utilities.Sorted vec).Sorted (· ≤ ·) := by
  have h := std_sort_sorted (fun a b : R => decide (a < b))
    (fun a b => by
      simp only [decide_eq_false_iff_not, not_lt]
      exact le_total _ _)
    (fun a b c h₁ h₂ => by
      simp only [decide_eq_false_iff_not, not_lt] at h₁ h₂ ⊢
      exact le_trans h₁ h₂)
    vec
  unfold List.Sorted at h ⊢
  refine h.imp ?_
  intro a b hab
  simpa using hab

/-- C24 (`IndexSort`): for every array `vec` of `N` numbers, `IndexSort(vec)` is
a rearrangement of `0, ..., N - 1`, the values `vec[indices[0]]`, ...,
`vec[indices[N - 1]]` are in non-decreasing order, and they are, element by
element, the sorted copy of `vec`.  The last holds for every rearrangement of
the indices that puts the values in non-decreasing order, so it does not depend
on how `std::sort` places equal values. -/
theorem IndexSort_sorts {R : Type} [LinearOrderedField R] (vec : List R) :
    (IndexSort vec).Perm (List.range vec.length) ∧
      ((IndexSort vec).map (fun i => vec.getD i 0)).Sorted (· ≤ ·) ∧
      (IndexSort vec).map (fun i => vec.getD i 0) = Utilities.Sorted vec ∧
      ∀ indices : List Nat, indices.Perm (List.range vec.length) →
        (indices.map (fun i => vec.getD i 0)).Sorted (· ≤ ·) →
        indices.map (fun i => vec.getD i 0) = Utilities.Sorted vec := by
  have hperm : (IndexSort vec).Perm (List.range vec.length) := std_sort_perm _ _
  have huniq : ∀ indices : List Nat, indices.Perm (List.range vec.length) →
      (indices.map (fun i => vec.getD i 0)).Sorted (· ≤ ·) →
      indices.map (fun i => vec.getD i 0) = Utilities.Sorted vec := by
    intro indices hp hs
    have h₁ : (indices.map (fun i => vec.getD i 0)).Perm vec := by
      have := hp.map (fun i => vec.getD i 0)
      rwa [map_getD_range] at this
    have h₂ : (Utilities.Sorted vec).Perm vec := std_sort_perm _ _
    exact List.eq_of_perm_of_sorted (h₁.trans h₂.symm) hs (Utilities.Sorted_sorted vec)
  exact ⟨hperm, IndexSort_values_sorted vec,
    huniq _ hperm (IndexSort_values_sorted vec), huniq⟩

/-! ## The closed form of `F` -/

/-- The formula `F = (I+J)/2 - I*J*Log(I/J)/(I-J)` of the comment above `F`
(eq. 29 of the reference). -/
def F.reference {R : Type} [LinearOrderedField R] (libm : Libm R) (I J : R) : R :=
  (I + J) / 2 - I * J * libm.log (I / J) / (I - J)

/-- C21 (closed-form branch of `F`): for `I, J > 0` with
`abs((I-J)/(I+J)) >= 1e-3`, the value `F(I, J)` is the reference formula
`(I+J)/2 - I*J*log(I/J)/(I-J)`: the rearranged expression of the code has the
same argument `I/J` under the logarithm and the same factor in front of it. -/
theorem F_closed_is_reference {R : Type} [LinearOrderedField R] (libm : Libm R) (I J : R)
    (hI : 0 < I) (hJ : 0 < J) (hδ : 1e-3 ≤ |(I - J) / (I + J)|) :
    F libm I J = F.reference libm I J := by
  have hsum : I + J ≠ 0 := (add_pos hI hJ).ne'
  have hδ0 : (I - J) / (I + J) ≠ 0 := by
    intro h
    rw [h, abs_zero] at hδ
    norm_num at hδ
  have hsub : I - J ≠ 0 := fun h => hδ0 (by rw [h, zero_div])
  have harg : (1 + (I - J) / (I + J)) / (1 - (I - J) / (I + J)) = I / J := by
    have h1 : 1 - (I - J) / (I + J) = 2 * J / (I + J) := by field_simp; ring
    have h2 : 1 + (I - J) / (I + J) = 2 * I / (I + J) := by field_simp; ring
    rw [h1, h2]
    field_simp
    ring
  unfold F
  dsimp only
  rw [if_neg (not_lt.mpr hδ)]
  unfold F.closed F.reference
  rw [harg]
  field_simp
  ring

/-- Witness of C21: `F(1342, 152)` of the tests, over the rationals. -/
theorem F_closed_is_reference_witness :
    (0 : ℚ) < 1342 ∧ (0 : ℚ) < 152 ∧ (1e-3 : ℚ) ≤ |((1342 : ℚ) - 152) / (1342 + 152)| ∧
      F exampleLibm 1342 152 = F.reference exampleLibm 1342 152 :=
  ⟨by norm_num, by norm_num, by norm_num [abs_of_pos],
    F_closed_is_reference exampleLibm 1342 152 (by norm_num) (by norm_num)
      (by norm_num [abs_of_pos])⟩

/-! ## Positivity of `Chisq`; the Standard Model input; the poles of `G` -/

/-- The input of the Standard Model: no charged scalar, one physical neutral
scalar of mass `mh`, `mV = (i, 1)` and `mU = (1)`. -/
def standardModel {R P : Type} [LinearOrderedField R] (mh : R)
    (EWPValid : ParameterPoint P R → Bool) : Model R P where
  nHzero := 1
  nHplus := 0
  STUInput := fun _ =>
    ⟨1, fun _ b => if b.val = 0 then ⟨0, 1⟩ else ⟨1, 0⟩, fun _ _ => 1, [mh], []⟩
  EWPValid := EWPValid

/-- Every divisor met by `FuncF(t, r)` is non-zero and every argument of `log`
is positive, on the branch the evaluation takes: `-2 * r / t`,
`log(abs((t - sqr) / (t + sqr)))`, `atan(sqr / t)`. -/
def FuncF.defined {R : Type} [LinearOrderedField R] (libm : Libm R) (t r : R) : Prop :=
  if |r| < 1e-3 then t ≠ 0
  else if r > 0 then
    t + libm.sqrt r ≠ 0 ∧ 0 < |(t - libm.sqrt r) / (t + libm.sqrt r)|
  else t ≠ 0

/-- Every divisor met by `G(I, J, Q)` is non-zero and every argument of `log` is
positive, on the branch the evaluation takes, the call of `FuncF` included. -/
def G.defined {R : Type} [LinearOrderedField R] (libm : Libm R) (I J Q : R) : Prop :=
  Q ≠ 0 ∧
    (if |I - J| < 1e-3 then True else I - J ≠ 0 ∧ J ≠ 0 ∧ 0 < I / J) ∧
    FuncF.defined libm (I + J - Q) (Q ^ 2 - 2 * Q * (I + J) + (I - J) ^ 2)

theorem Chisq_sum_of_squares {R : Type} [LinearOrderedField R] (S T U : R) :
    Chisq S T U =
      55250000 / 62821 * ((STUFit.S - S) - 1642 / 1547 * (STUFit.T - T)
          - 1204 / 2431 * (STUFit.U - U)) ^ 2
        + 25000000 / 119119 * ((STUFit.T - T) + 609 / 550 * (STUFit.U - U)) ^ 2
        + 10000 / 121 * (STUFit.U - U) ^ 2 := by
  simp only [Chisq, Matrix3d.quadraticForm, Matrix3d.inverse, Matrix3d.determinant,
    STUFit.cov, STUFit.sdS, STUFit.sdT, STUFit.sdU, STUFit.ccST, STUFit.ccSU, STUFit.ccTU]
  generalize (STUFit.S - S : R) = x
  generalize (STUFit.T - T : R) = y
  generalize (STUFit.U - U : R) = z
  ring

theorem STUFit.cov_sum_of_squares {R : Type} [LinearOrderedField R] (v : Vector3d R) :
    STUFit.cov.quadraticForm v =
      121 / 10000 * (v.x + 322 / 275 * v.y - 17 / 25 * v.z) ^ 2
        + 1176 / 390625 * (v.y - 6721 / 5376 * v.z) ^ 2
        + 691031 / 384000000 * v.z ^ 2 := by
  simp only [Matrix3d.quadraticForm, STUFit.cov, STUFit.sdS, STUFit.sdT, STUFit.sdU,
    STUFit.ccST, STUFit.ccSU, STUFit.ccTU]
  ring

theorem three_squares_eq_zero {R : Type} [LinearOrderedField R] (a b c p q r : R)
    (ha : 0 < a) (hb : 0 < b) (hc : 0 < c) (h : a * p ^ 2 + b * q ^ 2 + c * r ^ 2 = 0) :
    p = 0 ∧ q = 0 ∧ r = 0 := by
  have hp := mul_nonneg ha.le (sq_nonneg p)
  have hq := mul_nonneg hb.le (sq_nonneg q)
  have hr := mul_nonneg hc.le (sq_nonneg r)
  have h1 : a * p ^ 2 = 0 := by linarith
  have h2 : b * q ^ 2 = 0 := by linarith
  have h3 : c * r ^ 2 = 0 := by linarith
  refine ⟨?_, ?_, ?_⟩
  · exact pow_eq_zero_iff (two_ne_zero) |>.mp ((mul_eq_zero.mp h1).resolve_left ha.ne')
  · exact pow_eq_zero_iff (two_ne_zero) |>.mp ((mul_eq_zero.mp h2).resolve_left hb.ne')
  · exact pow_eq_zero_iff (two_ne_zero) |>.mp ((mul_eq_zero.mp h3).resolve_left hc.ne')

/-- C29 (the chi-square is a positive-definite form): with the constants of
`STUFit` the covariance matrix has a non-zero determinant and is positive
definite, and for all `S`, `T`, `U` the value `Chisq(S, T, U)` is non-negative
and is 0 only at the fit centre `(0.04, 0.09, -0.02)`. -/
theorem Chisq_positive_definite {R : Type} [LinearOrderedField R] (S T U : R) :
    (STUFit.cov.determinant : R) ≠ 0 ∧
      (∀ v : Vector3d R, 0 ≤ STUFit.cov.quadraticForm v ∧
        (STUFit.cov.quadraticForm v = 0 → v.x = 0 ∧ v.y = 0 ∧ v.z = 0)) ∧
      0 ≤ Chisq S T U ∧
      (Chisq S T U = 0 ↔ S = 0.04 ∧ T = 0.09 ∧ U = -0.02) := by
  refine ⟨?_, ?_, ?_, ?_⟩
  · rw [STUFit.cov_determinant]; norm_num
  · intro v
    rw [STUFit.cov_sum_of_squares]
    refine ⟨by positivity, fun h => ?_⟩
    obtain ⟨h1, h2, h3⟩ := three_squares_eq_zero _ _ _ _ _ _
      (by norm_num) (by norm_num) (by norm_num) h
    rw [h3] at h2 h1
    have hy : v.y = 0 := by linarith
    rw [hy] at h1
    exact ⟨by linarith, hy, h3⟩
  · rw [Chisq_sum_of_squares]; positivity
  · rw [Chisq_sum_of_squares]
    constructor
    · intro h
      obtain ⟨h1, h2, h3⟩ := three_squares_eq_zero _ _ _ _ _ _
        (by norm_num) (by norm_num) (by norm_num) h
      have hU : U = -0.02 := by
        have : (STUFit.U : R) = -0.02 := rfl
        rw [this] at h3; linarith
      rw [h3] at h2 h1
      have hT : T = 0.09 := by
        have : (STUFit.T : R) = 0.09 := rfl
        rw [this] at h2; linarith
      have hT' : (STUFit.T : R) - T = 0 := by linarith
      rw [hT'] at h1
      have hS : S = 0.04 := by
        have : (STUFit.S : R) = 0.04 := rfl
        rw [this] at h1; linarith
      exact ⟨hS, hT, hU⟩
    · rintro ⟨rfl, rfl, rfl⟩
      simp [STUFit.S, STUFit.T, STUFit.U]

/-- C27 fails on the code: at `I = J = 1`, `Q = 2` the call is `FuncF(0, -4)`,
which takes the branch `2 * sqr * atan(sqr / t)` and divides `sqr` by `t = 0`;
at `I = J = 0.01`, `Q = 0.02` the call is `FuncF(0, -0.0004)`, which takes the
branch `-2 * r / t` and divides by `t = 0`.  Both hold whatever `sqrt`, `log`
and `atan` are. -/
theorem G_divides_by_zero {R : Type} [LinearOrderedField R] (libm : Libm R) :
    ¬ G.defined libm 1 1 2 ∧ ¬ G.defined libm 0.01 0.01 0.02 ∧
      ((1 : R) + 1 - 2 = 0 ∧ (2 : R) ^ 2 - 2 * 2 * (1 + 1) + (1 - 1) ^ 2 = -4) ∧
      ((0.01 : R) + 0.01 - 0.02 = 0 ∧
        (0.02 : R) ^ 2 - 2 * 0.02 * (0.01 + 0.01) + (0.01 - 0.01) ^ 2 = -0.0004) := by
  have ht₁ : (1 : R) + 1 - 2 = 0 := by norm_num
  have hr₁ : (2 : R) ^ 2 - 2 * 2 * (1 + 1) + (1 - 1) ^ 2 = -4 := by norm_num
  have ht₂ : (0.01 : R) + 0.01 - 0.02 = 0 := by norm_num
  have hr₂ : (0.02 : R) ^ 2 - 2 * 0.02 * (0.01 + 0.01) + (0.01 - 0.01) ^ 2 = -0.0004 := by
    norm_num
  refine ⟨?_, ?_, ⟨ht₁, hr₁⟩, ⟨ht₂, hr₂⟩⟩
  · rintro ⟨_, _, h⟩
    rw [ht₁, hr₁] at h
    unfold FuncF.defined at h
    rw [if_neg (by norm_num [abs_of_neg]), if_neg (by norm_num)] at h
    exact h rfl
  · rintro ⟨_, _, h⟩
    rw [ht₂, hr₂] at h
    unfold FuncF.defined at h
    rw [if_pos (by norm_num [abs_of_neg])] at h
    exact h rfl

theorem fromOne_one : fromOne (0 + 1) = [] := by decide

theorem fromOne_two : fromOne (1 + 1) = [1] := by decide

theorem fromOneButLast_one : fromOneButLast (0 + 1) = [] := by decide

theorem fromOneButLast_two : fromOneButLast (1 + 1) = [] := by decide

theorem standardModel_sums_vanish {R P : Type} [LinearOrderedField R] (libm : Libm R)
    (chisqCrit mhref : R) (EWPValid : ParameterPoint P R → Bool) (p : ParameterPoint P R) :
    STU.CalcS libm (STU.new chisqCrit mhref)
        (STU.work ((standardModel mhref EWPValid).STUInput p)) = 0 ∧
      STU.CalcT libm (STU.new chisqCrit mhref)
        (STU.work ((standardModel mhref EWPValid).STUInput p)) = 0 ∧
      STU.CalcU libm (STU.new chisqCrit mhref)
        (STU.work ((standardModel mhref EWPValid).STUInput p)) = 0 := by
  have hm : (STU.work ((standardModel mhref EWPValid).STUInput p)).m0sq 1 = mhref * mhref := by
    simp [STU.work, standardModel, pow_two]
  have hI : (STU.work ((standardModel mhref EWPValid).STUInput p)).ImVVsq 0 1 = 1 := by
    simp [STU.work, standardModel, loopSum, List.finRange]
  have hd : (STU.work ((standardModel mhref EWPValid).STUInput p)).dVV 1 = 1 := by
    simp [STU.work, standardModel, loopSum, List.finRange]
  refine ⟨?_, ?_, ?_⟩
  · simp only [STU.CalcS, standardModel, fromOne_one, fromOne_two, fromOneButLast_one,
      fromOneButLast_two, loopSum, List.map_nil, List.map_cons, List.sum_nil, List.sum_cons]
    simp only [standardModel] at hm hI hd
    rw [hm, hI, hd]
    simp [STU.new]
  · simp only [STU.CalcT, standardModel, fromOne_one, fromOne_two, fromOneButLast_one,
      fromOneButLast_two, loopSum, List.map_nil, List.map_cons, List.sum_nil, List.sum_cons]
    simp only [standardModel] at hm hI hd
    rw [hm, hI]
    simp [STU.new]
  · simp only [STU.CalcU, standardModel, fromOne_one, fromOne_two, fromOneButLast_one,
      fromOneButLast_two, loopSum, List.map_nil, List.map_cons, List.sum_nil, List.sum_cons]
    simp only [standardModel] at hm hI hd
    rw [hm, hI]
    simp [STU.new]

theorem STU.Apply_ok_stored {R P : Type} [LinearOrderedField R] (libm : Libm R)
    (model : Model R P) (self self' : STU R) (p p' : ParameterPoint P R) (b : Bool)
    (hA : STU.Apply libm model self p = (.ok b, self', p')) :
    p'.data.operator_subscript "S"
        = .ok (STU.CalcS libm self (STU.work (model.STUInput p))) ∧
      p'.data.operator_subscript "T"
        = .ok (STU.CalcT libm self (STU.work (model.STUInput p))) ∧
      p'.data.operator_subscript "U"
        = .ok (STU.CalcU libm self (STU.work (model.STUInput p))) := by
  by_cases hz : (model.STUInput p).mHzero.length = model.nHzero
  swap
  · rw [STU.Apply_of_neutral_mismatch libm model self p hz] at hA
    cases hA
  by_cases hc : (model.STUInput p).mHcharged.length = model.nHplus
  swap
  · rw [STU.Apply_of_charged_mismatch libm model self p hz hc] at hA
    cases hA
  by_cases h : p.data.data_.find "S" = none ∧ p.data.data_.find "T" = none ∧
      p.data.data_.find "U" = none ∧ p.data.data_.find "STU_chisq" = none
  swap
  · obtain ⟨key, hkey⟩ := STU.storeResults_of_present model self p.params
      (STU.CalcS libm self (STU.work (model.STUInput p)))
      (STU.CalcT libm self (STU.work (model.STUInput p)))
      (STU.CalcU libm self (STU.work (model.STUInput p))) p.data h
    rw [STU.Apply_of_match libm model self p hz hc] at hA
    have h1 := congrArg Prod.fst hA
    simp only at h1
    rw [hkey] at h1
    cases h1
  rw [STU.Apply_of_absent libm model self p hz hc h.1 h.2.1 h.2.2.1 h.2.2.2] at hA
  have h2 := congrArg (fun r => r.2.2) hA
  simp only at h2
  rw [← h2]
  have hf := STU.stored_facts (STU.CalcS libm self (STU.work (model.STUInput p)))
    (STU.CalcT libm self (STU.work (model.STUInput p)))
    (STU.CalcU libm self (STU.work (model.STUInput p))) p.data h.1 h.2.1 h.2.2.1 h.2.2.2
  exact ⟨hf.2.1, hf.2.2.1, hf.2.2.2.1⟩

/-- C30 (the Standard Model gives zero): for the model with no charged scalar
and one physical neutral scalar, with `mV = (i, 1)`, `mU = (1)` and the neutral
mass equal to the reference mass `mhref > 0` given to the constructor, `CalcS`,
`CalcT` and `CalcU` are exactly 0, whatever `log`, `sqrt` and `atan` are; so
whenever `Apply` returns normally the values stored under "S", "T" and "U" are
0, and `Apply` does return normally when the store holds none of its four
keys. -/
theorem standardModel_gives_zero {R P : Type} [LinearOrderedField R] (libm : Libm R)
    (chisqCrit mhref : R) (EWPValid : ParameterPoint P R → Bool) (p : ParameterPoint P R)
    (hm : 0 < mhref) :
    STU.CalcS libm (STU.new chisqCrit mhref)
        (STU.work ((standardModel mhref EWPValid).STUInput p)) = 0 ∧
      STU.CalcT libm (STU.new chisqCrit mhref)
        (STU.work ((standardModel mhref EWPValid).STUInput p)) = 0 ∧
      STU.CalcU libm (STU.new chisqCrit mhref)
        (STU.work ((standardModel mhref EWPValid).STUInput p)) = 0 ∧
      (∀ b self' p',
        STU.Apply libm (standardModel mhref EWPValid) (STU.new chisqCrit mhref) p
          = (.ok b, self', p') →
        p'.data.operator_subscript "S" = .ok 0 ∧ p'.data.operator_subscript "T" = .ok 0 ∧
          p'.data.operator_subscript "U" = .ok 0) ∧
      (p.data.data_.find "S" = none → p.data.data_.find "T" = none →
        p.data.data_.find "U" = none → p.data.data_.find "STU_chisq" = none →
        ∃ b p', STU.Apply libm (standardModel mhref EWPValid) (STU.new chisqCrit mhref) p
          = (.ok b, STU.new chisqCrit mhref, p')) := by
  have _hm := hm
  obtain ⟨hS, hT, hU⟩ := standardModel_sums_vanish libm chisqCrit mhref EWPValid p
  refine ⟨hS, hT, hU, ?_, ?_⟩
  · intro b self' p' hA
    have h := STU.Apply_ok_stored libm _ _ self' p p' b hA
    rw [hS, hT, hU] at h
    exact h
  · intro h1 h2 h3 h4
    exact ⟨_, _, STU.Apply_of_absent libm (standardModel mhref EWPValid)
      (STU.new chisqCrit mhref) p rfl rfl h1 h2 h3 h4⟩

/-- Witness of C30: the reference mass 125 and the critical value 7.81, on a
point with an empty store, over the rationals. -/
theorem standardModel_gives_zero_witness :
    (0 : ℚ) < 125 ∧
      (STU.CalcS exampleLibm (STU.new 7.81 125)
          (STU.work ((standardModel 125 (fun _ => true)).STUInput exampleEmpty)) = 0 ∧
        STU.CalcT exampleLibm (STU.new 7.81 125)
          (STU.work ((standardModel 125 (fun _ => true)).STUInput exampleEmpty)) = 0 ∧
        STU.CalcU exampleLibm (STU.new 7.81 125)
          (STU.work ((standardModel 125 (fun _ => true)).STUInput exampleEmpty)) = 0 ∧
        (∀ b self' p',
          STU.Apply exampleLibm (standardModel 125 (fun _ => true)) (STU.new 7.81 125)
            exampleEmpty = (.ok b, self', p') →
          p'.data.operator_subscript "S" = .ok 0 ∧ p'.data.operator_subscript "T" = .ok 0 ∧
            p'.data.operator_subscript "U" = .ok 0) ∧
        (exampleEmpty.data.data_.find "S" = none → exampleEmpty.data.data_.find "T" = none →
          exampleEmpty.data.data_.find "U" = none →
          exampleEmpty.data.data_.find "STU_chisq" = none →
          ∃ b p', STU.Apply exampleLibm (standardModel 125 (fun _ => true)) (STU.new 7.81 125)
            exampleEmpty = (.ok b, STU.new 7.81 125, p'))) :=
  ⟨by norm_num, standardModel_gives_zero exampleLibm 7.81 125 (fun _ => true) exampleEmpty
    (by norm_num)⟩

/-! ## Mixing matrices: `Utilities.hpp`, `Utilities.cpp` -/

/-- The trigonometric functions of `<cmath>` the mixing-matrix utilities call,
directly or through `Eigen::AngleAxisd`. -/
structure Trig (R : Type) where
  /-- The function `cos`. -/
  cos : R → R
  /-- The function `sin`. -/
  sin : R → R
  /-- The function `atan`. -/
  atan : R → R
  /-- The function `asin`. -/
  asin : R → R

/-- The trigonometric functions on the real numbers. -/
noncomputable def Trig.real : Trig ℝ := ⟨Real.cos, Real.sin, Real.arctan, Real.arcsin⟩

/-- The product `a * b` of two `Eigen::Matrix3d`. -/
def Matrix3d.mul {R : Type} [LinearOrderedField R] (a b : Matrix3d R) : Matrix3d R where
  m00 := a.m00 * b.m00 + a.m01 * b.m10 + a.m02 * b.m20
  m01 := a.m00 * b.m01 + a.m01 * b.m11 + a.m02 * b.m21
  m02 := a.m00 * b.m02 + a.m01 * b.m12 + a.m02 * b.m22
  m10 := a.m10 * b.m00 + a.m11 * b.m10 + a.m12 * b.m20
  m11 := a.m10 * b.m01 + a.m11 * b.m11 + a.m12 * b.m21
  m12 := a.m10 * b.m02 + a.m11 * b.m12 + a.m12 * b.m22
  m20 := a.m20 * b.m00 + a.m21 * b.m10 + a.m22 * b.m20
  m21 := a.m20 * b.m01 + a.m21 * b.m11 + a.m22 * b.m21
  m22 := a.m20 * b.m02 + a.m21 * b.m12 + a.m22 * b.m22

/-- The rotation `Eigen::AngleAxisd(angle, Eigen::Vector3d::UnitX())`, as the
matrix it stands for. -/
def AngleAxisd.UnitX {R : Type} [LinearOrderedField R] (trig : Trig R) (angle : R) :
    Matrix3d R :=
  ⟨1, 0, 0, 0, trig.cos angle, -trig.sin angle, 0, trig.sin angle, trig.cos angle⟩

/-- The rotation `Eigen::AngleAxisd(angle, Eigen::Vector3d::UnitY())`. -/
def AngleAxisd.UnitY {R : Type} [LinearOrderedField R] (trig : Trig R) (angle : R) :
    Matrix3d R :=
  ⟨trig.cos angle, 0, trig.sin angle, 0, 1, 0, -trig.sin angle, 0, trig.cos angle⟩

/-- The rotation `Eigen::AngleAxisd(angle, Eigen::Vector3d::UnitZ())`. -/
def AngleAxisd.UnitZ {R : Type} [LinearOrderedField R] (trig : Trig R) (angle : R) :
    Matrix3d R :=
  ⟨trig.cos angle, -trig.sin angle, 0, trig.sin angle, trig.cos angle, 0, 0, 0, 1⟩

/-- The function `Utilities::MixMat3d(a1, a2, a3)`.  Eigen multiplies the three
rotations as quaternions and converts the result; in exact arithmetic that is
the product of the three matrices. -/
def MixMat3d {R : Type} [LinearOrderedField R] (trig : Trig R) (a1 a2 a3 : R) : Matrix3d R :=
  ((AngleAxisd.UnitX trig (-a3)).mul (AngleAxisd.UnitY trig a2)).mul
    (AngleAxisd.UnitZ trig (-a1))

/-- The function `Utilities::MixMatAngles3d(mixMat)`: the three angles. -/
def MixMatAngles3d {R : Type} [LinearOrderedField R] (trig : Trig R) (mixMat : Matrix3d R) :
    R × R × R :=
  (trig.atan (mixMat.m01 / mixMat.m00), trig.asin mixMat.m02,
    trig.atan (mixMat.m12 / mixMat.m22))

/-- The statement `mixMat.row(0) *= -1`. -/
def Matrix3d.negateRow0 {R : Type} [LinearOrderedField R] (m : Matrix3d R) : Matrix3d R :=
  ⟨-m.m00, -m.m01, -m.m02, m.m10, m.m11, m.m12, m.m20, m.m21, m.m22⟩

/-- The statement `mixMat.row(1) *= -1`. -/
def Matrix3d.negateRow1 {R : Type} [LinearOrderedField R] (m : Matrix3d R) : Matrix3d R :=
  ⟨m.m00, m.m01, m.m02, -m.m10, -m.m11, -m.m12, m.m20, m.m21, m.m22⟩

/-- The statement `mixMat.row(2) *= -1`. -/
def Matrix3d.negateRow2 {R : Type} [LinearOrderedField R] (m : Matrix3d R) : Matrix3d R :=
  ⟨m.m00, m.m01, m.m02, m.m10, m.m11, m.m12, -m.m20, -m.m21, -m.m22⟩

/-- The function `Utilities::MixMatNormalForm3d(mixMat)`: the matrix it leaves
in its in-out argument. -/
def MixMatNormalForm3d {R : Type} [LinearOrderedField R] (mixMat : Matrix3d R) : Matrix3d R :=
  let mixMat := if mixMat.m00 < 0 then mixMat.negateRow0 else mixMat
  let mixMat := if mixMat.m22 < 0 then mixMat.negateRow2 else mixMat
  if mixMat.determinant < 0 then mixMat.negateRow1 else mixMat

/-- The row `m.row(i)`. -/
def Matrix3d.row {R : Type} (m : Matrix3d R) : Fin 3 → Vector3d R
  | 0 => ⟨m.m00, m.m01, m.m02⟩
  | 1 => ⟨m.m10, m.m11, m.m12⟩
  | 2 => ⟨m.m20, m.m21, m.m22⟩

/-- The product `Eigen::PermutationMatrix<3>(indices).transpose() * m`: row `i`
of the result is row `indices[i]` of `m`. -/
def permuteRows {R : Type} (indices : Fin 3 → Fin 3) (m : Matrix3d R) : Matrix3d R :=
  ⟨(m.row (indices 0)).x, (m.row (indices 0)).y, (m.row (indices 0)).z,
    (m.row (indices 1)).x, (m.row (indices 1)).y, (m.row (indices 1)).z,
    (m.row (indices 2)).x, (m.row (indices 2)).y, (m.row (indices 2)).z⟩

/-- The rows of `m` are orthonormal. -/
structure Matrix3d.Orthonormal {R : Type} [LinearOrderedField R] (m : Matrix3d R) : Prop where
  /-- Row 0 has norm 1. -/
  h00 : m.m00 * m.m00 + m.m01 * m.m01 + m.m02 * m.m02 = 1
  /-- Rows 0 and 1 are orthogonal. -/
  h01 : m.m00 * m.m10 + m.m01 * m.m11 + m.m02 * m.m12 = 0
  /-- Rows 0 and 2 are orthogonal. -/
  h02 : m.m00 * m.m20 + m.m01 * m.m21 + m.m02 * m.m22 = 0
  /-- Row 1 has norm 1. -/
  h11 : m.m10 * m.m10 + m.m11 * m.m11 + m.m12 * m.m12 = 1
  /-- Rows 1 and 2 are orthogonal. -/
  h12 : m.m10 * m.m20 + m.m11 * m.m21 + m.m12 * m.m22 = 0
  /-- Row 2 has norm 1. -/
  h22 : m.m20 * m.m20 + m.m21 * m.m21 + m.m22 * m.m22 = 1

theorem Matrix3d.eq_of_entries {R : Type} :
    ∀ {a b : Matrix3d R}, a.m00 = b.m00 → a.m01 = b.m01 → a.m02 = b.m02 →
      a.m10 = b.m10 → a.m11 = b.m11 → a.m12 = b.m12 →
      a.m20 = b.m20 → a.m21 = b.m21 → a.m22 = b.m22 → a = b
  | ⟨_, _, _, _, _, _, _, _, _⟩, ⟨_, _, _, _, _, _, _, _, _⟩,
    rfl, rfl, rfl, rfl, rfl, rfl, rfl, rfl, rfl => rfl

theorem Matrix3d.determinant_mul {R : Type} [LinearOrderedField R] (a b : Matrix3d R) :
    (a.mul b).determinant = a.determinant * b.determinant := by
  simp only [Matrix3d.mul, Matrix3d.determinant]
  ring

theorem Matrix3d.Orthonormal.mul {R : Type} [LinearOrderedField R] {a b : Matrix3d R}
    (ha : a.Orthonormal) (hb : b.Orthonormal) : (a.mul b).Orthonormal := by
  constructor <;> simp only [Matrix3d.mul]
  · linear_combination a.m00 * a.m00 * hb.h00 + a.m00 * a.m01 * hb.h01 + a.m00 * a.m02 * hb.h02 + a.m01 * a.m00 * hb.h01 + a.m01 * a.m01 * hb.h11 + a.m01 * a.m02 * hb.h12 + a.m02 * a.m00 * hb.h02 + a.m02 * a.m01 * hb.h12 + a.m02 * a.m02 * hb.h22 + ha.h00
  · linear_combination a.m00 * a.m10 * hb.h00 + a.m00 * a.m11 * hb.h01 + a.m00 * a.m12 * hb.h02 + a.m01 * a.m10 * hb.h01 + a.m01 * a.m11 * hb.h11 + a.m01 * a.m12 * hb.h12 + a.m02 * a.m10 * hb.h02 + a.m02 * a.m11 * hb.h12 + a.m02 * a.m12 * hb.h22 + ha.h01
  · linear_combination a.m00 * a.m20 * hb.h00 + a.m00 * a.m21 * hb.h01 + a.m00 * a.m22 * hb.h02 + a.m01 * a.m20 * hb.h01 + a.m01 * a.m21 * hb.h11 + a.m01 * a.m22 * hb.h12 + a.m02 * a.m20 * hb.h02 + a.m02 * a.m21 * hb.h12 + a.m02 * a.m22 * hb.h22 + ha.h02
  · linear_combination a.m10 * a.m10 * hb.h00 + a.m10 * a.m11 * hb.h01 + a.m10 * a.m12 * hb.h02 + a.m11 * a.m10 * hb.h01 + a.m11 * a.m11 * hb.h11 + a.m11 * a.m12 * hb.h12 + a.m12 * a.m10 * hb.h02 + a.m12 * a.m11 * hb.h12 + a.m12 * a.m12 * hb.h22 + ha.h11
  · linear_combination a.m10 * a.m20 * hb.h00 + a.m10 * a.m21 * hb.h01 + a.m10 * a.m22 * hb.h02 + a.m11 * a.m20 * hb.h01 + a.m11 * a.m21 * hb.h11 + a.m11 * a.m22 * hb.h12 + a.m12 * a.m20 * hb.h02 + a.m12 * a.m21 * hb.h12 + a.m12 * a.m22 * hb.h22 + ha.h12
  · linear_combination a.m20 * a.m20 * hb.h00 + a.m20 * a.m21 * hb.h01 + a.m20 * a.m22 * hb.h02 + a.m21 * a.m20 * hb.h01 + a.m21 * a.m21 * hb.h11 + a.m21 * a.m22 * hb.h12 + a.m22 * a.m20 * hb.h02 + a.m22 * a.m21 * hb.h12 + a.m22 * a.m22 * hb.h22 + ha.h22

theorem AngleAxisd.UnitX_rotation (angle : ℝ) :
    (AngleAxisd.UnitX Trig.real angle).Orthonormal ∧
      (AngleAxisd.UnitX Trig.real angle).determinant = 1 := by
  have h := Real.sin_sq_add_cos_sq angle
  refine ⟨⟨?_, ?_, ?_, ?_, ?_, ?_⟩, ?_⟩ <;>
    simp only [AngleAxisd.UnitX, Trig.real, Matrix3d.determinant] <;> nlinarith [h]

theorem AngleAxisd.UnitY_rotation (angle : ℝ) :
    (AngleAxisd.UnitY Trig.real angle).Orthonormal ∧
      (AngleAxisd.UnitY Trig.real angle).determinant = 1 := by
  have h := Real.sin_sq_add_cos_sq angle
  refine ⟨⟨?_, ?_, ?_, ?_, ?_, ?_⟩, ?_⟩ <;>
    simp only [AngleAxisd.UnitY, Trig.real, Matrix3d.determinant] <;> nlinarith [h]

theorem AngleAxisd.UnitZ_rotation (angle : ℝ) :
    (AngleAxisd.UnitZ Trig.real angle).Orthonormal ∧
      (AngleAxisd.UnitZ Trig.real angle).determinant = 1 := by
  have h := Real.sin_sq_add_cos_sq angle
  refine ⟨⟨?_, ?_, ?_, ?_, ?_, ?_⟩, ?_⟩ <;>
    simp only [AngleAxisd.UnitZ, Trig.real, Matrix3d.determinant] <;> nlinarith [h]

theorem MixMat3d_rotation (a1 a2 a3 : ℝ) :
    (MixMat3d Trig.real a1 a2 a3).Orthonormal ∧
      (MixMat3d Trig.real a1 a2 a3).determinant = 1 := by
  obtain ⟨hx, dx⟩ := AngleAxisd.UnitX_rotation (-a3)
  obtain ⟨hy, dy⟩ := AngleAxisd.UnitY_rotation a2
  obtain ⟨hz, dz⟩ := AngleAxisd.UnitZ_rotation (-a1)
  refine ⟨(hx.mul hy).mul hz, ?_⟩
  unfold MixMat3d
  rw [Matrix3d.determinant_mul, Matrix3d.determinant_mul, dx, dy, dz]
  norm_num

/-- The matrix of `MixMat3d` is the one of its documentation. -/
theorem MixMat3d_entries (a1 a2 a3 : ℝ) :
    MixMat3d Trig.real a1 a2 a3 =
      ⟨Real.cos a1 * Real.cos a2, Real.sin a1 * Real.cos a2, Real.sin a2,
        -(Real.sin a1 * Real.cos a3 + Real.cos a1 * Real.sin a2 * Real.sin a3),
        Real.cos a1 * Real.cos a3 - Real.sin a1 * Real.sin a2 * Real.sin a3,
        Real.cos a2 * Real.sin a3,
        Real.sin a1 * Real.sin a3 - Real.cos a1 * Real.sin a2 * Real.cos a3,
        -(Real.cos a1 * Real.sin a3 + Real.sin a1 * Real.sin a2 * Real.cos a3),
        Real.cos a2 * Real.cos a3⟩ := by
  apply Matrix3d.eq_of_entries <;>
    simp only [MixMat3d, Matrix3d.mul, AngleAxisd.UnitX, AngleAxisd.UnitY, AngleAxisd.UnitZ,
      Trig.real, Real.cos_neg, Real.sin_neg] <;> ring

theorem Matrix3d.Orthonormal.cofactor02 {R : Type} [LinearOrderedField R]
    {m : Matrix3d R} (h : m.Orthonormal)
    (hdet : m.determinant = 1) : m.m02 = (m.m10 * m.m21 - m.m11 * m.m20) := by
  simp only [Matrix3d.determinant] at hdet
  linear_combination (-m.m02) * hdet + ((m.m10 * m.m21 - m.m11 * m.m20)) * h.h00 + (-(m.m00 * m.m21 - m.m01 * m.m20)) * h.h01 + ((m.m00 * m.m11 - m.m01 * m.m10)) * h.h02

theorem Matrix3d.Orthonormal.cofactor10 {R : Type} [LinearOrderedField R]
    {m : Matrix3d R} (h : m.Orthonormal)
    (hdet : m.determinant = 1) : m.m10 = -(m.m01 * m.m22 - m.m02 * m.m21) := by
  simp only [Matrix3d.determinant] at hdet
  linear_combination (-m.m10) * hdet + ((m.m11 * m.m22 - m.m12 * m.m21)) * h.h01 + (-(m.m01 * m.m22 - m.m02 * m.m21)) * h.h11 + ((m.m01 * m.m12 - m.m02 * m.m11)) * h.h12

theorem Matrix3d.Orthonormal.cofactor11 {R : Type} [LinearOrderedField R]
    {m : Matrix3d R} (h : m.Orthonormal)
    (hdet : m.determinant = 1) : m.m11 = (m.m00 * m.m22 - m.m02 * m.m20) := by
  simp only [Matrix3d.determinant] at hdet
  linear_combination (-m.m11) * hdet + (-(m.m10 * m.m22 - m.m12 * m.m20)) * h.h01 + ((m.m00 * m.m22 - m.m02 * m.m20)) * h.h11 + (-(m.m00 * m.m12 - m.m02 * m.m10)) * h.h12

theorem Matrix3d.Orthonormal.cofactor12 {R : Type} [LinearOrderedField R]
    {m : Matrix3d R} (h : m.Orthonormal)
    (hdet : m.determinant = 1) : m.m12 = -(m.m00 * m.m21 - m.m01 * m.m20) := by
  simp only [Matrix3d.determinant] at hdet
  linear_combination (-m.m12) * hdet + ((m.m10 * m.m21 - m.m11 * m.m20)) * h.h01 + (-(m.m00 * m.m21 - m.m01 * m.m20)) * h.h11 + ((m.m00 * m.m11 - m.m01 * m.m10)) * h.h12

theorem Matrix3d.Orthonormal.cofactor20 {R : Type} [LinearOrderedField R]
    {m : Matrix3d R} (h : m.Orthonormal)
    (hdet : m.determinant = 1) : m.m20 = (m.m01 * m.m12 - m.m02 * m.m11) := by
  simp only [Matrix3d.determinant] at hdet
  linear_combination (-m.m20) * hdet + ((m.m11 * m.m22 - m.m12 * m.m21)) * h.h02 + (-(m.m01 * m.m22 - m.m02 * m.m21)) * h.h12 + ((m.m01 * m.m12 - m.m02 * m.m11)) * h.h22

theorem Matrix3d.Orthonormal.cofactor21 {R : Type} [LinearOrderedField R]
    {m : Matrix3d R} (h : m.Orthonormal)
    (hdet : m.determinant = 1) : m.m21 = -(m.m00 * m.m12 - m.m02 * m.m10) := by
  simp only [Matrix3d.determinant] at hdet
  linear_combination (-m.m21) * hdet + (-(m.m10 * m.m22 - m.m12 * m.m20)) * h.h02 + ((m.m00 * m.m22 - m.m02 * m.m20)) * h.h12 + (-(m.m00 * m.m12 - m.m02 * m.m10)) * h.h22

theorem Matrix3d.Orthonormal.cofactor22 {R : Type} [LinearOrderedField R]
    {m : Matrix3d R} (h : m.Orthonormal)
    (hdet : m.determinant = 1) : m.m22 = (m.m00 * m.m11 - m.m01 * m.m10) := by
  simp only [Matrix3d.determinant] at hdet
  linear_combination (-m.m22) * hdet + ((m.m10 * m.m21 - m.m11 * m.m20)) * h.h02 + (-(m.m00 * m.m21 - m.m01 * m.m20)) * h.h12 + ((m.m00 * m.m11 - m.m01 * m.m10)) * h.h22

theorem Matrix3d.Orthonormal.column2 {R : Type} [LinearOrderedField R] {m : Matrix3d R}
    (h : m.Orthonormal) (hdet : m.determinant = 1) :
    m.m02 * m.m02 + m.m12 * m.m12 + m.m22 * m.m22 = 1 := by
  have e02 := h.cofactor02 hdet
  have e12 := h.cofactor12 hdet
  have e22 := h.cofactor22 hdet
  simp only [Matrix3d.determinant] at hdet
  linear_combination hdet + m.m02 * e02 + m.m12 * e12 + m.m22 * e22

theorem Matrix3d.Orthonormal.determinant_sq {R : Type} [LinearOrderedField R] {m : Matrix3d R}
    (h : m.Orthonormal) : m.determinant = 1 ∨ m.determinant = -1 := by
  have key : m.determinant * m.determinant =
      (m.m00 * m.m00 + m.m01 * m.m01 + m.m02 * m.m02) *
          ((m.m10 * m.m10 + m.m11 * m.m11 + m.m12 * m.m12) *
              (m.m20 * m.m20 + m.m21 * m.m21 + m.m22 * m.m22) -
            (m.m10 * m.m20 + m.m11 * m.m21 + m.m12 * m.m22) *
              (m.m10 * m.m20 + m.m11 * m.m21 + m.m12 * m.m22)) -
        (m.m00 * m.m10 + m.m01 * m.m11 + m.m02 * m.m12) *
          ((m.m00 * m.m10 + m.m01 * m.m11 + m.m02 * m.m12) *
              (m.m20 * m.m20 + m.m21 * m.m21 + m.m22 * m.m22) -
            (m.m10 * m.m20 + m.m11 * m.m21 + m.m12 * m.m22) *
              (m.m00 * m.m20 + m.m01 * m.m21 + m.m02 * m.m22)) +
        (m.m00 * m.m20 + m.m01 * m.m21 + m.m02 * m.m22) *
          ((m.m00 * m.m10 + m.m01 * m.m11 + m.m02 * m.m12) *
              (m.m10 * m.m20 + m.m11 * m.m21 + m.m12 * m.m22) -
            (m.m10 * m.m10 + m.m11 * m.m11 + m.m12 * m.m12) *
              (m.m00 * m.m20 + m.m01 * m.m21 + m.m02 * m.m22)) := by
    simp only [Matrix3d.determinant]
    ring
  rw [h.h00, h.h01, h.h02, h.h11, h.h12, h.h22] at key
  have key1 : m.determinant * m.determinant = 1 := by rw [key]; norm_num
  exact mul_self_eq_one_iff.mp key1

theorem Matrix3d.Orthonormal.negateRow0 {R : Type} [LinearOrderedField R] {m : Matrix3d R}
    (h : m.Orthonormal) : m.negateRow0.Orthonormal := by
  constructor <;> simp only [Matrix3d.negateRow0]
  · linear_combination h.h00
  · linear_combination -h.h01
  · linear_combination -h.h02
  · exact h.h11
  · exact h.h12
  · exact h.h22

theorem Matrix3d.Orthonormal.negateRow1 {R : Type} [LinearOrderedField R] {m : Matrix3d R}
    (h : m.Orthonormal) : m.negateRow1.Orthonormal := by
  constructor <;> simp only [Matrix3d.negateRow1]
  · exact h.h00
  · linear_combination -h.h01
  · exact h.h02
  · linear_combination h.h11
  · linear_combination -h.h12
  · exact h.h22

theorem Matrix3d.Orthonormal.negateRow2 {R : Type} [LinearOrderedField R] {m : Matrix3d R}
    (h : m.Orthonormal) : m.negateRow2.Orthonormal := by
  constructor <;> simp only [Matrix3d.negateRow2]
  · exact h.h00
  · exact h.h01
  · linear_combination -h.h02
  · exact h.h11
  · linear_combination -h.h12
  · linear_combination h.h22

theorem Matrix3d.determinant_negateRow1 {R : Type} [LinearOrderedField R] (m : Matrix3d R) :
    m.negateRow1.determinant = -m.determinant := by
  simp only [Matrix3d.negateRow1, Matrix3d.determinant]
  ring

/-- The normal form of a matrix with orthonormal rows is a rotation with
non-negative corner entries. -/
theorem MixMatNormalForm3d_spec {R : Type} [LinearOrderedField R] {m : Matrix3d R}
    (h : m.Orthonormal) :
    (MixMatNormalForm3d m).Orthonormal ∧ (MixMatNormalForm3d m).determinant = 1 ∧
      0 ≤ (MixMatNormalForm3d m).m00 ∧ 0 ≤ (MixMatNormalForm3d m).m22 := by
  have step1 : ∃ m1 : Matrix3d R, m1 = (if m.m00 < 0 then m.negateRow0 else m) ∧
      m1.Orthonormal ∧ 0 ≤ m1.m00 := by
    refine ⟨_, rfl, ?_, ?_⟩
    · split_ifs
      · exact h.negateRow0
      · exact h
    · split_ifs with hlt
      · simp only [Matrix3d.negateRow0]
        linarith
      · exact not_lt.mp hlt
  obtain ⟨m1, e1, o1, p1⟩ := step1
  have step2 : ∃ m2 : Matrix3d R, m2 = (if m1.m22 < 0 then m1.negateRow2 else m1) ∧
      m2.Orthonormal ∧ 0 ≤ m2.m00 ∧ 0 ≤ m2.m22 := by
    refine ⟨_, rfl, ?_, ?_, ?_⟩
    · split_ifs
      · exact o1.negateRow2
      · exact o1
    · split_ifs
      · exact p1
      · exact p1
    · split_ifs with hlt
      · simp only [Matrix3d.negateRow2]
        linarith
      · exact not_lt.mp hlt
  obtain ⟨m2, e2, o2, p2, q2⟩ := step2
  have e3 : MixMatNormalForm3d m = if m2.determinant < 0 then m2.negateRow1 else m2 := by
    simp only [MixMatNormalForm3d, e2, e1]
  rw [e3]
  split_ifs with hlt
  · refine ⟨o2.negateRow1, ?_, p2, q2⟩
    rw [Matrix3d.determinant_negateRow1]
    rcases o2.determinant_sq with hd | hd
    · rw [hd] at hlt
      exact absurd hlt (by norm_num)
    · rw [hd]
      norm_num
  · refine ⟨o2, ?_, p2, q2⟩
    rcases o2.determinant_sq with hd | hd
    · exact hd
    · rw [hd] at hlt
      exact absurd (by norm_num) hlt

theorem fin3_cases (i : Fin 3) : i = 0 ∨ i = 1 ∨ i = 2 := by
  fin_cases i <;> simp

/-- Permuting the rows of a matrix with orthonormal rows keeps them
orthonormal. -/
theorem permuteRows_orthonormal {R : Type} [LinearOrderedField R] {m : Matrix3d R}
    (h : m.Orthonormal) (indices : Fin 3 → Fin 3) (hperm : Function.Injective indices) :
    (permuteRows indices m).Orthonormal := by
  have n01 : indices 0 ≠ indices 1 := fun e => absurd (hperm e) (by decide)
  have n02 : indices 0 ≠ indices 2 := fun e => absurd (hperm e) (by decide)
  have n12 : indices 1 ≠ indices 2 := fun e => absurd (hperm e) (by decide)
  rcases fin3_cases (indices 0) with h0 | h0 | h0 <;>
    rcases fin3_cases (indices 1) with h1 | h1 | h1 <;>
    rcases fin3_cases (indices 2) with h2 | h2 | h2 <;>
    first
    | exact absurd (h0.trans h1.symm) n01
    | exact absurd (h0.trans h2.symm) n02
    | exact absurd (h1.trans h2.symm) n12
    | (constructor <;> simp only [permuteRows, h0, h1, h2, Matrix3d.row] <;>
        first
        | exact h.h00
        | exact h.h01
        | exact h.h02
        | exact h.h11
        | exact h.h12
        | exact h.h22
        | linear_combination h.h01
        | linear_combination h.h02
        | linear_combination h.h12)

/-- A rotation in normal form with non-zero corner entries is the mixing matrix
of its own angles. -/
theorem MixMat3d_of_angles {m : Matrix3d ℝ} (h : m.Orthonormal) (hdet : m.determinant = 1)
    (p00 : 0 < m.m00) (p22 : 0 < m.m22) :
    MixMat3d Trig.real (MixMatAngles3d Trig.real m).1 (MixMatAngles3d Trig.real m).2.1
      (MixMatAngles3d Trig.real m).2.2 = m := by
  have hcol := h.column2 hdet
  have hrow := h.h00
  have hc2 : 0 < 1 - m.m02 ^ 2 := by nlinarith
  obtain ⟨c, hc, hcc⟩ : ∃ c : ℝ, 0 < c ∧ c * c = 1 - m.m02 ^ 2 :=
    ⟨Real.sqrt (1 - m.m02 ^ 2), Real.sqrt_pos.mpr hc2, Real.mul_self_sqrt hc2.le⟩
  have hsqrt : Real.sqrt (1 - m.m02 ^ 2) = c := by
    rw [← hcc]
    exact Real.sqrt_mul_self hc.le
  have hle : -1 ≤ m.m02 ∧ m.m02 ≤ 1 := by
    constructor <;> nlinarith
  have hs1 : Real.sqrt (1 + (m.m01 / m.m00) ^ 2) = c / m.m00 := by
    have e : 1 + (m.m01 / m.m00) ^ 2 = (c / m.m00) * (c / m.m00) := by
      field_simp
      nlinarith
    rw [e]
    exact Real.sqrt_mul_self (div_pos hc p00).le
  have hs3 : Real.sqrt (1 + (m.m12 / m.m22) ^ 2) = c / m.m22 := by
    have e : 1 + (m.m12 / m.m22) ^ 2 = (c / m.m22) * (c / m.m22) := by
      field_simp
      nlinarith
    rw [e]
    exact Real.sqrt_mul_self (div_pos hc p22).le
  have c1 : Real.cos (Real.arctan (m.m01 / m.m00)) = m.m00 / c := by
    rw [Real.cos_arctan, hs1]
    field_simp
  have s1 : Real.sin (Real.arctan (m.m01 / m.m00)) = m.m01 / c := by
    rw [Real.sin_arctan, hs1]
    field_simp
  have c3 : Real.cos (Real.arctan (m.m12 / m.m22)) = m.m22 / c := by
    rw [Real.cos_arctan, hs3]
    field_simp
  have s3 : Real.sin (Real.arctan (m.m12 / m.m22)) = m.m12 / c := by
    rw [Real.sin_arctan, hs3]
    field_simp
  have c2 : Real.cos (Real.arcsin m.m02) = c := by
    rw [Real.cos_arcsin, hsqrt]
  have s2 : Real.sin (Real.arcsin m.m02) = m.m02 := Real.sin_arcsin hle.1 hle.2
  have e10 := h.cofactor10 hdet
  have e11 := h.cofactor11 hdet
  have e20 := h.cofactor20 hdet
  have e21 := h.cofactor21 hdet
  have hcne : c ≠ 0 := hc.ne'
  have k10 : m.m10 * (c * c) = -(m.m01 * m.m22 + m.m00 * m.m02 * m.m12) := by
    linear_combination m.m10 * hcc + e10 + m.m02 * e21
  have k11 : m.m11 * (c * c) = m.m00 * m.m22 - m.m01 * m.m02 * m.m12 := by
    linear_combination m.m11 * hcc + e11 - m.m02 * e20
  have k20 : m.m20 * (c * c) = m.m01 * m.m12 - m.m00 * m.m02 * m.m22 := by
    linear_combination m.m20 * hcc + e20 - m.m02 * e11
  have k21 : m.m21 * (c * c) = -(m.m00 * m.m12 + m.m01 * m.m02 * m.m22) := by
    linear_combination m.m21 * hcc + e21 + m.m02 * e10
  have hcc0 : c * c ≠ 0 := mul_ne_zero hcne hcne
  rw [MixMat3d_entries]
  simp only [MixMatAngles3d, Trig.real, c1, s1, c2, s2, c3, s3]
  refine Matrix3d.eq_of_entries ?_ ?_ ?_ ?_ ?_ ?_ ?_ ?_ ?_
  · show m.m00 / c * c = m.m00
    field_simp
  · show m.m01 / c * c = m.m01
    field_simp
  · rfl
  · show -(m.m01 / c * (m.m22 / c) + m.m00 / c * m.m02 * (m.m12 / c)) = m.m10
    rw [(eq_div_iff hcc0).mpr k10]
    field_simp
  · show m.m00 / c * (m.m22 / c) - m.m01 / c * m.m02 * (m.m12 / c) = m.m11
    rw [(eq_div_iff hcc0).mpr k11]
    field_simp
  · show c * (m.m12 / c) = m.m12
    field_simp
  · show m.m01 / c * (m.m12 / c) - m.m00 / c * m.m02 * (m.m22 / c) = m.m20
    rw [(eq_div_iff hcc0).mpr k20]
    field_simp
  · show -(m.m00 / c * (m.m12 / c) + m.m01 / c * m.m02 * (m.m22 / c)) = m.m21
    rw [(eq_div_iff hcc0).mpr k21]
    field_simp
  · show c * (m.m22 / c) = m.m22
    field_simp

/-- The angles of `MixMatAngles3d` on the real numbers: the second one lies in
the closed interval from `-π/2` to `π/2`, the first and third in the open one. -/
theorem MixMatAngles3d_range (m : Matrix3d ℝ) :
    (-(Real.pi / 2) < (MixMatAngles3d Trig.real m).1 ∧
        (MixMatAngles3d Trig.real m).1 < Real.pi / 2) ∧
      (-(Real.pi / 2) ≤ (MixMatAngles3d Trig.real m).2.1 ∧
        (MixMatAngles3d Trig.real m).2.1 ≤ Real.pi / 2) ∧
      (-(Real.pi / 2) < (MixMatAngles3d Trig.real m).2.2 ∧
        (MixMatAngles3d Trig.real m).2.2 < Real.pi / 2) :=
  ⟨⟨Real.neg_pi_div_two_lt_arctan _, Real.arctan_lt_pi_div_two _⟩,
    ⟨Real.neg_pi_div_two_le_arcsin _, Real.arcsin_le_pi_div_two _⟩,
    ⟨Real.neg_pi_div_two_lt_arctan _, Real.arctan_lt_pi_div_two _⟩⟩

/-- The mixing matrix of the angles `(0, π/2, 0)`. -/
def exampleMixMat : Matrix3d ℝ := ⟨0, 0, 1, 0, 1, 0, -1, 0, 0⟩

/-- The row order `(0, 2, 1)`. -/
def exampleIndices : Fin 3 → Fin 3 := ![0, 2, 1]

theorem exampleIndices_normal_form :
    MixMatNormalForm3d (permuteRows exampleIndices (MixMat3d Trig.real 0 0 (Real.pi / 2))) =
      ⟨1, 0, 0, 0, 1, 0, 0, 0, 1⟩ := by
  rw [MixMat3d_entries]
  simp only [Real.cos_zero, Real.sin_zero, Real.cos_pi_div_two, Real.sin_pi_div_two]
  norm_num [MixMatNormalForm3d, permuteRows, exampleIndices, Matrix3d.row,
    Matrix3d.determinant, Matrix3d.negateRow0, Matrix3d.negateRow1, Matrix3d.negateRow2]

/-- Claim C25. For all real angles `a1`, `a2`, `a3` and every permutation
`indices` of the rows, let `R` be the normal form (`MixMatNormalForm3d`) of
the row-permuted rotation `MixMat3d(a1, a2, a3)`. Whenever `R(0,0)` and
`R(2,2)` are non-zero, `MixMat3d` of the three angles that `MixMatAngles3d(R)`
returns is `R` again. -/
theorem MixMat3d_round_trip (a1 a2 a3 : ℝ) (indices : Fin 3 → Fin 3)
    (hperm : Function.Injective indices)
    (h00 : (MixMatNormalForm3d (permuteRows indices (MixMat3d Trig.real a1 a2 a3))).m00 ≠ 0)
    (h22 : (MixMatNormalForm3d (permuteRows indices (MixMat3d Trig.real a1 a2 a3))).m22 ≠ 0) :
    MixMat3d Trig.real
        (MixMatAngles3d Trig.real
          (MixMatNormalForm3d (permuteRows indices (MixMat3d Trig.real a1 a2 a3)))).1
        (MixMatAngles3d Trig.real
          (MixMatNormalForm3d (permuteRows indices (MixMat3d Trig.real a1 a2 a3)))).2.1
        (MixMatAngles3d Trig.real
          (MixMatNormalForm3d (permuteRows indices (MixMat3d Trig.real a1 a2 a3)))).2.2 =
      MixMatNormalForm3d (permuteRows indices (MixMat3d Trig.real a1 a2 a3)) := by
  obtain ⟨ho, hdet, p00, p22⟩ := MixMatNormalForm3d_spec
    (permuteRows_orthonormal (MixMat3d_rotation a1 a2 a3).1 indices hperm)
  exact MixMat3d_of_angles ho hdet (lt_of_le_of_ne p00 (Ne.symm h00))
    (lt_of_le_of_ne p22 (Ne.symm h22))

/-- Witness for claim C25: the angles `(0, 0, π/2)` with the rows taken in
the order `(0, 2, 1)`; the normal form is the unit matrix. -/
theorem MixMat3d_round_trip_witness :
    Function.Injective exampleIndices ∧
      MixMatNormalForm3d (permuteRows exampleIndices (MixMat3d Trig.real 0 0 (Real.pi / 2))) =
        ⟨1, 0, 0, 0, 1, 0, 0, 0, 1⟩ ∧
      MixMat3d Trig.real
          (MixMatAngles3d Trig.real (MixMatNormalForm3d
            (permuteRows exampleIndices (MixMat3d Trig.real 0 0 (Real.pi / 2))))).1
          (MixMatAngles3d Trig.real (MixMatNormalForm3d
            (permuteRows exampleIndices (MixMat3d Trig.real 0 0 (Real.pi / 2))))).2.1
          (MixMatAngles3d Trig.real (MixMatNormalForm3d
            (permuteRows exampleIndices (MixMat3d Trig.real 0 0 (Real.pi / 2))))).2.2 =
        MixMatNormalForm3d
          (permuteRows exampleIndices (MixMat3d Trig.real 0 0 (Real.pi / 2))) :=
  ⟨by decide, exampleIndices_normal_form,
    MixMat3d_round_trip 0 0 (Real.pi / 2) exampleIndices (by decide)
      (by rw [exampleIndices_normal_form]; exact one_ne_zero)
      (by rw [exampleIndices_normal_form]; exact one_ne_zero)⟩

/-- Claim C28, at the matrix `exampleMixMat`: it is the rotation
`MixMat3d(0, π/2, 0)`, it is orthogonal with determinant `+1` and non-negative
`(0,0)` and `(2,2)` entries, `MixMatNormalForm3d` leaves it as it is, and the
second angle `MixMatAngles3d` returns for it is `π/2`, which is not in the
half-open interval from `-π/2` to `π/2` of the documentation. -/
theorem MixMatAngles3d_reaches_half_pi :
    exampleMixMat = MixMat3d Trig.real 0 (Real.pi / 2) 0 ∧
      exampleMixMat.Orthonormal ∧ exampleMixMat.determinant = 1 ∧
      0 ≤ exampleMixMat.m00 ∧ 0 ≤ exampleMixMat.m22 ∧
      MixMatNormalForm3d exampleMixMat = exampleMixMat ∧
      (MixMatAngles3d Trig.real exampleMixMat).2.1 = Real.pi / 2 ∧
      ¬ ((MixMatAngles3d Trig.real exampleMixMat).2.1 < Real.pi / 2) := by
  have hangle : (MixMatAngles3d Trig.real exampleMixMat).2.1 = Real.pi / 2 := by
    show Real.arcsin 1 = Real.pi / 2
    exact Real.arcsin_one
  refine ⟨?_, ?_, ?_, ?_, ?_, ?_, hangle, ?_⟩
  · rw [MixMat3d_entries]
    simp only [Real.cos_zero, Real.sin_zero, Real.cos_pi_div_two, Real.sin_pi_div_two]
    norm_num [exampleMixMat]
  · constructor <;> norm_num [exampleMixMat]
  · norm_num [exampleMixMat, Matrix3d.determinant]
  · norm_num [exampleMixMat]
  · norm_num [exampleMixMat]
  · norm_num [MixMatNormalForm3d, exampleMixMat, Matrix3d.determinant]
  · rw [hangle]
    exact lt_irrefl _

end ScannerS
